import Mathlib

/-!
# doomretro: event queue, title sequence, presentation, HUDs and player messages

A shallow embedding of parts of `src/src/d_main.c` and `src/src/hu_stuff.c`,
with theorems about the embedded functions.

Conventions of the embedding
* C `int` variables are `Int` (or `Nat` where the code masks them into
  `0 .. MAXEVENTS - 1`); no value in the properties below comes near the
  32-bit limits. C division and remainder are `Int.tdiv` and `Int.tmod`; a
  division by a variable that is zero makes the function return `none`.
* Global variables a function writes are fields of a state record that the
  function takes and returns; globals it only reads are fields of an
  environment record or plain arguments.
* Functions of other translation units and of the C library (`M_Responder`,
  `G_Responder`, `M_StringWidth`, `M_StringCompare`, `I_GetTime`,
  `wipe_ScreenWipe`, `sscanf`, drawing primitives) are arguments, or their calls
  are recorded in a log, in call order; they are taken not to change the
  variables modelled here.
* A loop that need not terminate takes a bound on its passes and returns `none`
  when the bound is hit.
* A long function is split into the blocks of its source, composed in order.
-/

namespace DoomRetro

/-! ## Event queue (`d_main.c`) -/

/-- Modelled from the spec: the tag of `event_t` (declared in `d_event.h`, which is
not part of the sources at hand). The spec lists the event kinds as key, mouse,
joystick button and quit; `d_main.c` itself only names `ev_mouse`. -/
inductive evtype_t where
  | ev_keydown
  | ev_keyup
  | ev_mouse
  | ev_joystick
  | ev_quit
  deriving DecidableEq, Repr

/-- Modelled from the spec: `event_t`, a tag with a payload (`d_event.h` is not part
of the sources at hand). -/
structure event_t where
  type : evtype_t
  data1 : Int
  data2 : Int
  data3 : Int
  deriving DecidableEq, Repr

/-- Capacity of the ring: `#define MAXEVENTS 64`. -/
def MAXEVENTS : Nat := 64

/-- The three file-scope variables of the queue:
`static event_t events[MAXEVENTS]; static int eventhead; static int eventtail;`.
The array is a map from index to slot; both indices are only ever assigned
values masked with `MAXEVENTS - 1`. -/
structure EventQueue where
  events : Nat → event_t
  eventhead : Nat
  eventtail : Nat

/-- Assignment `events[i] = ev`. -/
def storeEvent (events : Nat → event_t) (i : Nat) (ev : event_t) : Nat → event_t :=
  fun j => if j = i then ev else events j

/-- Function `D_PostEvent`:
```
events[eventhead++] = *ev;
eventhead &= MAXEVENTS - 1;
``` -/
def D_PostEvent (q : EventQueue) (ev : event_t) : EventQueue :=
  { q with
    events := storeEvent q.events q.eventhead ev
    eventhead := (q.eventhead + 1) &&& (MAXEVENTS - 1) }

/-- A run of `D_PostEvent` calls, first element posted first. -/
def postEvents (q : EventQueue) (evs : List event_t) : EventQueue :=
  evs.foldl D_PostEvent q

/-- A call made by `D_ProcessEvents` into the responder chain. For `M_Responder`
the returned boolean is recorded (`true`: the menu ate the event). -/
inductive ResponderCall where
  | M_Responder (ev : event_t) (ate : Bool)
  | G_Responder (ev : event_t)
  deriving DecidableEq, Repr

/-- One iteration of the loop of `D_ProcessEvents`: the event read from
`events + eventtail` and the responder calls made for it, in call order. -/
structure Dispatch where
  ev : event_t
  calls : List ResponderCall
  deriving DecidableEq, Repr

/-- The responders of the menu and of the game. They live in other translation
units; `σ` is whatever state they own. `G_Responder` returns a boolean that
`D_ProcessEvents` ignores. Neither touches the queue or the `wipe` flag. -/
structure Responders (σ : Type) where
  M_Responder : event_t → σ → Bool × σ
  G_Responder : event_t → σ → σ

/-- The loop of `D_ProcessEvents`:
```
for (; eventtail != eventhead; eventtail = (eventtail + 1) & (MAXEVENTS - 1))
{
    event_t *ev = events + eventtail;

    if (wipe && ev->type == ev_mouse)
        continue;
    if (M_Responder(ev))
        continue;           // menu ate the event
    G_Responder(ev);
}
```
`fuel` bounds the number of iterations; `none` means the bound was hit with
events still pending. -/
def D_ProcessEvents_loop {σ : Type} (R : Responders σ) (wipe : Bool) :
    Nat → EventQueue → σ → Option (EventQueue × σ × List Dispatch)
  | 0, q, w => if q.eventtail ≠ q.eventhead then none else some (q, w, [])
  | fuel + 1, q, w =>
    if q.eventtail ≠ q.eventhead then
      let ev := q.events q.eventtail
      let next : EventQueue := { q with eventtail := (q.eventtail + 1) &&& (MAXEVENTS - 1) }
      if wipe && ev.type == evtype_t.ev_mouse then
        (D_ProcessEvents_loop R wipe fuel next w).map
          fun r => (r.1, r.2.1, { ev := ev, calls := [] } :: r.2.2)
      else
        let m := R.M_Responder ev w
        if m.1 then
          (D_ProcessEvents_loop R wipe fuel next m.2).map
            fun r => (r.1, r.2.1, { ev := ev, calls := [.M_Responder ev true] } :: r.2.2)
        else
          (D_ProcessEvents_loop R wipe fuel next (R.G_Responder ev m.2)).map
            fun r => (r.1, r.2.1,
              { ev := ev, calls := [.M_Responder ev false, .G_Responder ev] } :: r.2.2)
    else some (q, w, [])

/-- Function `D_ProcessEvents`. The ring never holds `MAXEVENTS` unread events, so
`MAXEVENTS` iterations always suffice (`D_ProcessEvents_spec`). -/
def D_ProcessEvents {σ : Type} (R : Responders σ) (wipe : Bool) (q : EventQueue) (w : σ) :
    Option (EventQueue × σ × List Dispatch) :=
  D_ProcessEvents_loop R wipe MAXEVENTS q w

/-- The events a `D_ProcessEvents` call dequeued, in dequeue order. -/
def dequeued {σ : Type} (r : EventQueue × σ × List Dispatch) : List event_t :=
  r.2.2.map Dispatch.ev

/-- Number of unread events: the distance from `eventtail` to `eventhead`
around the ring. -/
def pending (q : EventQueue) : Nat :=
  (q.eventhead + MAXEVENTS - q.eventtail) % MAXEVENTS

/-- Shape of the responder calls `D_ProcessEvents` makes for one dequeued event:
none for a mouse event during a wipe; otherwise `M_Responder` first, followed by
`G_Responder` exactly when `M_Responder` returned false. -/
def dispatchedByChain (wipe : Bool) (d : Dispatch) : Prop :=
  if wipe = true ∧ d.ev.type = evtype_t.ev_mouse then
    d.calls = []
  else
    d.calls = [.M_Responder d.ev true] ∨
      d.calls = [.M_Responder d.ev false, .G_Responder d.ev]

/-- The queue at program start: zero-initialised statics. -/
def startQueue : EventQueue :=
  { events := fun _ => ⟨.ev_keydown, 0, 0, 0⟩, eventhead := 0, eventtail := 0 }

/-- Sample input: `n` distinct key events, numbered in `data1`. -/
def keyEvents (n : Nat) : List event_t :=
  (List.range n).map fun i => ⟨.ev_keydown, i, 0, 0⟩

/-- Sample input: a mouse event. -/
def mouseEvent : event_t := ⟨.ev_mouse, 0, 3, -2⟩

/-- Sample responders: the menu eats key releases; the state counts the calls. -/
def sampleResponders : Responders Nat :=
  { M_Responder := fun ev n => (ev.type == .ev_keyup, n + 1)
    G_Responder := fun _ n => n + 100 }

/-! ## HUD numbers (`hu_stuff.c`) -/

/-- Modelled from the spec: a patch, "a sprite/image asset used for UI". The type
`patch_t` is declared in a header that is not part of the sources at hand; the
HUD code reads `width` and `height` (through `SHORT`, the identity on a
little-endian host). `lump` stands for the identity of the pointer. -/
structure patch_t where
  lump : Nat
  width : Int
  height : Int
  deriving DecidableEq, Repr

/-- The test `val == 1 || (val >= 10 && val <= 19) || (val >= 100 && val <= 199)`
that both `DrawHUDNumber` and `HUDNumberWidth` apply after a minus sign. -/
def leadingOne (val : Int) : Bool :=
  val == 1 || (val ≥ 10 && val ≤ 19) || (val ≥ 100 && val ≤ 199)

/-- Function `DrawHUDNumber(&x, y, val, translucency, numset, gap, hudnumfunc)`.
The file-scope `minuspatch` (possibly `NULL`) and `minuspatchwidth` are arguments.
Returns the final `*x` and the calls of `hudnumfunc`, in call order.
```
int oldval = val;
if (val < 0) {
    if (minuspatch) {
        val = -val;
        hudnumfunc(*x, y + 5, minuspatch, translucency);
        *x += minuspatchwidth;
        if (val == 1 || (val >= 10 && val <= 19) || (val >= 100 && val <= 199))
            (*x)--;
    } else
        val = 0;
    oldval = val;
}
if (val > 99) {
    patch = numset[val / 100];
    hudnumfunc(*x, y, patch, translucency);
    *x += SHORT(patch->width) + gap;
}
val %= 100;
if (val > 9 || oldval > 99) {
    patch = numset[val / 10];
    hudnumfunc(*x, y, patch, translucency);
    *x += SHORT(patch->width) + gap;
}
val %= 10;
patch = numset[val];
hudnumfunc(*x, y, patch, translucency);
*x += SHORT(patch->width);
```
C division and remainder truncate: `Int.tdiv`, `Int.tmod`. -/
def DrawHUDNumber {τ δ : Type} (minuspatch : Option patch_t) (minuspatchwidth : Int)
    (x y val : Int) (translucency : τ) (numset : Int → patch_t) (gap : Int)
    (hudnumfunc : Int → Int → patch_t → τ → δ) : Int × List δ :=
  let oldval := val
  -- if (val < 0) ...
  let (val, oldval, x, drawn) : Int × Int × Int × List δ :=
    if val < 0 then
      match minuspatch with
      | some minus =>
        let val := -val
        let drawn := [hudnumfunc x (y + 5) minus translucency]
        let x := x + minuspatchwidth
        let x := if leadingOne val then x - 1 else x
        (val, val, x, drawn)
      | none => (0, 0, x, [])
    else (val, oldval, x, [])
  -- if (val > 99) ...
  let (x, drawn) : Int × List δ :=
    if val > 99 then
      let patch := numset (val.tdiv 100)
      (x + patch.width + gap, drawn ++ [hudnumfunc x y patch translucency])
    else (x, drawn)
  let val := val.tmod 100
  -- if (val > 9 || oldval > 99) ...
  let (x, drawn) : Int × List δ :=
    if val > 9 || oldval > 99 then
      let patch := numset (val.tdiv 10)
      (x + patch.width + gap, drawn ++ [hudnumfunc x y patch translucency])
    else (x, drawn)
  let val := val.tmod 10
  let patch := numset val
  (x + patch.width, drawn ++ [hudnumfunc x y patch translucency])

/-- Function `HUDNumberWidth(val, numset, gap)`.
```
int oldval = val;
int width = 0;
if (val < 0) {
    if (minuspatch) {
        val = -val;
        oldval = val;
        width = minuspatchwidth;
        if (val == 1 || (val >= 10 && val <= 19) || (val >= 100 && val <= 199))
            width--;
    } else
        val = 0;
    oldval = val;
}
if (val > 99)
    width += SHORT(numset[val / 100]->width) + gap;
val %= 100;
if (val > 9 || oldval > 99)
    width += SHORT(numset[val / 10]->width) + gap;
val %= 10;
width += SHORT(numset[val]->width);
return width;
``` -/
def HUDNumberWidth (minuspatch : Option patch_t) (minuspatchwidth : Int)
    (val : Int) (numset : Int → patch_t) (gap : Int) : Int :=
  let oldval := val
  let width : Int := 0
  -- if (val < 0) ...
  let (val, oldval, width) : Int × Int × Int :=
    if val < 0 then
      if minuspatch.isSome then
        let val := -val
        let width := minuspatchwidth
        let width := if leadingOne val then width - 1 else width
        (val, val, width)
      else (0, 0, width)
    else (val, oldval, width)
  let width := if val > 99 then width + (numset (val.tdiv 100)).width + gap else width
  let val := val.tmod 100
  let width :=
    if val > 9 || oldval > 99 then width + (numset (val.tdiv 10)).width + gap else width
  let val := val.tmod 10
  width + (numset val).width

/-- One recorded call `hudnumfunc(x, y, patch, translucency)`. -/
structure HUDPatchCall (τ : Type) where
  x : Int
  y : Int
  patch : patch_t
  translucency : τ
  deriving DecidableEq, Repr

/-- Sample input: a digit set whose glyph for `d` is `10 + d` wide. -/
def sampleNumset : Int → patch_t := fun d => ⟨d.toNat, 10 + d, 16⟩

/-- Sample input: a minus patch. -/
def sampleMinus : patch_t := ⟨99, 7, 6⟩

/-! ## Player messages (`hu_stuff.c`) -/

/-- What `HU_Ticker` and `HU_SetPlayerMessage` read and never write: globals of
other modules, two flags set by the cheat code, constants of headers that are not
part of the sources at hand (`HU_MSGTIMEOUT`, `ORIGINALWIDTH`, the size of
`viewplayer->prevmessage`), and two string helpers of other translation units.
* `idmypos` is `!!(viewplayer->cheats & CF_MYPOS)`;
* `r_messagescale_small` is `r_messagescale == r_messagescale_small`;
* `mypos` is the text `M_snprintf` formats into `buffer[80]` from `s_STSTR_MYPOS`
  and the player position in the IDMYPOS branch. -/
structure HUEnv where
  menuactive : Bool
  paused : Bool
  consoleactive : Bool
  inhelpscreens : Bool
  idbehold : Bool
  idmypos : Bool
  messages : Bool
  vid_widescreen : Bool
  r_althud : Bool
  r_messagescale_small : Bool
  mapwindow : Bool
  s_STSTR_BEHOLD : String
  mypos : String
  HU_MSGTIMEOUT : Int
  ORIGINALWIDTH : Int
  prevmessage_size : Nat
  M_StringWidth : String → Int
  M_StringCompare : String → String → Bool

/-- The variables the message code writes. `w_message` is the message widget, kept
as the list of texts handed to `HUlib_addMessageToSText`, oldest first;
`message` and `prevmessage` are the fields of `viewplayer` (`NULL` is `none`);
`messagecount` is the `static int messagecount = 1` of `HU_SetPlayerMessage`. -/
structure HUState where
  message_on : Bool
  message_dontfuckwithme : Bool
  message_nottobefuckedwith : Bool
  message_external : Bool
  message_dontpause : Bool
  blurred : Bool
  message_counter : Int
  w_message : List String
  message : Option String
  prevmessage : String
  messagecount : Int
  deriving DecidableEq, Repr

/-- Library helper `M_StringCopy(dest, src, dest_size)`: the value left in `dest`,
the first `dest_size - 1` characters of `src` (the copy is cut to leave room for
the terminator). -/
def M_StringCopy (src : String) (dest_size : Nat) : String :=
  ⟨src.data.take (dest_size - 1)⟩

/-- Library helper `M_snprintf(buf, buf_len, fmt, ...)`: the value left in `buf`,
the formatted text cut to `buf_len - 1` characters. -/
def M_snprintf (buf_len : Nat) (formatted : String) : String :=
  ⟨formatted.data.take (buf_len - 1)⟩

/-- The second operand of the condition of the countdown block of `HU_Ticker`:
`(!menuactive && !paused && !consoleactive) || inhelpscreens || message_dontpause`. -/
def countdownRuns (env : HUEnv) (s : HUState) : Bool :=
  (!env.menuactive && !env.paused && !env.consoleactive)
    || env.inhelpscreens || s.message_dontpause

/-- The countdown block of `HU_Ticker`:
```
if (message_counter
    && ((!menuactive && !paused && !consoleactive) || inhelpscreens || message_dontpause)
    && !idbehold
    && !idmypos
    && !--message_counter)
{
    message_on = false;
    message_nottobefuckedwith = false;

    if (message_dontpause)
    {
        message_dontpause = false;
        blurred = false;
    }

    message_external = false;
}
```
The decrement is the last operand of `&&`, so it runs only when all the
operands before it hold. -/
def HU_Ticker_countdown (env : HUEnv) (s : HUState) : HUState :=
  if s.message_counter ≠ 0
      && countdownRuns env s
      && !env.idbehold
      && !env.idmypos then
    let s := { s with message_counter := s.message_counter - 1 }
    if s.message_counter = 0 then
      let s := { s with message_on := false, message_nottobefuckedwith := false }
      let s := if s.message_dontpause then
          { s with message_dontpause := false, blurred := false }
        else s
      { s with message_external := false }
    else s
  else s

/-- The counter update both cheat branches of `HU_Ticker` start with:
```
if (!message_counter)
    message_counter = HU_MSGTIMEOUT;
else if (message_counter > 132)
    message_counter--;
``` -/
def cheatCounter (env : HUEnv) (message_counter : Int) : Int :=
  if message_counter = 0 then env.HU_MSGTIMEOUT
  else if message_counter > 132 then message_counter - 1
  else message_counter

/-- The cheat readout block of `HU_Ticker`:
```
if (idbehold)
{
    (counter update)
    HUlib_addMessageToSText(&w_message, s_STSTR_BEHOLD);
    message_on = true;
}
else if (idmypos)
{
    char    buffer[80];
    (counter update)
    (M_snprintf of the position into buffer)
    HUlib_addMessageToSText(&w_message, buffer);
    message_on = true;
}
``` -/
def HU_Ticker_cheats (env : HUEnv) (s : HUState) : HUState :=
  if env.idbehold then
    { s with
      message_counter := cheatCounter env s.message_counter
      w_message := s.w_message ++ [env.s_STSTR_BEHOLD]
      message_on := true }
  else if env.idmypos then
    { s with
      message_counter := cheatCounter env s.message_counter
      w_message := s.w_message ++ [env.mypos]
      message_on := true }
  else s

/-- The ellipsis loop of `HU_Ticker` on `char message[133]`:
```
while (M_StringWidth(message) > maxwidth)
{
    message[len - 1] = '.';
    message[len] = '.';
    message[len + 1] = '.';
    message[len + 2] = '\0';
    len--;
}
```
The first argument is the size of the array, the recursion is on `len`. One
iteration writes at the indices `len - 1 .. len + 2`: with `len = 0` the first
write is at index `-1`, and with `len + 2` not below the size the last one is
past the array; both are `none`. Otherwise the string in the buffer becomes its
first `len - 1` characters followed by three dots (when `len - 1` is beyond the
end of the string the old terminator stays in front of the written bytes and the
string is unchanged). -/
def ellipsisLoop (M_StringWidth : String → Int) (maxwidth : Int) (size : Nat) :
    Nat → String → Option String
  | 0, message => if M_StringWidth message > maxwidth then none else some message
  | len + 1, message =>
    if M_StringWidth message > maxwidth then
      if len + 3 < size then
        ellipsisLoop M_StringWidth maxwidth size len
          (if len ≤ message.length then ⟨message.data.take len ++ ['.', '.', '.']⟩
           else message)
      else none
    else some message

/-- The width limit of `HU_Ticker`:
```
int maxwidth = ORIGINALWIDTH - 6;
if ((vid_widescreen && r_althud) || r_messagescale == r_messagescale_small)
    maxwidth *= 2;
``` -/
def maxwidth (env : HUEnv) : Int :=
  if (env.vid_widescreen && env.r_althud) || env.r_messagescale_small then
    (env.ORIGINALWIDTH - 6) * 2
  else env.ORIGINALWIDTH - 6

/-- The text the display block of `HU_Ticker` hands to the widget for the pending
message `viewplayer->message`:
```
int     len = (int)strlen(viewplayer->message);
char    message[133];
(maxwidth)
M_StringCopy(message, viewplayer->message, sizeof(message));
(ellipsis loop)
```
It is `none` when the ellipsis loop writes outside `message`. -/
def shownText (env : HUEnv) (playermessage : String) : Option String :=
  let len := playermessage.length
  ellipsisLoop env.M_StringWidth (maxwidth env) 133 len (M_StringCopy playermessage 133)

/-- The display block of `HU_Ticker`:
```
if (viewplayer->message && (!message_nottobefuckedwith || message_dontfuckwithme))
{
    if ((messages || message_dontfuckwithme) && !idbehold && !idmypos)
    {
        (message: see shownText)
        HUlib_addMessageToSText(&w_message, message);
        message_on = true;
        message_counter = HU_MSGTIMEOUT;
        message_nottobefuckedwith = message_dontfuckwithme;
        message_dontfuckwithme = false;
    }

    viewplayer->message = NULL;
}
```
The result is `none` when the ellipsis loop writes outside `message`. -/
def HU_Ticker_display (env : HUEnv) (s : HUState) : Option HUState :=
  match s.message with
  | some playermessage =>
    if !s.message_nottobefuckedwith || s.message_dontfuckwithme then
      if (env.messages || s.message_dontfuckwithme) && !env.idbehold && !env.idmypos then
        match shownText env playermessage with
        | some message =>
          some { s with
            w_message := s.w_message ++ [message]
            message_on := true
            message_counter := env.HU_MSGTIMEOUT
            message_nottobefuckedwith := s.message_dontfuckwithme
            message_dontfuckwithme := false
            message := none }
        | none => none
      else some { s with message := none }
    else some s
  | none => some s

/-- Function `HU_Ticker`: the countdown block, the cheat readout block and the
display block, in this order. -/
def HU_Ticker (env : HUEnv) (s : HUState) : Option HUState :=
  HU_Ticker_display env (HU_Ticker_cheats env (HU_Ticker_countdown env s))

/-- Function `HU_SetPlayerMessage(message, external)`:
```
static int  messagecount = 1;
char        buffer[133];

if (M_StringCompare(message, viewplayer->prevmessage))
    M_snprintf(buffer, sizeof(buffer), "%s (%i)", message, ++messagecount);
else
{
    M_StringCopy(buffer, message, sizeof(buffer));
    messagecount = 1;
    M_StringCopy(viewplayer->prevmessage, message, sizeof(viewplayer->prevmessage));
}

viewplayer->message = strdup(buffer);
message_external = (external && mapwindow);
``` -/
def HU_SetPlayerMessage (env : HUEnv) (s : HUState) (message : String) (external : Bool) :
    HUState :=
  if env.M_StringCompare message s.prevmessage then
    let messagecount := s.messagecount + 1
    let buffer := M_snprintf 133 (message ++ " (" ++ toString messagecount ++ ")")
    { s with
      messagecount := messagecount
      message := some buffer
      message_external := external && env.mapwindow }
  else
    let buffer := M_StringCopy message 133
    { s with
      messagecount := 1
      prevmessage := M_StringCopy message env.prevmessage_size
      message := some buffer
      message_external := external && env.mapwindow }

/-- Sample environment: game running, no cheat readout, messages on, every
character 8 pixels wide, exact string comparison, `HU_MSGTIMEOUT` 140 tics on a
320 pixel wide screen. -/
def sampleEnv : HUEnv :=
  { menuactive := false, paused := false, consoleactive := false, inhelpscreens := false
    idbehold := false, idmypos := false, messages := true
    vid_widescreen := false, r_althud := false, r_messagescale_small := false
    mapwindow := false
    s_STSTR_BEHOLD := "inVuln, Str, Inviso, Rad, Allmap, or Lite-amp"
    mypos := "ang=0;x,y,z=(0,0,0)"
    HU_MSGTIMEOUT := 140
    ORIGINALWIDTH := 320
    prevmessage_size := 133
    M_StringWidth := fun str => 8 * str.length
    M_StringCompare := fun a b => a == b }

/-- Sample state: the line "Picked up a clip." is displayed with 50 tics left. -/
def sampleShown : HUState :=
  { message_on := true, message_dontfuckwithme := false
    message_nottobefuckedwith := false, message_external := false
    message_dontpause := false, blurred := false
    message_counter := 50, w_message := ["Picked up a clip."], message := none
    prevmessage := "Picked up a clip.", messagecount := 1 }

/-- Sample state: a protected line is displayed with `counter` tics left and an
ordinary message is pending. -/
def sampleProtected (counter : Int) : HUState :=
  { message_on := true, message_dontfuckwithme := false
    message_nottobefuckedwith := true, message_external := false
    message_dontpause := false, blurred := false
    message_counter := counter, w_message := ["Game saved."]
    message := some "Picked up a clip."
    prevmessage := "Picked up a clip.", messagecount := 1 }

/-- Sample state: nothing displayed, nothing pending. -/
def sampleIdle : HUState :=
  { message_on := false, message_dontfuckwithme := false
    message_nottobefuckedwith := false, message_external := false
    message_dontpause := false, blurred := false
    message_counter := 0, w_message := [], message := none
    prevmessage := "", messagecount := 1 }

/-! ## Title sequence and presentation (`d_main.c`) -/

/-- Modelled from the spec: the game states, "enum {title screen, level,
intermission, finale}" (declared in a header that is not part of the sources at
hand). `GS_MINUSONE` is the value `(gamestate_t)(-1)` that `d_main.c` stores in
`oldgamestate` and that `wipegamestate` "can be set to ... to force a wipe". -/
inductive gamestate_t where
  | GS_LEVEL
  | GS_INTERMISSION
  | GS_FINALE
  | GS_TITLESCREEN
  | GS_MINUSONE
  deriving DecidableEq, Repr

/-- Modelled from the spec: the player states; `D_DoAdvanceTitle` stores `PST_LIVE`
("not reborn"). The type is declared in a header that is not part of the sources
at hand. -/
inductive playerstate_t where
  | PST_LIVE
  | PST_DEAD
  | PST_REBORN
  deriving DecidableEq, Repr

/-- Modelled from the spec: the pending game actions ("no save/quit armed");
`d_main.c` only stores `ga_nothing`. The type is declared in a header that is not
part of the sources at hand. -/
inductive gameaction_t where
  | ga_nothing
  | ga_loadgame
  | ga_savegame
  | ga_other
  deriving DecidableEq, Repr

/-- The music `D_DoAdvanceTitle` starts: `mus_dm2ttl` or `mus_intro`. -/
inductive musicenum_t where
  | mus_dm2ttl
  | mus_intro
  deriving DecidableEq, Repr

/-- A call from `d_main.c` into another module, with its arguments. Patches and
palettes are named by their lump; `I_SetPalette lump offset` stands for
`I_SetPalette((byte *)W_CacheLumpName(lump, PU_CACHE) + offset)`, and the lump of
`V_DrawPatch` is the value of `pagename`, `none` for `NULL`. -/
inductive Call where
  | I_InitKeyboard
  | I_SetPalette (lump : String) (offset : Int)
  | S_StartMusic (music : musicenum_t)
  | M_StartControlPanel
  | V_DrawBigPatch (x y : Int) (scrn : Int) (lump : String)
  | V_DrawPatch (x y : Int) (scrn : Int) (lump : Option String)
  | R_ExecuteSetViewSize
  | wipe_StartScreen
  | WI_Drawer
  | F_Drawer
  | HU_Erase
  | ST_Drawer (fullscreen refresh : Bool)
  | R_RenderPlayerView
  | AM_Drawer
  | R_FillBackScreen
  | R_DrawViewBorder
  | V_LowGraphicDetail (top bottom : Int)
  | HU_Drawer
  | M_DarkBackground
  | V_DrawPatchWithShadow (x y : Int) (scrn : Int) (lump : String) (flag : Bool)
  | M_DrawCenteredString (y : Int) (text : String)
  | M_Drawer
  | I_FinishUpdate
  | wipe_EndScreen
  deriving DecidableEq, Repr

/-- The variables of `d_main.c` and of other modules that the functions below
write: the globals `advancetitle`, `forcewipe`, `splashscreen`, `wipe`,
`wipegamestate`, `titlesequence`, `pagetic`, `pagename`, `gamestate`, `usergame`,
`paused`, `gameaction`, `blurred`, `menuactive`,
`players[consoleplayer].playerstate`, the `static boolean flag` of
`D_DoAdvanceTitle` and the five statics of `D_Display`. -/
structure DoomState where
  advancetitle : Bool
  forcewipe : Bool
  splashscreen : Bool
  wipe : Bool
  wipegamestate : gamestate_t
  gamestate : gamestate_t
  titlesequence : Int
  pagetic : Int
  pagename : Option String
  flag : Bool
  playerstate : playerstate_t
  usergame : Bool
  paused : Bool
  gameaction : gameaction_t
  blurred : Bool
  menuactive : Bool
  viewactivestate : Bool
  menuactivestate : Bool
  pausedstate : Bool
  oldgamestate : gamestate_t
  borderdrawcount : Int
  deriving DecidableEq, Repr

/-- What the functions of `d_main.c` below read and never write: globals of other
modules, constants of headers that are not part of the sources at hand
(`TICRATE`, `SCREENWIDTH`, `SCREENHEIGHT`, `ORIGINALWIDTH`, `ORIGINALHEIGHT`), the
lump-presence flags `TITLEPIC`, `DMENUPIC`, `M_PAUSE`, and the sizes of the three
patches whose dimensions enter a coordinate.
* `commercial` is `gamemode == commercial`;
* `graphicdetail_low` is `graphicdetail == LOW`. -/
structure DoomEnv where
  TICRATE : Int
  SCREENWIDTH : Int
  SCREENHEIGHT : Int
  ORIGINALWIDTH : Int
  ORIGINALHEIGHT : Int
  TITLEPIC : Bool
  DMENUPIC : Bool
  M_PAUSE : Bool
  commercial : Bool
  setsizeneeded : Bool
  gametic : Int
  viewheight : Int
  viewheight2 : Int
  viewwindowy : Int
  scaledviewwidth : Int
  automapactive : Bool
  viewactive : Bool
  message_on : Bool
  graphicdetail_low : Bool
  widescreen : Bool
  splshttl : patch_t
  splshtxt : patch_t
  m_pause : patch_t

/-- Function `D_AdvanceTitle`: `advancetitle = true;`. -/
def D_AdvanceTitle (s : DoomState) : DoomState :=
  { s with advancetitle := true }

/-- Function `D_PageTicker`:
```
if (!menuactive)
{
    if (--pagetic < 0)
        D_AdvanceTitle();
    if (!TITLEPIC)
        M_StartControlPanel();
}
```
Returns the state and the calls made. -/
def D_PageTicker (env : DoomEnv) (s : DoomState) : DoomState × List Call :=
  if !s.menuactive then
    let s : DoomState := { s with pagetic := s.pagetic - 1 }
    let s : DoomState := if s.pagetic < 0 then D_AdvanceTitle s else s
    (s, if !env.TITLEPIC then [Call.M_StartControlPanel] else [])
  else (s, [])

/-- Function `D_PageDrawer`:
```
if (splashscreen)
{
    patch_t *ttl = W_CacheLumpName("SPLSHTTL", PU_CACHE);
    patch_t *txt = W_CacheLumpName("SPLSHTXT", PU_CACHE);
    int     pal = (pagetic >= 96 ? pagetic - 96 : (pagetic < 9 ? 9 - pagetic - 1 : 0));

    I_SetPalette((byte *)W_CacheLumpName("SPLSHPAL", PU_CACHE) + pal * 768);

    V_DrawBigPatch((SCREENWIDTH - ttl->width) / 2, (SCREENHEIGHT - ttl->height) / 2, 0, ttl);
    V_DrawBigPatch((SCREENWIDTH - txt->width) / 2, SCREENHEIGHT - txt->height - 2, 0, txt);
}
else
    V_DrawPatch(0, 0, 0, W_CacheLumpName(pagename, PU_CACHE));
```
Returns the calls made. -/
def D_PageDrawer (env : DoomEnv) (s : DoomState) : List Call :=
  if s.splashscreen then
    let pal : Int :=
      if s.pagetic ≥ 96 then s.pagetic - 96 else (if s.pagetic < 9 then 9 - s.pagetic - 1 else 0)
    [Call.I_SetPalette "SPLSHPAL" (pal * 768),
      Call.V_DrawBigPatch ((env.SCREENWIDTH - env.splshttl.width).tdiv 2)
        ((env.SCREENHEIGHT - env.splshttl.height).tdiv 2) 0 "SPLSHTTL",
      Call.V_DrawBigPatch ((env.SCREENWIDTH - env.splshtxt.width).tdiv 2)
        (env.SCREENHEIGHT - env.splshtxt.height - 2) 0 "SPLSHTXT"]
  else [Call.V_DrawPatch 0 0 0 s.pagename]

/-- Function `D_DoAdvanceTitle`:
```
static boolean      flag = true;

players[consoleplayer].playerstate = PST_LIVE;      // not reborn
advancetitle = false;
usergame = false;                                   // no save / end game here
paused = false;
gameaction = ga_nothing;
gamestate = GS_TITLESCREEN;
blurred = false;

switch (titlesequence)
{
    case 0:
        pagetic = 3 * TICRATE;
        splashscreen = true;
        break;

    case 1:
        if (flag)
        {
            flag = false;
            I_InitKeyboard();
        }

        pagename = (TITLEPIC ? "TITLEPIC" : (DMENUPIC ? "DMENUPIC" : "INTERPIC"));
        pagetic = 20 * TICRATE;
        I_SetPalette(W_CacheLumpName("PLAYPAL", PU_CACHE));
        splashscreen = false;
        S_StartMusic(gamemode == commercial ? mus_dm2ttl : mus_intro);
        break;

    case 2:
        pagename = "CREDIT";
        pagetic = 10 * TICRATE;
        forcewipe = true;
        break;
}

if (++titlesequence > 2)
    titlesequence = 1;
```
Returns the state and the calls made. -/
def D_DoAdvanceTitle (env : DoomEnv) (s : DoomState) : DoomState × List Call :=
  let s : DoomState := { s with
    playerstate := playerstate_t.PST_LIVE
    advancetitle := false
    usergame := false
    paused := false
    gameaction := gameaction_t.ga_nothing
    gamestate := gamestate_t.GS_TITLESCREEN
    blurred := false }
  -- switch (titlesequence)
  let (s, calls) : DoomState × List Call :=
    if s.titlesequence = 0 then
      ({ s with pagetic := 3 * env.TICRATE, splashscreen := true }, [])
    else if s.titlesequence = 1 then
      let (s, init) : DoomState × List Call :=
        if s.flag then ({ s with flag := false }, [Call.I_InitKeyboard]) else (s, [])
      ({ s with
          pagename := some (if env.TITLEPIC then "TITLEPIC"
            else (if env.DMENUPIC then "DMENUPIC" else "INTERPIC"))
          pagetic := 20 * env.TICRATE
          splashscreen := false },
        init ++ [Call.I_SetPalette "PLAYPAL" 0,
          Call.S_StartMusic (if env.commercial then musicenum_t.mus_dm2ttl
            else musicenum_t.mus_intro)])
    else if s.titlesequence = 2 then
      ({ s with pagename := some "CREDIT", pagetic := 10 * env.TICRATE, forcewipe := true }, [])
    else (s, [])
  -- if (++titlesequence > 2) titlesequence = 1;
  let s : DoomState := { s with titlesequence := s.titlesequence + 1 }
  let s : DoomState := if s.titlesequence > 2 then { s with titlesequence := 1 } else s
  (s, calls)

/-- Function `D_StartTitle(page)`:
```
gameaction = ga_nothing;
titlesequence = page;

D_AdvanceTitle();
``` -/
def D_StartTitle (s : DoomState) (page : Int) : DoomState :=
  D_AdvanceTitle { s with gameaction := gameaction_t.ga_nothing, titlesequence := page }

/-- The state after `n` successive calls of `D_DoAdvanceTitle`. -/
def advanceTitleTimes (env : DoomEnv) : Nat → DoomState → DoomState
  | 0, s => s
  | n + 1, s => advanceTitleTimes env n (D_DoAdvanceTitle env s).1

/-- Sample state: the values `d_main.c` gives its variables at program start
(`wipe = true`, `wipegamestate = GS_TITLESCREEN`, `oldgamestate = -1`, the rest
zero), taken right after `D_StartTitle(0)`. -/
def sampleStart : DoomState :=
  { advancetitle := true, forcewipe := false, splashscreen := false, wipe := true
    wipegamestate := gamestate_t.GS_TITLESCREEN, gamestate := gamestate_t.GS_LEVEL
    titlesequence := 0, pagetic := 0, pagename := none, flag := true
    playerstate := playerstate_t.PST_LIVE, usergame := false, paused := false
    gameaction := gameaction_t.ga_nothing, blurred := false, menuactive := false
    viewactivestate := false, menuactivestate := false, pausedstate := false
    oldgamestate := gamestate_t.GS_MINUSONE, borderdrawcount := 0 }

/-- Sample environment: a 640 by 400 screen, 35 tics a second, all three optional
lumps present, a level being viewed full size. -/
def sampleDoomEnv : DoomEnv :=
  { TICRATE := 35, SCREENWIDTH := 640, SCREENHEIGHT := 400
    ORIGINALWIDTH := 320, ORIGINALHEIGHT := 200
    TITLEPIC := true, DMENUPIC := true, M_PAUSE := true, commercial := true
    setsizeneeded := false, gametic := 1, viewheight := 400, viewheight2 := 400
    viewwindowy := 0, scaledviewwidth := 640, automapactive := false
    viewactive := true, message_on := false, graphicdetail_low := false
    widescreen := false
    splshttl := ⟨1, 300, 60⟩, splshtxt := ⟨2, 200, 20⟩, m_pause := ⟨3, 100, 20⟩ }

/-- The view-size block of `D_Display`:
```
if (setsizeneeded)
{
    R_ExecuteSetViewSize();
    oldgamestate = (gamestate_t)(-1);         // force background redraw
    borderdrawcount = 3;
}
``` -/
def D_Display_setsize (env : DoomEnv) (s : DoomState) : DoomState × List Call :=
  if env.setsizeneeded then
    ({ s with oldgamestate := gamestate_t.GS_MINUSONE, borderdrawcount := 3 },
      [Call.R_ExecuteSetViewSize])
  else (s, [])

/-- The block of `D_Display` that arms a wipe:
```
// save the current screen if about to wipe
if ((wipe = (gamestate != wipegamestate || forcewipe)))
{
    wipe_StartScreen();
    if (forcewipe)
        forcewipe = false;
    else
        menuactive = false;
}
``` -/
def D_Display_arm (s : DoomState) : DoomState × List Call :=
  let s : DoomState := { s with wipe := decide (s.gamestate ≠ s.wipegamestate) || s.forcewipe }
  if s.wipe then
    (if s.forcewipe then { s with forcewipe := false } else { s with menuactive := false },
      [Call.wipe_StartScreen])
  else (s, [])

/-- The drawing block of `D_Display`:
```
if (gamestate != GS_LEVEL)
{
    if (gamestate != oldgamestate && !splashscreen)
        I_SetPalette(W_CacheLumpName("PLAYPAL", PU_CACHE));

    switch (gamestate)
    {
        case GS_INTERMISSION: WI_Drawer(); break;
        case GS_FINALE: F_Drawer(); break;
        case GS_TITLESCREEN: D_PageDrawer(); break;
    }
}
else if (gametic)
{
    HU_Erase();
    ST_Drawer(viewheight == SCREENHEIGHT, true);
    R_RenderPlayerView(&players[displayplayer]);
    if (automapactive)
        AM_Drawer();
    if (oldgamestate != GS_LEVEL)
    {
        viewactivestate = false;    // view was not active
        R_FillBackScreen();         // draw the pattern into the back screen
    }
    if (!automapactive)
    {
        if (scaledviewwidth != SCREENWIDTH)
        {
            if (menuactive || menuactivestate || !viewactivestate
                || paused || pausedstate || message_on)
                borderdrawcount = 3;
            if (borderdrawcount)
            {
                R_DrawViewBorder();     // erase old menu stuff
                --borderdrawcount;
            }
        }
        if (graphicdetail == LOW)
            V_LowGraphicDetail(0, viewheight2);
    }
    HU_Drawer();
}
``` -/
def D_Display_draw (env : DoomEnv) (s : DoomState) : DoomState × List Call :=
  if s.gamestate ≠ gamestate_t.GS_LEVEL then
    let palette : List Call :=
      if decide (s.gamestate ≠ s.oldgamestate) && !s.splashscreen then
        [Call.I_SetPalette "PLAYPAL" 0]
      else []
    let drawer : List Call :=
      match s.gamestate with
      | gamestate_t.GS_INTERMISSION => [Call.WI_Drawer]
      | gamestate_t.GS_FINALE => [Call.F_Drawer]
      | gamestate_t.GS_TITLESCREEN => D_PageDrawer env s
      | _ => []
    (s, palette ++ drawer)
  else if env.gametic ≠ 0 then
    let view : List Call :=
      [Call.HU_Erase, Call.ST_Drawer (decide (env.viewheight = env.SCREENHEIGHT)) true,
        Call.R_RenderPlayerView]
      ++ (if env.automapactive then [Call.AM_Drawer] else [])
    -- if (oldgamestate != GS_LEVEL)
    let (s, back) : DoomState × List Call :=
      if s.oldgamestate ≠ gamestate_t.GS_LEVEL then
        ({ s with viewactivestate := false }, [Call.R_FillBackScreen])
      else (s, [])
    -- if (!automapactive)
    let (s, border) : DoomState × List Call :=
      if !env.automapactive then
        let (s, b) : DoomState × List Call :=
          if env.scaledviewwidth ≠ env.SCREENWIDTH then
            let s : DoomState :=
              if s.menuactive || s.menuactivestate || !s.viewactivestate
                  || s.paused || s.pausedstate || env.message_on then
                { s with borderdrawcount := 3 }
              else s
            if s.borderdrawcount ≠ 0 then
              ({ s with borderdrawcount := s.borderdrawcount - 1 }, [Call.R_DrawViewBorder])
            else (s, [])
          else (s, [])
        (s, b ++ (if env.graphicdetail_low then [Call.V_LowGraphicDetail 0 env.viewheight2]
          else []))
      else (s, [])
    (s, view ++ back ++ border ++ [Call.HU_Drawer])
  else (s, [])

/-- The block of `D_Display` that records what was drawn:
```
menuactivestate = menuactive;
viewactivestate = viewactive;
oldgamestate = wipegamestate = gamestate;
``` -/
def D_Display_sync (env : DoomEnv) (s : DoomState) : DoomState :=
  { s with
    menuactivestate := s.menuactive
    viewactivestate := env.viewactive
    wipegamestate := s.gamestate
    oldgamestate := s.gamestate }

/-- The pause and menu block of `D_Display`:
```
// draw pause pic
if ((pausedstate = paused))
{
    M_DarkBackground();
    if (M_PAUSE)
    {
        patch_t     *patch = W_CacheLumpName("M_PAUSE", PU_CACHE);

        if (widescreen)
            V_DrawPatchWithShadow((ORIGINALWIDTH - SHORT(patch->width)) / 2,
                viewwindowy / 2 + (viewheight / 2 - SHORT(patch->height)) / 2, 0, patch, false);
        else
            V_DrawPatchWithShadow((ORIGINALWIDTH - SHORT(patch->width)) / 2,
                (ORIGINALHEIGHT - SHORT(patch->height)) / 2, 0, patch, false);
    }
    else
    {
        if (widescreen)
            M_DrawCenteredString(viewwindowy / 2 + (viewheight / 2 - 16) / 2, "Paused");
        else
            M_DrawCenteredString((ORIGINALHEIGHT - 16) / 2, "Paused");
    }
}

// menus go directly to the screen
M_Drawer();                 // menu is drawn even on top of everything
``` -/
def D_Display_overlay (env : DoomEnv) (s : DoomState) : DoomState × List Call :=
  let s : DoomState := { s with pausedstate := s.paused }
  let pause : List Call :=
    if s.pausedstate then
      [Call.M_DarkBackground,
        if env.M_PAUSE then
          if env.widescreen then
            Call.V_DrawPatchWithShadow ((env.ORIGINALWIDTH - env.m_pause.width).tdiv 2)
              (env.viewwindowy.tdiv 2
                + (env.viewheight.tdiv 2 - env.m_pause.height).tdiv 2) 0 "M_PAUSE" false
          else
            Call.V_DrawPatchWithShadow ((env.ORIGINALWIDTH - env.m_pause.width).tdiv 2)
              ((env.ORIGINALHEIGHT - env.m_pause.height).tdiv 2) 0 "M_PAUSE" false
        else
          if env.widescreen then
            Call.M_DrawCenteredString
              (env.viewwindowy.tdiv 2 + (env.viewheight.tdiv 2 - 16).tdiv 2) "Paused"
          else Call.M_DrawCenteredString ((env.ORIGINALHEIGHT - 16).tdiv 2) "Paused"]
    else []
  (s, pause ++ [Call.M_Drawer])

/-- The part of `D_Display` before the update: the five blocks above in the order
of the source. Returns the state and the calls made. -/
def D_Display_frame (env : DoomEnv) (s : DoomState) : DoomState × List Call :=
  let r1 := D_Display_setsize env s
  let r2 := D_Display_arm r1.1
  let r3 := D_Display_draw env r2.1
  let r4 := D_Display_overlay env (D_Display_sync env r3.1)
  (r4.1, r1.2 ++ r2.2 ++ r3.2 ++ r4.2)

/-- One pass of the outer loop of the wipe update of `D_Display`: the values
`I_GetTime` returned in the inner loop (each read is followed by `I_Sleep(1)`),
the last of them `nowtime`, the `tics` handed to `wipe_ScreenWipe` and the `done`
it returned. Each pass ends with `blurred = false; M_Drawer(); I_FinishUpdate();`. -/
structure WipeFrame where
  reads : List Int
  nowtime : Int
  tics : Int
  done : Bool
  deriving DecidableEq, Repr

/-- The inner loop of the wipe update of `D_Display`:
```
do
{
    nowtime = I_GetTime();
    tics = nowtime - wipestart;
    I_Sleep(1);
}
while (tics <= 0);
```
The clock is the sequence `I_GetTime k` of the values the successive calls
return; `k` is the number of calls made so far. Returns `nowtime`, the new call
count and the values read; `none` when `fuel` passes do not suffice. -/
def D_Display_poll (I_GetTime : Nat → Int) (wipestart : Int) :
    Nat → Nat → List Int → Option (Int × Nat × List Int)
  | 0, _, _ => none
  | fuel + 1, k, reads =>
    let nowtime := I_GetTime k
    let tics := nowtime - wipestart
    if tics ≤ 0 then D_Display_poll I_GetTime wipestart fuel (k + 1) (reads ++ [nowtime])
    else some (nowtime, k + 1, reads ++ [nowtime])

/-- The outer loop of the wipe update of `D_Display`:
```
do
{
    (inner loop)
    wipestart = nowtime;
    done = wipe_ScreenWipe(tics);
    blurred = false;
    M_Drawer();             // menu is drawn even on top of wipes
    I_FinishUpdate();       // page flip or blit buffer
}
while (!done);
```
The wipe effect `wipe_ScreenWipe` belongs to another module and acts on a state
`ω` of its own. `fuel` bounds the passes of this loop and of each run of the
inner loop; `none` means the bound was hit. -/
def D_Display_wipeLoop {ω : Type} (I_GetTime : Nat → Int)
    (wipe_ScreenWipe : Int → ω → Bool × ω) :
    Nat → Int → Nat → ω → Option (ω × List WipeFrame)
  | 0, _, _, _ => none
  | fuel + 1, wipestart, k, w =>
    match D_Display_poll I_GetTime wipestart (fuel + 1) k [] with
    | none => none
    | some (nowtime, k1, reads) =>
      let tics := nowtime - wipestart
      let r := wipe_ScreenWipe tics w
      let frame : WipeFrame := { reads := reads, nowtime := nowtime, tics := tics, done := r.1 }
      if r.1 then some (r.2, [frame])
      else
        (D_Display_wipeLoop I_GetTime wipe_ScreenWipe fuel nowtime k1 r.2).map
          fun res => (res.1, frame :: res.2)

/-- What a call of `D_Display` leaves: the state, the calls made before the wipe
loop, the state of the wipe effect and the passes of the wipe loop. -/
structure DisplayResult (ω : Type) where
  state : DoomState
  calls : List Call
  effect : ω
  frames : List WipeFrame

/-- Function `D_Display`: the part before the update, then
```
// normal update
if (!wipe)
{
    I_FinishUpdate();       // page flip or blit buffer
    return;
}

// wipe update
wipe_EndScreen();

wipestart = I_GetTime() - 1;

(outer loop)
```
`I_GetTime 0` is the value read for `wipestart`. -/
def D_Display {ω : Type} (env : DoomEnv) (I_GetTime : Nat → Int)
    (wipe_ScreenWipe : Int → ω → Bool × ω) (fuel : Nat) (s : DoomState) (w : ω) :
    Option (DisplayResult ω) :=
  let r := D_Display_frame env s
  if !r.1.wipe then
    some { state := r.1, calls := r.2 ++ [Call.I_FinishUpdate], effect := w, frames := [] }
  else
    let wipestart := I_GetTime 0 - 1
    match D_Display_wipeLoop I_GetTime wipe_ScreenWipe fuel wipestart 1 w with
    | none => none
    | some (w1, frames) =>
      some { state := { r.1 with blurred := false }, calls := r.2 ++ [Call.wipe_EndScreen],
             effect := w1, frames := frames }

/-- The tick counts of a run of wipe passes match the clock: each pass hands
`wipe_ScreenWipe` the difference between its `nowtime` and the `nowtime` of the
pass before (`prev` for the first pass), and that difference is at least 1. -/
def ticsMatchClock (prev : Int) : List WipeFrame → Prop
  | [] => True
  | f :: fs => f.tics = f.nowtime - prev ∧ 1 ≤ f.tics ∧ ticsMatchClock f.nowtime fs

/-- The `nowtime` of the last pass of a run (`prev` when there is none). -/
def lastNowtime (prev : Int) : List WipeFrame → Int
  | [] => prev
  | f :: fs => lastNowtime f.nowtime fs

/-- Sample clock: one tick every three reads. -/
def sampleClock : Nat → Int := fun k => 1000 + (k / 3 : Nat)

/-- Sample wipe effect: done once it has been advanced by 4 tics in total; its
state is the number of tics still to go. -/
def sampleWipe : Int → Int → Bool × Int :=
  fun tics left => (decide (left ≤ tics), left - tics)

/-- A run of wipe passes that went to completion: `wipe_ScreenWipe` returned
`done` in the last pass and in no pass before. -/
def wipeCompleted : List WipeFrame → Prop
  | [] => False
  | f :: fs => if fs = [] then f.done = true else f.done = false ∧ wipeCompleted fs

/-! ## The classic HUD (`hu_stuff.c`) -/

/-- The two translucency tables the classic HUD passes to its drawing functions. -/
inductive tinttab_t where
  | tinttab66
  | tinttab25
  deriving DecidableEq, Repr

/-- The drawing functions the classic HUD calls: the function pointers `hudfunc`
and `hudnumfunc`, and `V_DrawHighlightedHUDNumberPatch`. -/
inductive hudfn_t where
  | hudfunc
  | hudnumfunc
  | V_DrawHighlightedHUDNumberPatch
  deriving DecidableEq, Repr

/-- One recorded call `fn(x, y, patch, translucency)` of the classic HUD. -/
structure HUDDraw where
  fn : hudfn_t
  x : Int
  y : Int
  patch : patch_t
  translucency : tinttab_t
  deriving DecidableEq, Repr

/-- Modelled from the spec: the weapons ("the fist is the active or pending
weapon"). `weapontype_t` is declared in a header that is not part of the sources
at hand; `hu_stuff.c` names `wp_fist` and `wp_nochange`. -/
inductive weapontype_t where
  | wp_fist
  | wp_pistol
  | wp_shotgun
  | wp_chaingun
  | wp_missile
  | wp_plasma
  | wp_bfg
  | wp_chainsaw
  | wp_supershotgun
  | wp_nochange
  deriving DecidableEq, Repr

/-- Modelled from the spec: the ammunition kinds. `ammotype_t` is declared in a
header that is not part of the sources at hand; `hu_stuff.c` names `am_noammo`
and has the four entries of `ammopic`. -/
inductive ammotype_t where
  | am_clip
  | am_shell
  | am_cell
  | am_misl
  | am_noammo
  deriving DecidableEq, Repr

/-- Number of key cards: the arrays `keypics` and `altkeypics` of `hu_stuff.c` have
six entries. -/
def NUMCARDS : Nat := 6

/-- What the two HUDs read of the player and of the game and never write: fields
of `viewplayer`, the pause flags, the clock value `I_GetTimeMS()` of the frame
and the three highlight deadlines.
* `greenarmor` is `viewplayer->armortype == GREENARMOR`;
* `inversecolormap` is `viewplayer->fixedcolormap == INVERSECOLORMAP`;
* `weaponinfo w` is `weaponinfo[w].ammotype`. -/
structure PlayerView where
  health : Int
  armorpoints : Int
  greenarmor : Bool
  pendingweapon : weapontype_t
  readyweapon : weapontype_t
  ammo : ammotype_t → Int
  maxammo : ammotype_t → Int
  cards : Nat → Int
  neededcard : Nat
  pw_invulnerability : Int
  pw_invisibility : Int
  pw_ironfeet : Int
  pw_infrared : Int
  pw_strength : Int
  inversecolormap : Bool
  weaponinfo : weapontype_t → ammotype_t
  menuactive : Bool
  paused : Bool
  consoleactive : Bool
  currenttime : Int
  healthhighlight : Int
  ammohighlight : Int
  armorhighlight : Int

/-- The patches and constants of the classic HUD: globals set by `HU_Init` and by
the status bar, and constants of a header that is not part of the sources at
hand. `face` is `faces[st_faceindex]`; a `NULL` patch is `none`. -/
structure HUDEnv where
  HUD_HEALTH_X : Int
  HUD_HEALTH_Y : Int
  HUD_HEALTH_MIN : Int
  HUD_HEALTH_WAIT : Int
  HUD_AMMO_X : Int
  HUD_AMMO_Y : Int
  HUD_AMMO_MIN : Int
  HUD_AMMO_WAIT : Int
  HUD_KEYS_X : Int
  HUD_KEYS_Y : Int
  HUD_KEY_WAIT : Int
  HUD_ARMOR_X : Int
  HUD_ARMOR_Y : Int
  SCREENWIDTH : Int
  tallnum : Int → patch_t
  tallpercent : patch_t
  tallpercentwidth : Int
  emptytallpercent : Bool
  minuspatch : Option patch_t
  minuspatchwidth : Int
  face : Option patch_t
  greenarmorpatch : Option patch_t
  bluearmorpatch : Option patch_t
  ammopic : ammotype_t → Option patch_t
  keypics : Nat → Option patch_t

/-- The variables the two HUDs write: the six statics of `HU_DrawHUD`
(`healthanim`, `healthwait`, `ammoanim`, `ammowait`, `keywait`, `showkey`), the
two statics of `HU_DrawAltHUD` (its own `keywait` and `showkey`) and
`viewplayer->neededcardflash`. -/
structure HUDState where
  healthanim : Bool
  healthwait : Int
  ammoanim : Bool
  ammowait : Int
  keywait : Int
  showkey : Bool
  altkeywait : Int
  altshowkey : Bool
  neededcardflash : Int
  deriving DecidableEq, Repr

/-- The flag `gamepaused` of `HU_DrawHUD`: `(menuactive || paused || consoleactive)`. -/
def gamepaused (pv : PlayerView) : Bool :=
  pv.menuactive || pv.paused || pv.consoleactive

/-- The translucency table `HU_DrawHUD` picks for the health number:
```
byte *translucency = (health <= 0 || (health <= HUD_HEALTH_MIN && healthanim)
                        || health > HUD_HEALTH_MIN ? tinttab66 : tinttab25);
```
The conditional operator binds less tightly than `||`. -/
def healthTranslucency (pv : PlayerView) (env : HUDEnv) (s : HUDState) : tinttab_t :=
  if pv.health ≤ 0 || (pv.health ≤ env.HUD_HEALTH_MIN && s.healthanim)
      || pv.health > env.HUD_HEALTH_MIN then
    tinttab_t.tinttab66
  else tinttab_t.tinttab25

/-- The face of `HU_DrawHUD`:
```
patch_t *patch = faces[st_faceindex];
if (patch)
    hudfunc(HUD_HEALTH_X - SHORT(patch->width) / 2, HUD_HEALTH_Y - SHORT(patch->height) - 3, patch, tinttab66);
``` -/
def HU_DrawHUD_face (env : HUDEnv) : List HUDDraw :=
  match env.face with
  | some patch =>
    [{ fn := hudfn_t.hudfunc, x := env.HUD_HEALTH_X - patch.width.tdiv 2
       y := env.HUD_HEALTH_Y - patch.height - 3, patch := patch
       translucency := tinttab_t.tinttab66 }]
  | none => []

/-- The health number of `HU_DrawHUD` and its percent glyph:
```
int health_x = HUD_HEALTH_X - (HUDNumberWidth(health, tallnum, 0) + tallpercentwidth) / 2;

if (healthhighlight > currenttime)
{
    DrawHUDNumber(&health_x, HUD_HEALTH_Y, health, translucency, tallnum, 0, V_DrawHighlightedHUDNumberPatch);

    if (!emptytallpercent)
        V_DrawHighlightedHUDNumberPatch(health_x, HUD_HEALTH_Y, tallpercent, translucency);
}
else
{
    DrawHUDNumber(&health_x, HUD_HEALTH_Y, health, translucency, tallnum, 0, hudnumfunc);

    if (!emptytallpercent)
        hudnumfunc(health_x, HUD_HEALTH_Y, tallpercent, translucency);
}
``` -/
def HU_DrawHUD_health (pv : PlayerView) (env : HUDEnv) (s : HUDState) : List HUDDraw :=
  let health_x := env.HUD_HEALTH_X
    - (HUDNumberWidth env.minuspatch env.minuspatchwidth pv.health env.tallnum 0
        + env.tallpercentwidth).tdiv 2
  let translucency := healthTranslucency pv env s
  if pv.healthhighlight > pv.currenttime then
    let r := DrawHUDNumber env.minuspatch env.minuspatchwidth health_x env.HUD_HEALTH_Y
      pv.health translucency env.tallnum 0 (HUDDraw.mk hudfn_t.V_DrawHighlightedHUDNumberPatch)
    r.2 ++ (if !env.emptytallpercent then
        [HUDDraw.mk hudfn_t.V_DrawHighlightedHUDNumberPatch r.1 env.HUD_HEALTH_Y
          env.tallpercent translucency]
      else [])
  else
    let r := DrawHUDNumber env.minuspatch env.minuspatchwidth health_x env.HUD_HEALTH_Y
      pv.health translucency env.tallnum 0 (HUDDraw.mk hudfn_t.hudnumfunc)
    r.2 ++ (if !env.emptytallpercent then
        [HUDDraw.mk hudfn_t.hudnumfunc r.1 env.HUD_HEALTH_Y env.tallpercent translucency]
      else [])

/-- The health blink of `HU_DrawHUD`:
```
if (!gamepaused)
{
    static int  healthwait;

    if (health > 0 && health <= HUD_HEALTH_MIN)
    {
        if (healthwait < currenttime)
        {
            healthanim = !healthanim;
            healthwait = currenttime + HUD_HEALTH_WAIT * health / HUD_HEALTH_MIN + 115;
        }
    }
    else
    {
        healthanim = false;
        healthwait = 0;
    }
}
``` -/
def HU_DrawHUD_healthblink (pv : PlayerView) (env : HUDEnv) (s : HUDState) : HUDState :=
  if !gamepaused pv then
    if pv.health > 0 && pv.health ≤ env.HUD_HEALTH_MIN then
      if s.healthwait < pv.currenttime then
        { s with
          healthanim := !s.healthanim
          healthwait := pv.currenttime
            + (env.HUD_HEALTH_WAIT * pv.health).tdiv env.HUD_HEALTH_MIN + 115 }
      else s
    else { s with healthanim := false, healthwait := 0 }
  else s

/-- The ammunition block of `HU_DrawHUD`:
```
ammotype = (pendingweapon != wp_nochange ? weaponinfo[pendingweapon].ammotype : weaponinfo[readyweapon].ammotype);

if (health > 0 && ammotype != am_noammo && (ammo = viewplayer->ammo[ammotype]))
{
    int             ammo_x = HUD_AMMO_X - HUDNumberWidth(ammo, tallnum, 0) / 2;
    static dboolean ammoanim;

    translucency = (ammoanim || ammo > HUD_AMMO_MIN ? tinttab66 : tinttab25);

    if ((patch = ammopic[ammotype].patch))
        hudfunc(HUD_AMMO_X - SHORT(patch->width) / 2, HUD_AMMO_Y - SHORT(patch->height) - 3, patch, tinttab66);

    DrawHUDNumber(&ammo_x, HUD_AMMO_Y, ammo, translucency, tallnum, 0,
        (ammohighlight > currenttime ? V_DrawHighlightedHUDNumberPatch : hudnumfunc));

    if (!gamepaused)
    {
        static int  ammowait;

        if (ammo <= HUD_AMMO_MIN)
        {
            if (ammowait < currenttime)
            {
                ammoanim = !ammoanim;
                ammowait = currenttime + HUD_AMMO_WAIT * ammo / HUD_AMMO_MIN + 115;
            }
        }
        else
        {
            ammoanim = false;
            ammowait = 0;
        }
    }
}
``` -/
def HU_DrawHUD_ammo (pv : PlayerView) (env : HUDEnv) (s : HUDState) :
    HUDState × List HUDDraw :=
  let ammotype :=
    if pv.pendingweapon ≠ weapontype_t.wp_nochange then pv.weaponinfo pv.pendingweapon
    else pv.weaponinfo pv.readyweapon
  let ammo := pv.ammo ammotype
  if pv.health > 0 && ammotype != ammotype_t.am_noammo && ammo != 0 then
    let ammo_x := env.HUD_AMMO_X
      - (HUDNumberWidth env.minuspatch env.minuspatchwidth ammo env.tallnum 0).tdiv 2
    let translucency :=
      if s.ammoanim || ammo > env.HUD_AMMO_MIN then tinttab_t.tinttab66
      else tinttab_t.tinttab25
    let icon : List HUDDraw :=
      match env.ammopic ammotype with
      | some patch =>
        [HUDDraw.mk hudfn_t.hudfunc (env.HUD_AMMO_X - patch.width.tdiv 2)
          (env.HUD_AMMO_Y - patch.height - 3) patch tinttab_t.tinttab66]
      | none => []
    let r := DrawHUDNumber env.minuspatch env.minuspatchwidth ammo_x env.HUD_AMMO_Y ammo
      translucency env.tallnum 0
      (HUDDraw.mk (if pv.ammohighlight > pv.currenttime then
        hudfn_t.V_DrawHighlightedHUDNumberPatch else hudfn_t.hudnumfunc))
    let s : HUDState :=
      if !gamepaused pv then
        if ammo ≤ env.HUD_AMMO_MIN then
          if s.ammowait < pv.currenttime then
            { s with
              ammoanim := !s.ammoanim
              ammowait := pv.currenttime
                + (env.HUD_AMMO_WAIT * ammo).tdiv env.HUD_AMMO_MIN + 115 }
          else s
        else { s with ammoanim := false, ammowait := 0 }
      else s
    (s, icon ++ r.2)
  else (s, [])

/-- The body of the key loop of `HU_DrawHUD` for one pair `i`, `j`, acting on
`keypic_x` and the calls so far:
```
if (viewplayer->cards[j] == i && (patch = keypics[j].patch))
{
    keypic_x -= SHORT(patch->width);
    hudfunc(keypic_x, HUD_KEYS_Y - (SHORT(patch->height) - 16), patch, tinttab66);
    keypic_x -= 4;
}
``` -/
def HU_DrawHUD_key (pv : PlayerView) (env : HUDEnv) (i : Int) (acc : Int × List HUDDraw)
    (j : Nat) : Int × List HUDDraw :=
  if pv.cards j = i then
    match env.keypics j with
    | some patch =>
      let keypic_x := acc.1 - patch.width
      (keypic_x - 4,
        acc.2 ++ [HUDDraw.mk hudfn_t.hudfunc keypic_x (env.HUD_KEYS_Y - (patch.height - 16))
          patch tinttab_t.tinttab66])
    | none => acc
  else acc

/-- The key loop of `HU_DrawHUD`:
```
for (int i = 1; i <= NUMCARDS; i++)
    for (int j = 0; j < NUMCARDS; j++)
        (body)
```
starting from `keypic_x`; returns the final `keypic_x` and the calls made. -/
def HU_DrawHUD_keys (pv : PlayerView) (env : HUDEnv) (keypic_x : Int) : Int × List HUDDraw :=
  (List.range' 1 NUMCARDS).foldl
    (fun acc i => (List.range NUMCARDS).foldl (HU_DrawHUD_key pv env i) acc)
    (keypic_x, [])

/-- The needed-key flash of `HU_DrawHUD`, with `keypic_x` as the key loop left it:
```
if (viewplayer->neededcardflash)
{
    if ((patch = keypics[viewplayer->neededcard].patch))
    {
        if (!gamepaused && keywait < currenttime)
        {
            showkey = !showkey;
            keywait = currenttime + HUD_KEY_WAIT;
            viewplayer->neededcardflash--;
        }

        if (showkey)
            hudfunc(keypic_x - SHORT(patch->width), HUD_KEYS_Y - (SHORT(patch->height) - 16), patch, tinttab66);
    }
}
else
{
    showkey = false;
    keywait = 0;
}
``` -/
def HU_DrawHUD_neededcard (pv : PlayerView) (env : HUDEnv) (keypic_x : Int) (s : HUDState) :
    HUDState × List HUDDraw :=
  if s.neededcardflash ≠ 0 then
    match env.keypics pv.neededcard with
    | some patch =>
      let s : HUDState :=
        if !gamepaused pv && s.keywait < pv.currenttime then
          { s with
            showkey := !s.showkey
            keywait := pv.currenttime + env.HUD_KEY_WAIT
            neededcardflash := s.neededcardflash - 1 }
        else s
      (s, if s.showkey then
          [HUDDraw.mk hudfn_t.hudfunc (keypic_x - patch.width)
            (env.HUD_KEYS_Y - (patch.height - 16)) patch tinttab_t.tinttab66]
        else [])
    | none => (s, [])
  else ({ s with showkey := false, keywait := 0 }, [])

/-- The armor block of `HU_DrawHUD`:
```
if (armor)
{
    int armor_x = HUD_ARMOR_X - (HUDNumberWidth(armor, tallnum, 0) + tallpercentwidth) / 2;

    if ((patch = (viewplayer->armortype == GREENARMOR ? greenarmorpatch : bluearmorpatch)))
        hudfunc(HUD_ARMOR_X - SHORT(patch->width) / 2, HUD_ARMOR_Y - SHORT(patch->height) - 3, patch, tinttab66);

    if (armorhighlight > currenttime)
    {
        DrawHUDNumber(&armor_x, HUD_ARMOR_Y, armor, tinttab66, tallnum, 0, V_DrawHighlightedHUDNumberPatch);

        if (!emptytallpercent)
            V_DrawHighlightedHUDNumberPatch(armor_x, HUD_ARMOR_Y, tallpercent, tinttab66);
    }
    else
    {
        DrawHUDNumber(&armor_x, HUD_ARMOR_Y, armor, tinttab66, tallnum, 0, hudnumfunc);

        if (!emptytallpercent)
            hudnumfunc(armor_x, HUD_ARMOR_Y, tallpercent, tinttab66);
    }
}
``` -/
def HU_DrawHUD_armor (pv : PlayerView) (env : HUDEnv) : List HUDDraw :=
  let armor := pv.armorpoints
  if armor ≠ 0 then
    let armor_x := env.HUD_ARMOR_X
      - (HUDNumberWidth env.minuspatch env.minuspatchwidth armor env.tallnum 0
          + env.tallpercentwidth).tdiv 2
    let icon : List HUDDraw :=
      match (if pv.greenarmor then env.greenarmorpatch else env.bluearmorpatch) with
      | some patch =>
        [HUDDraw.mk hudfn_t.hudfunc (env.HUD_ARMOR_X - patch.width.tdiv 2)
          (env.HUD_ARMOR_Y - patch.height - 3) patch tinttab_t.tinttab66]
      | none => []
    if pv.armorhighlight > pv.currenttime then
      let r := DrawHUDNumber env.minuspatch env.minuspatchwidth armor_x env.HUD_ARMOR_Y armor
        tinttab_t.tinttab66 env.tallnum 0 (HUDDraw.mk hudfn_t.V_DrawHighlightedHUDNumberPatch)
      icon ++ r.2 ++ (if !env.emptytallpercent then
          [HUDDraw.mk hudfn_t.V_DrawHighlightedHUDNumberPatch r.1 env.HUD_ARMOR_Y
            env.tallpercent tinttab_t.tinttab66]
        else [])
    else
      let r := DrawHUDNumber env.minuspatch env.minuspatchwidth armor_x env.HUD_ARMOR_Y armor
        tinttab_t.tinttab66 env.tallnum 0 (HUDDraw.mk hudfn_t.hudnumfunc)
      icon ++ r.2 ++ (if !env.emptytallpercent then
          [HUDDraw.mk hudfn_t.hudnumfunc r.1 env.HUD_ARMOR_Y env.tallpercent
            tinttab_t.tinttab66]
        else [])
  else []

/-- Function `HU_DrawHUD`: the blocks above in the order of the source, the key
loop starting from `keypic_x = (armor ? HUD_KEYS_X : SCREENWIDTH - 13)`. Returns
the state and the calls made. -/
def HU_DrawHUD (pv : PlayerView) (env : HUDEnv) (s : HUDState) : HUDState × List HUDDraw :=
  let keypic_x := if pv.armorpoints ≠ 0 then env.HUD_KEYS_X else env.SCREENWIDTH - 13
  let face := HU_DrawHUD_face env
  let health := HU_DrawHUD_health pv env s
  let s := HU_DrawHUD_healthblink pv env s
  let ammo := HU_DrawHUD_ammo pv env s
  let keys := HU_DrawHUD_keys pv env keypic_x
  let needed := HU_DrawHUD_neededcard pv env keys.1 ammo.1
  (needed.1, face ++ health ++ ammo.2 ++ keys.2 ++ needed.2 ++ HU_DrawHUD_armor pv env)

/-! ## The alternate HUD (`hu_stuff.c`) -/

/-- One recorded call of the alternate HUD: `althudfunc(x, y, patch, from, to)` or
`fillrectfunc(scrn, x, y, width, height, color, right)`. -/
inductive AltDraw where
  | althudfunc (x y : Int) (patch : patch_t) (fromcolor tocolor : Int)
  | fillrectfunc (scrn x y width height color : Int) (right : Bool)
  deriving DecidableEq, Repr

/-- The patches, colours and constants of the alternate HUD: the statics set by
`HU_AltInit`, globals of other modules and constants of headers that are not
part of the sources at hand (`SCREENWIDTH`, `SCREENHEIGHT`, `SBARHEIGHT`,
`HUD_KEY_WAIT`, the four power-up durations and `STARTFLASHING`).
* `colormaps0 i` is `colormaps[0][i]`;
* `altkeycolor j` and `altkeypatch j` are the two fields of `altkeypics[j]`. -/
structure AltHUDEnv where
  SCREENWIDTH : Int
  SCREENHEIGHT : Int
  SBARHEIGHT : Int
  HUD_KEY_WAIT : Int
  INVULNTICS : Int
  INVISTICS : Int
  IRONTICS : Int
  INFRATICS : Int
  STARTFLASHING : Int
  r_textures : Bool
  colormaps0 : Int → Int
  white : Int
  lightgray : Int
  gray : Int
  darkgray : Int
  green : Int
  red : Int
  yellow : Int
  coloroffset : Int
  health_min : Int
  maxhealth : Int
  max_armor : Int
  altnum : Int → patch_t
  altnum2 : Int → patch_t
  altminuspatch : patch_t
  altminuspatchwidth : Int
  altweapon : weapontype_t → Option patch_t
  altendpatch : patch_t
  altleftpatch : patch_t
  altarmpatch : patch_t
  altrightpatch : patch_t
  altmarkpatch : patch_t
  altmark2patch : patch_t
  altkeycolor : Nat → Int
  altkeypatch : Nat → patch_t

/-- Colour index `#define WHITE 4`. -/
def WHITE : Int := 4

/-- Coordinate `#define ALTHUD_LEFT_X 21`. -/
def ALTHUD_LEFT_X : Int := 21

/-- Coordinate `#define ALTHUD_RIGHT_X (SCREENWIDTH - 179)`. -/
def ALTHUD_RIGHT_X (env : AltHUDEnv) : Int := env.SCREENWIDTH - 179

/-- Coordinate `#define ALTHUD_Y (SCREENHEIGHT - SBARHEIGHT - 37)`. -/
def ALTHUD_Y (env : AltHUDEnv) : Int := env.SCREENHEIGHT - env.SBARHEIGHT - 37

/-- Macro `ABS(a)`. -/
def ABS (a : Int) : Int := if a < 0 then -a else a

/-- A C comparison used as an integer: 1 when it holds, 0 otherwise. -/
def boolInt (b : Bool) : Int := if b then 1 else 0

/-- Integer division by a variable: `none` when the divisor is zero. -/
def divide (a b : Int) : Option Int := if b = 0 then none else some (a.tdiv b)

/-- The flag `invert` of `HU_DrawAltHUD`:
`((viewplayer->fixedcolormap == INVERSECOLORMAP) ^ (!r_textures))`. -/
def invert (pv : PlayerView) (env : AltHUDEnv) : Bool :=
  xor pv.inversecolormap (!env.r_textures)

/-- The expression `(invert ? colormaps[0][32 * 256 + c] : c)` that
`HU_DrawAltHUD` applies to its colours `white`, `gray`, `lightgray`, `darkgray`. -/
def invertible (pv : PlayerView) (env : AltHUDEnv) (c : Int) : Int :=
  if invert pv env then env.colormaps0 (32 * 256 + c) else c

/-- The test of `DrawAltHUDNumber` that picks the offset of the minus sign:
`val == 1 || val == 7 || (val >= 10 && val <= 19) || (val >= 70 && val <= 79)
|| (val >= 100 && val <= 199)`. -/
def narrowLead (val : Int) : Bool :=
  val == 1 || val == 7 || (val ≥ 10 && val ≤ 19) || (val ≥ 70 && val ≤ 79)
    || (val ≥ 100 && val ≤ 199)

/-- Function `DrawAltHUDNumber(x, y, val, color)`:
```
const int   oldval = ABS(val);
patch_t     *patch;

if (val < 0)
{
    val = -val;
    althudfunc(x - altminuspatchwidth - ((val == 1 || val == 7 || (val >= 10 && val <= 19) || (val >= 70 && val <= 79)
        || (val >= 100 && val <= 199)) ? 1 : 2), y, altminuspatch, WHITE, color);
}

if (val > 99)
{
    patch = altnum[val / 100];
    althudfunc(x, y, patch, WHITE, color);
    x += SHORT(patch->width) + 2;
}

val %= 100;

if (val > 9 || oldval > 99)
{
    patch = altnum[val / 10];
    althudfunc(x, y, patch, WHITE, color);
    x += SHORT(patch->width) + 2;
}

althudfunc(x, y, altnum[val % 10], WHITE, color);
``` -/
def DrawAltHUDNumber (env : AltHUDEnv) (x y val color : Int) : List AltDraw :=
  let oldval := ABS val
  let (val, minus) : Int × List AltDraw :=
    if val < 0 then
      (-val, [AltDraw.althudfunc
        (x - env.altminuspatchwidth - (if narrowLead (-val) then 1 else 2)) y
        env.altminuspatch WHITE color])
    else (val, [])
  let (x, hundreds) : Int × List AltDraw :=
    if val > 99 then
      let patch := env.altnum (val.tdiv 100)
      (x + patch.width + 2, [AltDraw.althudfunc x y patch WHITE color])
    else (x, [])
  let val := val.tmod 100
  let (x, tens) : Int × List AltDraw :=
    if val > 9 || oldval > 99 then
      let patch := env.altnum (val.tdiv 10)
      (x + patch.width + 2, [AltDraw.althudfunc x y patch WHITE color])
    else (x, [])
  minus ++ hundreds ++ tens ++ [AltDraw.althudfunc x y (env.altnum (val.tmod 10)) WHITE color]

/-- Function `AltHUDNumberWidth(val)`:
```
const int   oldval = val;
int         width = 0;

if (val > 99)
    width += SHORT(altnum[val / 100]->width) + 2;

val %= 100;

if (val > 9 || oldval > 99)
    width += SHORT(altnum[val / 10]->width) + 2;

return (width + SHORT(altnum[val % 10]->width));
``` -/
def AltHUDNumberWidth (env : AltHUDEnv) (val : Int) : Int :=
  let oldval := val
  let width : Int := if val > 99 then (env.altnum (val.tdiv 100)).width + 2 else 0
  let val := val.tmod 100
  let width :=
    if val > 9 || oldval > 99 then width + (env.altnum (val.tdiv 10)).width + 2 else width
  width + (env.altnum (val.tmod 10)).width

/-- Function `DrawAltHUDNumber2(x, y, val, color)`:
```
const int   oldval = val;
patch_t     *patch;

if (val > 99)
{
    patch = altnum2[val / 100];
    althudfunc(x, y, patch, WHITE, color);
    x += SHORT(patch->width) + 1;
}

val %= 100;

if (val > 9 || oldval > 99)
{
    patch = altnum2[val / 10];
    althudfunc(x, y, patch, WHITE, color);
    x += SHORT(patch->width) + 1;
}

althudfunc(x, y, altnum2[val % 10], WHITE, color);
``` -/
def DrawAltHUDNumber2 (env : AltHUDEnv) (x y val color : Int) : List AltDraw :=
  let oldval := val
  let (x, hundreds) : Int × List AltDraw :=
    if val > 99 then
      let patch := env.altnum2 (val.tdiv 100)
      (x + patch.width + 1, [AltDraw.althudfunc x y patch WHITE color])
    else (x, [])
  let val := val.tmod 100
  let (x, tens) : Int × List AltDraw :=
    if val > 9 || oldval > 99 then
      let patch := env.altnum2 (val.tdiv 10)
      (x + patch.width + 1, [AltDraw.althudfunc x y patch WHITE color])
    else (x, [])
  hundreds ++ tens ++ [AltDraw.althudfunc x y (env.altnum2 (val.tmod 10)) WHITE color]

/-- Function `AltHUDNumber2Width(val)`:
```
const int   oldval = val;
int         width = 0;

if (val > 99)
    width += SHORT(altnum2[val / 100]->width) + 1;

val %= 100;

if (val > 9 || oldval > 99)
    width += SHORT(altnum2[val / 10]->width) + 1;

return (width + SHORT(altnum2[val % 10]->width));
``` -/
def AltHUDNumber2Width (env : AltHUDEnv) (val : Int) : Int :=
  let oldval := val
  let width : Int := if val > 99 then (env.altnum2 (val.tdiv 100)).width + 1 else 0
  let val := val.tmod 100
  let width :=
    if val > 9 || oldval > 99 then width + (env.altnum2 (val.tdiv 10)).width + 1 else width
  width + (env.altnum2 (val.tmod 10)).width

/-- The health block of `HU_DrawAltHUD`:
```
int color = (invert ? colormaps[0][32 * 256 + white] : white);
int health = MAX(health_min, viewplayer->health);
int barcolor2 = (health <= 20 ? red : (health >= 100 ? green : color));
int barcolor1 = barcolor2 + (barcolor2 == green ? coloroffset : 0);

DrawAltHUDNumber(ALTHUD_LEFT_X + 35 - AltHUDNumberWidth(ABS(health)), ALTHUD_Y + 12, health, color);

if ((health = MAX(0, health) * 200 / maxhealth) > 100)
{
    fillrectfunc(0, ALTHUD_LEFT_X + 60, ALTHUD_Y + 13, 101, 8, barcolor1, true);
    fillrectfunc(0, ALTHUD_LEFT_X + 60, ALTHUD_Y + 13, MAX(1, health - 100) + (health == 200), 8, barcolor2, (health == 200));
    althudfunc(ALTHUD_LEFT_X + 40, ALTHUD_Y + 1, altleftpatch, WHITE, color);
    althudfunc(ALTHUD_LEFT_X + 60, ALTHUD_Y + 13, altendpatch, WHITE, barcolor2);
    althudfunc(ALTHUD_LEFT_X + 60 + 98, ALTHUD_Y + 13, altmarkpatch, WHITE, barcolor1);
    althudfunc(ALTHUD_LEFT_X + 60 + health - 100 - (health < 200) - 2, ALTHUD_Y + 10, altmark2patch, WHITE, barcolor2);
}
else
{
    fillrectfunc(0, ALTHUD_LEFT_X + 60, ALTHUD_Y + 13, MAX(1, health) + (health == 100), 8, barcolor1, true);
    althudfunc(ALTHUD_LEFT_X + 40, ALTHUD_Y + 1, altleftpatch, WHITE, color);
    althudfunc(ALTHUD_LEFT_X + 60, ALTHUD_Y + 13, altendpatch, WHITE, barcolor1);
    althudfunc(ALTHUD_LEFT_X + 60 + MAX(1, health) - (health < 100) - 2, ALTHUD_Y + 13, altmarkpatch, WHITE, barcolor1);
}
```
Returns the rescaled `health` and the calls made; `none` when `maxhealth` is 0. -/
def HU_DrawAltHUD_health (pv : PlayerView) (env : AltHUDEnv) : Option (Int × List AltDraw) :=
  let color := invertible pv env env.white
  let health := max env.health_min pv.health
  let barcolor2 := if health ≤ 20 then env.red else (if health ≥ 100 then env.green else color)
  let barcolor1 := barcolor2 + (if barcolor2 = env.green then env.coloroffset else 0)
  let number := DrawAltHUDNumber env
    (ALTHUD_LEFT_X + 35 - AltHUDNumberWidth env (ABS health)) (ALTHUD_Y env + 12) health color
  match divide (max 0 health * 200) env.maxhealth with
  | none => none
  | some health =>
    if health > 100 then
      some (health, number ++
        [AltDraw.fillrectfunc 0 (ALTHUD_LEFT_X + 60) (ALTHUD_Y env + 13) 101 8 barcolor1 true,
          AltDraw.fillrectfunc 0 (ALTHUD_LEFT_X + 60) (ALTHUD_Y env + 13)
            (max 1 (health - 100) + boolInt (health == 200)) 8 barcolor2 (health == 200),
          AltDraw.althudfunc (ALTHUD_LEFT_X + 40) (ALTHUD_Y env + 1) env.altleftpatch WHITE color,
          AltDraw.althudfunc (ALTHUD_LEFT_X + 60) (ALTHUD_Y env + 13) env.altendpatch WHITE
            barcolor2,
          AltDraw.althudfunc (ALTHUD_LEFT_X + 60 + 98) (ALTHUD_Y env + 13) env.altmarkpatch
            WHITE barcolor1,
          AltDraw.althudfunc
            (ALTHUD_LEFT_X + 60 + health - 100 - boolInt (decide (health < 200)) - 2)
            (ALTHUD_Y env + 10) env.altmark2patch WHITE barcolor2])
    else
      some (health, number ++
        [AltDraw.fillrectfunc 0 (ALTHUD_LEFT_X + 60) (ALTHUD_Y env + 13)
            (max 1 health + boolInt (health == 100)) 8 barcolor1 true,
          AltDraw.althudfunc (ALTHUD_LEFT_X + 40) (ALTHUD_Y env + 1) env.altleftpatch WHITE color,
          AltDraw.althudfunc (ALTHUD_LEFT_X + 60) (ALTHUD_Y env + 13) env.altendpatch WHITE
            barcolor1,
          AltDraw.althudfunc
            (ALTHUD_LEFT_X + 60 + max 1 health - boolInt (decide (health < 100)) - 2)
            (ALTHUD_Y env + 13) env.altmarkpatch WHITE barcolor1])

/-- The armor block of `HU_DrawAltHUD`:
```
int armor = viewplayer->armorpoints;

if (armor)
{
    barcolor2 = (viewplayer->armortype == GREENARMOR ? (invert ? colormaps[0][32 * 256 + gray] : gray) :
        (invert ? colormaps[0][32 * 256 + lightgray] : lightgray));
    barcolor1 = barcolor2 + coloroffset;
    althudfunc(ALTHUD_LEFT_X + 43, ALTHUD_Y, altarmpatch, WHITE, barcolor2);
    DrawAltHUDNumber2(ALTHUD_LEFT_X + 35 - AltHUDNumber2Width(armor), ALTHUD_Y, armor, barcolor2);
    armor = armor * 200 / max_armor;

    if (armor > 100)
    {
        fillrectfunc(0, ALTHUD_LEFT_X + 60, ALTHUD_Y + 2, 100 + 1, 4, barcolor1, true);
        fillrectfunc(0, ALTHUD_LEFT_X + 60, ALTHUD_Y + 2, armor - 100 + (armor == 200), 4, barcolor2, (armor == 200));
    }
    else
        fillrectfunc(0, ALTHUD_LEFT_X + 60, ALTHUD_Y + 2, armor + (armor == 100), 4, barcolor1, true);
}
else
    althudfunc(ALTHUD_LEFT_X + 43, ALTHUD_Y, altarmpatch, WHITE, (invert ? colormaps[0][32 * 256 + darkgray] : darkgray));
```
Returns the calls made; `none` when `max_armor` is 0 and is divided by. -/
def HU_DrawAltHUD_armor (pv : PlayerView) (env : AltHUDEnv) : Option (List AltDraw) :=
  let armor := pv.armorpoints
  if armor ≠ 0 then
    let barcolor2 :=
      if pv.greenarmor then invertible pv env env.gray else invertible pv env env.lightgray
    let barcolor1 := barcolor2 + env.coloroffset
    let icon := [AltDraw.althudfunc (ALTHUD_LEFT_X + 43) (ALTHUD_Y env) env.altarmpatch WHITE
      barcolor2]
    let number := DrawAltHUDNumber2 env (ALTHUD_LEFT_X + 35 - AltHUDNumber2Width env armor)
      (ALTHUD_Y env) armor barcolor2
    match divide (armor * 200) env.max_armor with
    | none => none
    | some armor =>
      if armor > 100 then
        some (icon ++ number ++
          [AltDraw.fillrectfunc 0 (ALTHUD_LEFT_X + 60) (ALTHUD_Y env + 2) (100 + 1) 4 barcolor1
            true,
           AltDraw.fillrectfunc 0 (ALTHUD_LEFT_X + 60) (ALTHUD_Y env + 2)
            (armor - 100 + boolInt (armor == 200)) 4 barcolor2 (armor == 200)])
      else
        some (icon ++ number ++
          [AltDraw.fillrectfunc 0 (ALTHUD_LEFT_X + 60) (ALTHUD_Y env + 2)
            (armor + boolInt (armor == 100)) 4 barcolor1 true])
  else
    some [AltDraw.althudfunc (ALTHUD_LEFT_X + 43) (ALTHUD_Y env) env.altarmpatch WHITE
      (invertible pv env env.darkgray)]

/-- The ammunition and weapon block of `HU_DrawAltHUD`, `health` being the
rescaled health the health block left:
```
if (health)
{
    const weapontype_t  pendingweapon = viewplayer->pendingweapon;
    const weapontype_t  weapon = (pendingweapon != wp_nochange ? pendingweapon : viewplayer->readyweapon);
    ammotype_t          ammotype = weaponinfo[weapon].ammotype;

    if (ammotype != am_noammo)
    {
        int ammo = viewplayer->ammo[ammotype];

        DrawAltHUDNumber(ALTHUD_RIGHT_X + 101 - AltHUDNumberWidth(ammo), ALTHUD_Y - 1, ammo, color);
        ammo = 100 * ammo / viewplayer->maxammo[ammotype];
        barcolor1 = (ammo <= 15 ? yellow : color);
        fillrectfunc(0, ALTHUD_RIGHT_X + 100 - ammo, ALTHUD_Y + 13, ammo + 1, 8, barcolor1, true);
        althudfunc(ALTHUD_RIGHT_X, ALTHUD_Y + 13, altrightpatch, WHITE, color);
        althudfunc(ALTHUD_RIGHT_X + 100, ALTHUD_Y + 13, altendpatch, WHITE, barcolor1);
        althudfunc(ALTHUD_RIGHT_X + 100 - ammo - 2, ALTHUD_Y + 13, altmarkpatch, WHITE, barcolor1);
    }

    if (altweapon[weapon])
        althudfunc(ALTHUD_RIGHT_X + 107, ALTHUD_Y - 15, altweapon[weapon], WHITE, color);
}
```
Returns the calls made; `none` when `maxammo` of the weapon is 0. -/
def HU_DrawAltHUD_ammo (pv : PlayerView) (env : AltHUDEnv) (health : Int) :
    Option (List AltDraw) :=
  let color := invertible pv env env.white
  if health ≠ 0 then
    let weapon :=
      if pv.pendingweapon ≠ weapontype_t.wp_nochange then pv.pendingweapon else pv.readyweapon
    let ammotype := pv.weaponinfo weapon
    let weapondraw : List AltDraw :=
      match env.altweapon weapon with
      | some patch =>
        [AltDraw.althudfunc (ALTHUD_RIGHT_X env + 107) (ALTHUD_Y env - 15) patch WHITE color]
      | none => []
    if ammotype ≠ ammotype_t.am_noammo then
      let ammo := pv.ammo ammotype
      let number := DrawAltHUDNumber env (ALTHUD_RIGHT_X env + 101 - AltHUDNumberWidth env ammo)
        (ALTHUD_Y env - 1) ammo color
      match divide (100 * ammo) (pv.maxammo ammotype) with
      | none => none
      | some ammo =>
        let barcolor1 := if ammo ≤ 15 then env.yellow else color
        some (number ++
          [AltDraw.fillrectfunc 0 (ALTHUD_RIGHT_X env + 100 - ammo) (ALTHUD_Y env + 13)
            (ammo + 1) 8 barcolor1 true,
           AltDraw.althudfunc (ALTHUD_RIGHT_X env) (ALTHUD_Y env + 13) env.altrightpatch WHITE
            color,
           AltDraw.althudfunc (ALTHUD_RIGHT_X env + 100) (ALTHUD_Y env + 13) env.altendpatch
            WHITE barcolor1,
           AltDraw.althudfunc (ALTHUD_RIGHT_X env + 100 - ammo - 2) (ALTHUD_Y env + 13)
            env.altmarkpatch WHITE barcolor1] ++ weapondraw)
    else some weapondraw
  else some []

/-- The body of the key loop of `HU_DrawAltHUD` for one pair `i`, `j`, acting on
`keypic_x` and the calls so far:
```
if (viewplayer->cards[j] == i)
{
    altkeypic_t altkeypic = altkeypics[j];
    patch_t     *patch = altkeypic.patch;

    althudfunc(keypic_x, ALTHUD_Y, patch, WHITE, altkeypic.color);
    keypic_x += SHORT(patch->width) + 4;
}
``` -/
def HU_DrawAltHUD_key (pv : PlayerView) (env : AltHUDEnv) (i : Int) (acc : Int × List AltDraw)
    (j : Nat) : Int × List AltDraw :=
  if pv.cards j = i then
    let patch := env.altkeypatch j
    (acc.1 + patch.width + 4,
      acc.2 ++ [AltDraw.althudfunc acc.1 (ALTHUD_Y env) patch WHITE (env.altkeycolor j)])
  else acc

/-- The key loop of `HU_DrawAltHUD`, from `keypic_x = ALTHUD_RIGHT_X`:
```
for (int i = 1; i <= NUMCARDS; i++)
    for (int j = 0; j < NUMCARDS; j++)
        (body)
```
Returns the final `keypic_x` and the calls made. -/
def HU_DrawAltHUD_keys (pv : PlayerView) (env : AltHUDEnv) : Int × List AltDraw :=
  (List.range' 1 NUMCARDS).foldl
    (fun acc i => (List.range NUMCARDS).foldl (HU_DrawAltHUD_key pv env i) acc)
    (ALTHUD_RIGHT_X env, [])

/-- The needed-key flash of `HU_DrawAltHUD`, with `keypic_x` as the key loop left
it:
```
if (viewplayer->neededcardflash)
{
    if (!(menuactive || paused || consoleactive))
    {
        int currenttime = I_GetTimeMS();

        if (keywait < currenttime)
        {
            showkey = !showkey;
            keywait = currenttime + HUD_KEY_WAIT;
            viewplayer->neededcardflash--;
        }
    }

    if (showkey)
    {
        altkeypic_t altkeypic = altkeypics[viewplayer->neededcard];
        patch_t     *patch = altkeypic.patch;

        althudfunc(keypic_x, ALTHUD_Y, patch, WHITE, altkeypic.color);
    }
}
else
{
    showkey = false;
    keywait = 0;
}
``` -/
def HU_DrawAltHUD_neededcard (pv : PlayerView) (env : AltHUDEnv) (keypic_x : Int)
    (s : HUDState) : HUDState × List AltDraw :=
  if s.neededcardflash ≠ 0 then
    let s : HUDState :=
      if !(pv.menuactive || pv.paused || pv.consoleactive) then
        if s.altkeywait < pv.currenttime then
          { s with
            altshowkey := !s.altshowkey
            altkeywait := pv.currenttime + env.HUD_KEY_WAIT
            neededcardflash := s.neededcardflash - 1 }
        else s
      else s
    (s, if s.altshowkey then
        [AltDraw.althudfunc keypic_x (ALTHUD_Y env) (env.altkeypatch pv.neededcard) WHITE
          (env.altkeycolor pv.neededcard)]
      else [])
  else ({ s with altshowkey := false, altkeywait := 0 }, [])

/-- One of the three later steps of the power-up selection of `HU_DrawAltHUD`,
acting on the pair `powerupbar`, `max` (`none`: not assigned), for the counter
`powerup` of a power-up of full duration `duration`:
```
if ((powerup = viewplayer->powers[...]) && (!powerupbar || (powerup >= 0 && powerup < powerupbar)))
{
    max = duration;
    powerupbar = (powerup == -1 ? max : powerup);
}
``` -/
def powerupStep (powerup duration : Int) (sel : Int × Option Int) : Int × Option Int :=
  if powerup != 0 && (sel.1 == 0 || (powerup ≥ 0 && powerup < sel.1)) then
    (if powerup = -1 then duration else powerup, some duration)
  else sel

/-- The power-up selection of `HU_DrawAltHUD`: the values of `powerupbar` and
`max` before the bar is drawn.
```
int             powerupbar = 0;
int             max;

if ((powerup = viewplayer->powers[pw_invulnerability]))
{
    max = INVULNTICS;
    powerupbar = (powerup == -1 ? max : powerup);
}

(the step above for pw_invisibility with INVISTICS, pw_ironfeet with IRONTICS,
 pw_infrared with INFRATICS)

if ((powerup = viewplayer->powers[pw_strength])
    && ((viewplayer->readyweapon == wp_fist && viewplayer->pendingweapon == wp_nochange)
        || viewplayer->pendingweapon == wp_fist)
    && !powerupbar)
{
    max = STARTFLASHING + 1;
    powerupbar = STARTFLASHING + 1;
}
``` -/
def selectPowerup (pv : PlayerView) (env : AltHUDEnv) : Int × Option Int :=
  let sel : Int × Option Int :=
    if pv.pw_invulnerability ≠ 0 then
      (if pv.pw_invulnerability = -1 then env.INVULNTICS else pv.pw_invulnerability,
        some env.INVULNTICS)
    else (0, none)
  let sel := powerupStep pv.pw_invisibility env.INVISTICS sel
  let sel := powerupStep pv.pw_ironfeet env.IRONTICS sel
  let sel := powerupStep pv.pw_infrared env.INFRATICS sel
  if pv.pw_strength != 0
      && ((pv.readyweapon == weapontype_t.wp_fist
            && pv.pendingweapon == weapontype_t.wp_nochange)
          || pv.pendingweapon == weapontype_t.wp_fist)
      && sel.1 == 0 then
    (env.STARTFLASHING + 1, some (env.STARTFLASHING + 1))
  else sel

/-- The power-up bar of `HU_DrawAltHUD`, after the selection:
```
if (powerupbar > STARTFLASHING || (powerupbar & 8))
{
    fillrectfunc(0, ALTHUD_RIGHT_X, ALTHUD_Y + 26, 101, 2, (invert ? colormaps[0][32 * 256 + darkgray] : darkgray), false);
    fillrectfunc(0, ALTHUD_RIGHT_X, ALTHUD_Y + 26, powerupbar * 101 / max, 2, (invert ? colormaps[0][32 * 256 + gray] : gray), false);
}
```
Returns the calls made; `none` when `max` is read unassigned or is 0. -/
def HU_DrawAltHUD_powerup (pv : PlayerView) (env : AltHUDEnv) : Option (List AltDraw) :=
  let sel := selectPowerup pv env
  let powerupbar := sel.1
  if powerupbar > env.STARTFLASHING || Int.land powerupbar 8 != 0 then
    match sel.2 with
    | some max =>
      match divide (powerupbar * 101) max with
      | some width =>
        some [AltDraw.fillrectfunc 0 (ALTHUD_RIGHT_X env) (ALTHUD_Y env + 26) 101 2
            (invertible pv env env.darkgray) false,
          AltDraw.fillrectfunc 0 (ALTHUD_RIGHT_X env) (ALTHUD_Y env + 26) width 2
            (invertible pv env env.gray) false]
      | none => none
    | none => none
  else some []

/-- Function `HU_DrawAltHUD`: the blocks above in the order of the source.
Returns the state and the calls made; `none` when a block divides by zero or
reads `max` unassigned. -/
def HU_DrawAltHUD (pv : PlayerView) (env : AltHUDEnv) (s : HUDState) :
    Option (HUDState × List AltDraw) :=
  match HU_DrawAltHUD_health pv env with
  | none => none
  | some (health, healthdraws) =>
    match HU_DrawAltHUD_armor pv env with
    | none => none
    | some armordraws =>
      match HU_DrawAltHUD_ammo pv env health with
      | none => none
      | some ammodraws =>
        let keys := HU_DrawAltHUD_keys pv env
        let needed := HU_DrawAltHUD_neededcard pv env keys.1 s
        match HU_DrawAltHUD_powerup pv env with
        | none => none
        | some powerdraws =>
          some (needed.1,
            healthdraws ++ armordraws ++ ammodraws ++ keys.2 ++ needed.2 ++ powerdraws)

/-- Sample player: 75 health, no armor, pistol ready with 50 of 200 bullets, the
blue card held, no power-up, the game running at clock 5000. -/
def samplePlayer : PlayerView :=
  { health := 75, armorpoints := 0, greenarmor := true
    pendingweapon := weapontype_t.wp_nochange, readyweapon := weapontype_t.wp_pistol
    ammo := fun a => if a = ammotype_t.am_clip then 50 else 0
    maxammo := fun _ => 200
    cards := fun j => if j = 0 then 1 else 0
    neededcard := 0
    pw_invulnerability := 0, pw_invisibility := 0, pw_ironfeet := 0, pw_infrared := 0
    pw_strength := 0, inversecolormap := false
    weaponinfo := fun w =>
      if w = weapontype_t.wp_fist ∨ w = weapontype_t.wp_chainsaw then ammotype_t.am_noammo
      else ammotype_t.am_clip
    menuactive := false, paused := false, consoleactive := false
    currenttime := 5000, healthhighlight := 0, ammohighlight := 0, armorhighlight := 0 }

/-- Sample resources of the classic HUD: digits `10 + d` wide, all patches
loaded. -/
def sampleHUDEnv : HUDEnv :=
  { HUD_HEALTH_X := 50, HUD_HEALTH_Y := 350, HUD_HEALTH_MIN := 10, HUD_HEALTH_WAIT := 250
    HUD_AMMO_X := 150, HUD_AMMO_Y := 350, HUD_AMMO_MIN := 10, HUD_AMMO_WAIT := 250
    HUD_KEYS_X := 500, HUD_KEYS_Y := 350, HUD_KEY_WAIT := 250
    HUD_ARMOR_X := 590, HUD_ARMOR_Y := 350, SCREENWIDTH := 640
    tallnum := sampleNumset, tallpercent := ⟨20, 14, 16⟩, tallpercentwidth := 14
    emptytallpercent := false
    minuspatch := some sampleMinus, minuspatchwidth := 7
    face := some ⟨30, 24, 29⟩
    greenarmorpatch := some ⟨31, 31, 17⟩, bluearmorpatch := some ⟨32, 31, 17⟩
    ammopic := fun _ => some ⟨33, 9, 11⟩
    keypics := fun j => some ⟨40 + j, 7, 16⟩ }

/-- Sample resources of the alternate HUD on a 640 by 400 screen: the palette
indices of `hu_stuff.c` for the colours, an inverse colormap that sends the gray
`c` to `191 - c`, power-ups lasting 30, 60, 60 and 120 seconds of 35 tics. -/
def sampleAltEnv : AltHUDEnv :=
  { SCREENWIDTH := 640, SCREENHEIGHT := 400, SBARHEIGHT := 64, HUD_KEY_WAIT := 250
    INVULNTICS := 1050, INVISTICS := 2100, IRONTICS := 2100, INFRATICS := 4200
    STARTFLASHING := 128
    r_textures := true
    colormaps0 := fun i => if 32 * 256 ≤ i then 191 - (i - 32 * 256) else i
    white := 4, lightgray := 86, gray := 92, darkgray := 102
    green := 114, red := 180, yellow := 231
    coloroffset := 0, health_min := -99, maxhealth := 200, max_armor := 200
    altnum := sampleNumset, altnum2 := sampleNumset
    altminuspatch := sampleMinus, altminuspatchwidth := 7
    altweapon := fun _ => some ⟨50, 20, 10⟩
    altendpatch := ⟨51, 1, 8⟩, altleftpatch := ⟨52, 20, 20⟩, altarmpatch := ⟨53, 12, 12⟩
    altrightpatch := ⟨54, 20, 20⟩, altmarkpatch := ⟨55, 1, 8⟩, altmark2patch := ⟨56, 1, 11⟩
    altkeycolor := fun j => 200 + j
    altkeypatch := fun j => ⟨60 + j, 8, 12⟩ }

/-- Sample HUD state: no blink, no key flash. -/
def sampleHUD : HUDState :=
  { healthanim := false, healthwait := 0, ammoanim := false, ammowait := 0
    keywait := 0, showkey := false, altkeywait := 0, altshowkey := false
    neededcardflash := 0 }

/-- Sample player with two timed power-ups: invulnerability with 1000 tics left
and invisibility with 1040 tics left. -/
def samplePowered : PlayerView :=
  { samplePlayer with pw_invulnerability := 1000, pw_invisibility := 1040 }

/-! ## Message position (`hu_stuff.c`) -/

/-- What the C library call
`sscanf(r_messagepos, "(%10i,%10i)", &message_x, &message_y)` did:
* `unmatched eof`: no conversion succeeded, nothing is stored, the call returns
  `EOF` (-1) when `eof` holds and 0 otherwise;
* `first x`: only the first conversion succeeded, `x` is stored in `message_x`, the
  call returns 1;
* `both x y`: both conversions succeeded, `x` and `y` are stored, the call
  returns 2. -/
inductive scan_t where
  | unmatched (eof : Bool)
  | first (x : Int)
  | both (x y : Int)
  deriving DecidableEq, Repr

/-- The value a `sscanf` call returns. -/
def scan_t.ret : scan_t → Int
  | .unmatched eof => if eof then -1 else 0
  | .first _ => 1
  | .both _ _ => 2

/-- What `HU_InitMessages` reads and never writes: the C library function
`sscanf` on its format `"(%10i,%10i)"`, constants and macros of headers that are
not part of the sources at hand (`SCREENWIDTH`, `SCREENHEIGHT`, `SBARHEIGHT`,
`ORIGINALWIDTH`, `ORIGINALHEIGHT`, `ORIGINALSBARHEIGHT`, `SCREENSCALE`, `HU_MSGX`,
`HU_MSGY`, `HU_TITLEX`, `r_messagepos_default`, the macro `BETWEEN`) and globals.
* `messagewidth` is `M_StringWidth(w_message.l->l)`;
* `fontheight` is `hu_font[0]->height`;
* `r_messagescale_small` is `r_messagescale == r_messagescale_small`. -/
structure MsgEnv where
  sscanf : String → scan_t
  SCREENWIDTH : Int
  SCREENHEIGHT : Int
  SBARHEIGHT : Int
  ORIGINALWIDTH : Int
  ORIGINALHEIGHT : Int
  ORIGINALSBARHEIGHT : Int
  SCREENSCALE : Int
  HU_MSGX : Int
  HU_MSGY : Int
  HU_TITLEX : Int
  r_messagepos_default : String
  BETWEEN : Int → Int → Int → Int
  vid_widescreen : Bool
  r_althud : Bool
  r_messagescale_small : Bool
  messagewidth : Int
  fontheight : Int

/-- The variables `HU_InitMessages` writes: `message_x`, `message_y`, the console
variable `r_messagepos`, and the positions `w_message.l->x`, `w_message.l->y`,
`w_title.x`, `w_title.y` of the two widgets. -/
structure MsgState where
  message_x : Int
  message_y : Int
  r_messagepos : String
  w_message_x : Int
  w_message_y : Int
  w_title_x : Int
  w_title_y : Int
  deriving DecidableEq, Repr

/-- A call from `HU_InitMessages` into another module. -/
inductive MsgCall where
  | M_SaveCVARs
  deriving DecidableEq, Repr

/-- The first block of `HU_InitMessages`:
```
if (sscanf(r_messagepos, "(%10i,%10i)", &message_x, &message_y) != 2
    || message_x < 0 || message_x >= SCREENWIDTH || message_y < 0 || message_y >= SCREENHEIGHT - SBARHEIGHT)
{
    message_x = HU_MSGX;
    message_y = HU_MSGY;
    r_messagepos = r_messagepos_default;
    M_SaveCVARs();
}
```
`sscanf` stores what it converted before the tests run. Returns the state and the
calls made. -/
def HU_InitMessages_position (env : MsgEnv) (s : MsgState) : MsgState × List MsgCall :=
  let scanned := env.sscanf s.r_messagepos
  let s : MsgState :=
    match scanned with
    | .unmatched _ => s
    | .first x => { s with message_x := x }
    | .both x y => { s with message_x := x, message_y := y }
  if scanned.ret != 2
      || s.message_x < 0 || s.message_x ≥ env.SCREENWIDTH
      || s.message_y < 0 || s.message_y ≥ env.SCREENHEIGHT - env.SBARHEIGHT then
    ({ s with
        message_x := env.HU_MSGX
        message_y := env.HU_MSGY
        r_messagepos := env.r_messagepos_default },
      [MsgCall.M_SaveCVARs])
  else (s, [])

/-- The rest of `HU_InitMessages`, the positions of the two widgets:
```
if (!vid_widescreen || !r_althud)
{
    if (r_messagescale == r_messagescale_small)
    {
        w_message.l->x = BETWEEN(0, message_x * SCREENSCALE, SCREENWIDTH - M_StringWidth(w_message.l->l));
        w_message.l->y = BETWEEN(0, message_y * SCREENSCALE, SCREENHEIGHT - SBARHEIGHT - hu_font[0]->height);
    }
    else
    {
        w_message.l->x = BETWEEN(0, message_x, ORIGINALWIDTH - M_StringWidth(w_message.l->l));
        w_message.l->y = BETWEEN(0, message_y, ORIGINALHEIGHT - ORIGINALSBARHEIGHT - hu_font[0]->height);
    }
}

if (r_messagescale == r_messagescale_small)
{
    w_title.x = HU_TITLEX * SCREENSCALE;
    w_title.y = SCREENHEIGHT - SBARHEIGHT - hu_font[0]->height - 4;
}
else
{
    w_title.x = HU_TITLEX;
    w_title.y = ORIGINALHEIGHT - ORIGINALSBARHEIGHT - hu_font[0]->height - 2;
}
``` -/
def HU_InitMessages_widgets (env : MsgEnv) (s : MsgState) : MsgState :=
  let s : MsgState :=
    if !env.vid_widescreen || !env.r_althud then
      if env.r_messagescale_small then
        { s with
          w_message_x := env.BETWEEN 0 (s.message_x * env.SCREENSCALE)
            (env.SCREENWIDTH - env.messagewidth)
          w_message_y := env.BETWEEN 0 (s.message_y * env.SCREENSCALE)
            (env.SCREENHEIGHT - env.SBARHEIGHT - env.fontheight) }
      else
        { s with
          w_message_x := env.BETWEEN 0 s.message_x (env.ORIGINALWIDTH - env.messagewidth)
          w_message_y := env.BETWEEN 0 s.message_y
            (env.ORIGINALHEIGHT - env.ORIGINALSBARHEIGHT - env.fontheight) }
    else s
  if env.r_messagescale_small then
    { s with
      w_title_x := env.HU_TITLEX * env.SCREENSCALE
      w_title_y := env.SCREENHEIGHT - env.SBARHEIGHT - env.fontheight - 4 }
  else
    { s with
      w_title_x := env.HU_TITLEX
      w_title_y := env.ORIGINALHEIGHT - env.ORIGINALSBARHEIGHT - env.fontheight - 2 }

/-- Function `HU_InitMessages`: the two blocks above, in this order. Returns the
state and the calls made. -/
def HU_InitMessages (env : MsgEnv) (s : MsgState) : MsgState × List MsgCall :=
  let r := HU_InitMessages_position env s
  (HU_InitMessages_widgets env r.1, r.2)

/-- Whether a scanned position is one `HU_InitMessages` keeps: both coordinates
were converted, `0 <= x < SCREENWIDTH` and `0 <= y < SCREENHEIGHT - SBARHEIGHT`. -/
def keptPosition (env : MsgEnv) : scan_t → Bool
  | .both x y =>
    decide (0 ≤ x) && decide (x < env.SCREENWIDTH)
      && decide (0 ≤ y) && decide (y < env.SCREENHEIGHT - env.SBARHEIGHT)
  | _ => false

/-- Sample scanner: what `sscanf` makes of five strings with this format; every
other string is taken as one on which no conversion succeeds. -/
def sampleScan (str : String) : scan_t :=
  if str = "(3,2)" then .both 3 2
  else if str = "(10,20)" then .both 10 20
  else if str = "(700,2)" then .both 700 2
  else if str = "(5,-1)" then .both 5 (-1)
  else if str = "(12,k)" then .first 12
  else .unmatched (str = "")

/-- Sample environment of `HU_InitMessages`: a 640 by 400 screen with a status bar
of 64 rows, the default position (3,2). -/
def sampleMsgEnv : MsgEnv :=
  { sscanf := sampleScan
    SCREENWIDTH := 640, SCREENHEIGHT := 400, SBARHEIGHT := 64
    ORIGINALWIDTH := 320, ORIGINALHEIGHT := 200, ORIGINALSBARHEIGHT := 32
    SCREENSCALE := 2, HU_MSGX := 3, HU_MSGY := 2, HU_TITLEX := 3
    r_messagepos_default := "(3,2)"
    BETWEEN := fun a b c => max a (min b c)
    vid_widescreen := false, r_althud := false, r_messagescale_small := false
    messagewidth := 0, fontheight := 7 }

/-- Sample state of `HU_InitMessages`: the console variable holds `str`, the
coordinates are still the zeros of their static storage. -/
def sampleMsgState (str : String) : MsgState :=
  { message_x := 0, message_y := 0, r_messagepos := str
    w_message_x := 0, w_message_y := 0, w_title_x := 0, w_title_y := 0 }

/-- Sample state: the title page is up with `pagetic` tics left on its countdown,
the menu is closed and no page advance is requested. -/
def sampleTitlePage (pagetic : Int) : DoomState :=
  { sampleStart with
    advancetitle := false, gamestate := gamestate_t.GS_TITLESCREEN, wipe := false
    titlesequence := 1, pagetic := pagetic, pagename := some "TITLEPIC" }

/-- The decimal digits of `n`, most significant first and with no leading zero;
the single digit 0 for `n = 0`. The digits are those of `Nat.digits 10`. -/
def decimalDigits (n : Nat) : List Nat :=
  if n = 0 then [0] else (Nat.digits 10 n).reverse

/-- A row of digit glyphs as the claim on `DrawHUDNumber` describes it: the glyph
of the first digit is drawn at `x`, and each next glyph at the `x` where the
previous one ended (its `x` plus its width) plus `gap`. -/
def glyphRow {τ δ : Type} (numset : Int → patch_t) (gap : Int)
    (hudnumfunc : Int → Int → patch_t → τ → δ) (y : Int) (translucency : τ) :
    Int → List Nat → List δ
  | _, [] => []
  | x, d :: ds =>
    hudnumfunc x y (numset d) translucency
      :: glyphRow numset gap hudnumfunc y translucency (x + (numset d).width + gap) ds

/-- The cards the key loop of `HU_DrawHUD` draws, in the order of its two loops:
for each slot index `i` from 1 to `NUMCARDS`, the array indices `j` in increasing
order with `cards[j] == i` and a patch loaded. -/
def cardOrder (pv : PlayerView) (env : HUDEnv) : List Nat :=
  (List.range' 1 NUMCARDS).flatMap (fun i =>
    (List.range NUMCARDS).filter (fun j =>
      decide (pv.cards j = (i : Int)) && (env.keypics j).isSome))

/-- A row of key pictures drawn right to left from `keypic_x`: the picture of each
card of the list that has a patch ends where the row stood and the row moves on
four pixels to the left of it. -/
def keyRow (env : HUDEnv) : Int → List Nat → List HUDDraw
  | _, [] => []
  | keypic_x, j :: js =>
    match env.keypics j with
    | some patch =>
      HUDDraw.mk hudfn_t.hudfunc (keypic_x - patch.width)
          (env.HUD_KEYS_Y - (patch.height - 16)) patch tinttab_t.tinttab66
        :: keyRow env (keypic_x - patch.width - 4) js
    | none => keyRow env keypic_x js

/-- Where `keypic_x` stands after the row `keyRow` of the cards of the list. -/
def keyRowEnd (env : HUDEnv) : Int → List Nat → Int
  | keypic_x, [] => keypic_x
  | keypic_x, j :: js =>
    match env.keypics j with
    | some patch => keyRowEnd env (keypic_x - patch.width - 4) js
    | none => keyRowEnd env keypic_x js

/-- Sample player holding four cards with the slot indices 3, 1, 2 and 1 at the
array positions 0, 2, 3 and 5. -/
def sampleKeys : PlayerView :=
  { samplePlayer with
    cards := fun j => if j = 0 then 3 else if j = 2 then 1 else if j = 3 then 2
      else if j = 5 then 1 else 0 }

/-- The state after successive calls of `HU_DrawHUD`, one for each frame of the
list, each frame with its own player view and clock value. -/
def HU_DrawHUD_frames (env : HUDEnv) : List PlayerView → HUDState → HUDState
  | [], s => s
  | pv :: pvs, s => HU_DrawHUD_frames env pvs (HU_DrawHUD pv env s).1

/-- The state after successive calls of `HU_DrawAltHUD`, one for each frame of the
list; `none` when one of the calls is. -/
def HU_DrawAltHUD_frames (env : AltHUDEnv) : List PlayerView → HUDState → Option HUDState
  | [], s => some s
  | pv :: pvs, s =>
    match HU_DrawAltHUD pv env s with
    | some r => HU_DrawAltHUD_frames env pvs r.1
    | none => none

/-- Whether every frame of a run of `HU_DrawHUD` is a draw on which the needed-key
flash is due: the game is not paused, the clock is past `keywait` as the frames
before left it, and the needed card has a patch. -/
def flashDue (env : HUDEnv) : List PlayerView → HUDState → Bool
  | [], _ => true
  | pv :: pvs, s =>
    !gamepaused pv && decide (s.keywait < pv.currenttime)
      && (env.keypics pv.neededcard).isSome
      && flashDue env pvs (HU_DrawHUD pv env s).1

/-- Whether every frame of a run of `HU_DrawAltHUD` is a draw on which the
needed-key flash is due: the game is not paused and the clock is past the
`keywait` of `HU_DrawAltHUD` as the frames before left it. -/
def altFlashDue (env : AltHUDEnv) : List PlayerView → HUDState → Bool
  | [], _ => true
  | pv :: pvs, s =>
    match HU_DrawAltHUD pv env s with
    | some r =>
      !gamepaused pv && decide (s.altkeywait < pv.currenttime) && altFlashDue env pvs r.1
    | none => false

/-- Sample HUD state: a needed-key flash of three blinks has just been started. -/
def sampleFlash : HUDState := { sampleHUD with neededcardflash := 3 }

/-- Sample frames: the sample player drawn at the clock values 5000, 5300 and
5600, more than `HUD_KEY_WAIT` apart. -/
def sampleFrames : List PlayerView :=
  [{ samplePlayer with currenttime := 5000 }, { samplePlayer with currenttime := 5300 },
   { samplePlayer with currenttime := 5600 }]

/-- Sample resources of the classic HUD as `HU_Init` leaves them in the shareware
game: the three skull keys have no patch. -/
def sampleSharewareEnv : HUDEnv :=
  { sampleHUDEnv with keypics := fun j => if j < 3 then some ⟨40 + j, 7, 16⟩ else none }

/-- The state after `n` successive calls of `HU_Ticker` with nothing posted in
between; `none` when one of the calls is. -/
def HU_Ticker_times (env : HUEnv) : Nat → HUState → Option HUState
  | 0, s => some s
  | n + 1, s =>
    match HU_Ticker env s with
    | some s1 => HU_Ticker_times env n s1
    | none => none

/-- Sample message: `n` times the letter W. -/
def sampleLong (n : Nat) : String := ⟨List.replicate n 'W'⟩

/-- The four timed power-ups `HU_DrawAltHUD` looks at, in its order: the counter
`viewplayer->powers[...]` of each, paired with its full duration. -/
def timedPowerups (pv : PlayerView) (env : AltHUDEnv) : List (Int × Int) :=
  [(pv.pw_invulnerability, env.INVULNTICS), (pv.pw_invisibility, env.INVISTICS),
   (pv.pw_ironfeet, env.IRONTICS), (pv.pw_infrared, env.INFRATICS)]

/-- Sample player: berserk alone, the fist ready and no weapon change pending. -/
def sampleBerserk : PlayerView :=
  { samplePlayer with pw_strength := 1, readyweapon := weapontype_t.wp_fist }

/-- The passes of a run of the wipe loop follow the clock: the values a pass read
are the successive values of `I_GetTime` from call number `k` on, all of them but
the last not above `prev` (the `nowtime` of the pass before), the last one above
`prev` and kept as `nowtime`; the pass handed `wipe_ScreenWipe` the difference
`nowtime - prev`; and the next pass goes on from the next call of `I_GetTime`. -/
def framesFollowClock (I_GetTime : Nat → Int) : Int → Nat → List WipeFrame → Prop
  | _, _, [] => True
  | prev, k, f :: fs =>
    f.reads = (List.range f.reads.length).map (fun i => I_GetTime (k + i)) ∧
    (∀ v ∈ f.reads.dropLast, v ≤ prev) ∧
    f.reads.getLast? = some f.nowtime ∧
    prev < f.nowtime ∧
    f.tics = f.nowtime - prev ∧
    framesFollowClock I_GetTime f.nowtime (k + f.reads.length) fs

/-- The passes of a run of the wipe loop are the calls of `wipe_ScreenWipe`: each
pass called it with its `tics` on the state the pass before left, kept what it
returned as `done`, and the last pass left the state `w1`. -/
def framesCallWipe {ω : Type} (wipe_ScreenWipe : Int → ω → Bool × ω) :
    ω → List WipeFrame → ω → Prop
  | w, [], w1 => w1 = w
  | w, f :: fs, w1 =>
    f.done = (wipe_ScreenWipe f.tics w).1 ∧
    framesCallWipe wipe_ScreenWipe (wipe_ScreenWipe f.tics w).2 fs w1

/-- The number of calls of `I_GetTime` a run of the wipe loop made. -/
def clockReads (frames : List WipeFrame) : Nat :=
  (frames.map (fun f => f.reads.length)).sum

/-- Sample clock that jumps: two ticks every two reads. -/
def sampleJumpClock : Nat → Int := fun k => 1000 + 2 * (k / 2 : Nat)

/-- The picture of the needed-key flash of `HU_DrawHUD`: while a flash is pending
(`neededcardflash` not zero on entry), the needed card has a patch and `showkey`
is on (as the call leaves it), the patch of the needed card, drawn so that it
ends at `keypic_x`, where the row of the held cards stopped; nothing otherwise. -/
def neededKeyFlash (pv : PlayerView) (env : HUDEnv) (neededcardflash : Int) (showkey : Bool)
    (keypic_x : Int) : List HUDDraw :=
  if neededcardflash ≠ 0 ∧ showkey = true then
    match env.keypics pv.neededcard with
    | some patch =>
      [HUDDraw.mk hudfn_t.hudfunc (keypic_x - patch.width)
        (env.HUD_KEYS_Y - (patch.height - 16)) patch tinttab_t.tinttab66]
    | none => []
  else []

/-! # Theorems -/

/-! ## Lemmas on the event queue -/

theorem mask_eq_mod (x : Nat) : x &&& (MAXEVENTS - 1) = x % 64 := by
  have h := Nat.and_pow_two_sub_one_eq_mod x 6
  simpa [MAXEVENTS] using h

theorem postEvents_snoc (q : EventQueue) (evs : List event_t) (e : event_t) :
    postEvents q (evs ++ [e]) = D_PostEvent (postEvents q evs) e := by
  simp [postEvents, List.foldl_append]

theorem postEvents_eventtail (evs : List event_t) (q : EventQueue) :
    (postEvents q evs).eventtail = q.eventtail := by
  induction evs generalizing q with
  | nil => rfl
  | cons e evs ih =>
    have h := ih (D_PostEvent q e)
    simpa [postEvents, D_PostEvent] using h

theorem postEvents_eventhead (evs : List event_t) (q : EventQueue) (hq : q.eventhead < 64) :
    (postEvents q evs).eventhead = (q.eventhead + evs.length) % 64 := by
  induction evs generalizing q with
  | nil => simp [postEvents]; omega
  | cons e evs ih =>
    have hh : (D_PostEvent q e).eventhead = (q.eventhead + 1) % 64 := by
      simp [D_PostEvent, mask_eq_mod]
    have h := ih (D_PostEvent q e) (by rw [hh]; omega)
    rw [hh] at h
    have h2 : postEvents q (e :: evs) = postEvents (D_PostEvent q e) evs := rfl
    rw [h2, h, List.length_cons]
    omega

/-- After a run of posts, the slot `(eventhead + i) % 64` holds the `i`-th posted
event, for each of the last 64 posted events. -/
theorem postEvents_slot (evs : List event_t) (q : EventQueue) (hq : q.eventhead < 64)
    (i : Nat) (hi : i < evs.length) (hlast : evs.length ≤ i + 64) :
    (postEvents q evs).events ((q.eventhead + i) % 64) = evs[i] := by
  induction evs using List.reverseRecOn generalizing i with
  | nil => simp at hi
  | append_singleton evs e ih =>
    rw [postEvents_snoc]
    have hh := postEvents_eventhead evs q hq
    simp only [D_PostEvent, storeEvent, hh]
    rw [List.length_append, List.length_singleton] at hi hlast
    by_cases hie : i = evs.length
    · subst hie
      simp
    · have hlt : i < evs.length := by omega
      have hne : (q.eventhead + i) % 64 ≠ (q.eventhead + evs.length) % 64 := by omega
      rw [if_neg hne, ih i hlt (by omega)]
      rw [List.getElem_append_left hlt]

/-- One iteration of the loop when an event is pending: some dispatch of the
event at `eventtail` is recorded and the loop goes on at the next index. -/
theorem D_ProcessEvents_loop_step {σ : Type} (R : Responders σ) (wipe : Bool) (fuel : Nat)
    (q : EventQueue) (w : σ) (hne : q.eventtail ≠ q.eventhead) :
    ∃ (w1 : σ) (d : Dispatch), d.ev = q.events q.eventtail ∧
      D_ProcessEvents_loop R wipe (fuel + 1) q w =
        (D_ProcessEvents_loop R wipe fuel
          { q with eventtail := (q.eventtail + 1) &&& (MAXEVENTS - 1) } w1).map
          fun r => (r.1, r.2.1, d :: r.2.2) := by
  by_cases hw : (wipe && (q.events q.eventtail).type == evtype_t.ev_mouse) = true
  · refine ⟨w, { ev := q.events q.eventtail, calls := [] }, rfl, ?_⟩
    conv_lhs => unfold D_ProcessEvents_loop
    simp only [if_pos hne, if_pos hw]
  · by_cases hm : (R.M_Responder (q.events q.eventtail) w).1 = true
    · refine ⟨(R.M_Responder (q.events q.eventtail) w).2,
        { ev := q.events q.eventtail,
          calls := [.M_Responder (q.events q.eventtail) true] }, rfl, ?_⟩
      conv_lhs => unfold D_ProcessEvents_loop
      simp only [if_pos hne, if_neg hw, if_pos hm]
    · refine ⟨R.G_Responder (q.events q.eventtail) (R.M_Responder (q.events q.eventtail) w).2,
        { ev := q.events q.eventtail,
          calls := [.M_Responder (q.events q.eventtail) false,
            .G_Responder (q.events q.eventtail)] }, rfl, ?_⟩
      conv_lhs => unfold D_ProcessEvents_loop
      simp only [if_pos hne, if_neg hw, if_neg hm]

/-- The loop of `D_ProcessEvents` returns whenever the fuel is at least the number
of pending events; it dequeues the slots `eventtail, eventtail + 1, ...` (mod 64)
up to `eventhead`, leaves `events` and `eventhead` alone and ends with
`eventtail = eventhead`. -/
theorem D_ProcessEvents_loop_spec {σ : Type} (R : Responders σ) (wipe : Bool) (fuel : Nat) :
    ∀ (n : Nat) (q : EventQueue) (w : σ), q.eventhead < 64 → q.eventtail < 64 →
      pending q = n → n ≤ fuel →
      ∃ (w1 : σ) (out : List Dispatch),
        D_ProcessEvents_loop R wipe fuel q w
            = some ({ q with eventtail := q.eventhead }, w1, out) ∧
        out.map Dispatch.ev
            = (List.range n).map (fun j => q.events ((q.eventtail + j) % 64)) := by
  induction fuel with
  | zero =>
    intro n q w hh ht hp hn
    have hn0 : n = 0 := by omega
    subst hn0
    have heq : q.eventtail = q.eventhead := by
      simp only [pending, MAXEVENTS] at hp; omega
    refine ⟨w, [], ?_, by simp⟩
    obtain ⟨evs, h, t⟩ := q
    simp only at heq
    subst heq
    simp [D_ProcessEvents_loop]
  | succ fuel ih =>
    intro n q w hh ht hp hn
    by_cases heq : q.eventtail = q.eventhead
    · have hn0 : n = 0 := by
        simp only [pending, MAXEVENTS] at hp; omega
      subst hn0
      refine ⟨w, [], ?_, by simp⟩
      obtain ⟨evs, h, t⟩ := q
      simp only at heq
      subst heq
      simp [D_ProcessEvents_loop]
    · obtain ⟨w1, d, hd, hstep⟩ := D_ProcessEvents_loop_step R wipe fuel q w heq
      have hpos : 0 < n := by
        simp only [pending, MAXEVENTS] at hp; omega
      obtain ⟨m, rfl⟩ : ∃ m, n = m + 1 := ⟨n - 1, by omega⟩
      have hmask := mask_eq_mod (q.eventtail + 1)
      have hpend : pending { q with eventtail := (q.eventtail + 1) &&& (MAXEVENTS - 1) } = m := by
        simp only [pending] at hp ⊢
        rw [hmask]
        simp only [MAXEVENTS] at hp ⊢
        omega
      obtain ⟨w2, out, hrun, hout⟩ :=
        ih m { q with eventtail := (q.eventtail + 1) &&& (MAXEVENTS - 1) } w1 hh
          (by simp only [hmask]; omega) hpend (by omega)
      refine ⟨w2, d :: out, ?_, ?_⟩
      · rw [hstep, hrun]; rfl
      · rw [List.map_cons, hd, hout, List.range_succ_eq_map, List.map_cons, List.map_map]
        simp only [hmask, Nat.add_zero, Nat.mod_eq_of_lt ht]
        congr 1
        apply List.map_congr_left
        intro j _
        simp only [Function.comp]
        congr 1
        omega

/-- The call `D_ProcessEvents` always returns (on indices in range): it dequeues the
`pending q` slots from `eventtail` on and leaves the queue empty. -/
theorem D_ProcessEvents_spec {σ : Type} (R : Responders σ) (wipe : Bool)
    (q : EventQueue) (w : σ) (hh : q.eventhead < 64) (ht : q.eventtail < 64) :
    ∃ (w1 : σ) (out : List Dispatch),
      D_ProcessEvents R wipe q w = some ({ q with eventtail := q.eventhead }, w1, out) ∧
      out.map Dispatch.ev
          = (List.range (pending q)).map (fun j => q.events ((q.eventtail + j) % 64)) := by
  apply D_ProcessEvents_loop_spec R wipe MAXEVENTS (pending q) q w hh ht rfl
  simp only [pending, MAXEVENTS]
  omega

/-- Posting `evs` to an empty queue and then calling `D_ProcessEvents`: the call
returns, dequeues the last `evs.length % 64` posted events in posting order, and
leaves the queue empty. -/
theorem post_then_process {σ : Type} (R : Responders σ) (wipe : Bool)
    (q : EventQueue) (w : σ) (hh : q.eventhead < 64) (hempty : q.eventtail = q.eventhead)
    (evs : List event_t) :
    ∃ r, D_ProcessEvents R wipe (postEvents q evs) w = some r ∧
      dequeued r = evs.drop (evs.length - evs.length % 64) ∧
      r.1.eventtail = r.1.eventhead ∧
      r.1.eventhead = (q.eventhead + evs.length) % 64 := by
  have hhead := postEvents_eventhead evs q hh
  have htail := postEvents_eventtail evs q
  obtain ⟨w1, out, hrun, hout⟩ := D_ProcessEvents_spec R wipe (postEvents q evs) w
    (by rw [hhead]; omega) (by rw [htail, hempty]; exact hh)
  refine ⟨_, hrun, ?_, rfl, hhead⟩
  have hpend : pending (postEvents q evs) = evs.length % 64 := by
    simp only [pending, MAXEVENTS, hhead, htail, hempty]; omega
  simp only [dequeued, hout, hpend, htail, hempty]
  apply List.ext_getElem
  · simp only [List.length_map, List.length_range, List.length_drop]
    have := Nat.mod_le evs.length 64
    omega
  · intro i h1 h2
    simp only [List.length_map, List.length_range] at h1
    simp only [List.getElem_map, List.getElem_range, List.getElem_drop]
    have hmod := Nat.mod_le evs.length 64
    have hdiv := Nat.div_add_mod evs.length 64
    have hidx : (q.eventhead + i) % 64
        = (q.eventhead + (evs.length - evs.length % 64 + i)) % 64 := by omega
    rw [hidx]
    exact postEvents_slot evs q hh _ (by omega) (by omega)

theorem D_ProcessEvents_loop_chain {σ : Type} (R : Responders σ) (wipe : Bool) (fuel : Nat) :
    ∀ (q : EventQueue) (w : σ) (r : EventQueue × σ × List Dispatch),
      D_ProcessEvents_loop R wipe fuel q w = some r →
      ∀ d ∈ r.2.2, dispatchedByChain wipe d := by
  induction fuel with
  | zero =>
    intro q w r hr d hd
    unfold D_ProcessEvents_loop at hr
    split at hr
    · exact absurd hr (by simp)
    · simp only [Option.some.injEq] at hr
      subst hr
      simp at hd
  | succ fuel ih =>
    intro q w r hr d hd
    unfold D_ProcessEvents_loop at hr
    split at hr
    · simp only at hr
      split at hr
      · rename_i hw
        obtain ⟨r1, hr1, rfl⟩ := Option.map_eq_some'.mp hr
        simp only [List.mem_cons] at hd
        rcases hd with rfl | hd
        · simp only [Bool.and_eq_true, beq_iff_eq] at hw
          simp [dispatchedByChain, hw]
        · exact ih _ _ r1 hr1 d hd
      · rename_i hw
        simp only [Bool.and_eq_true, beq_iff_eq] at hw
        split at hr
        · obtain ⟨r1, hr1, rfl⟩ := Option.map_eq_some'.mp hr
          simp only [List.mem_cons] at hd
          rcases hd with rfl | hd
          · simp [dispatchedByChain, hw]
          · exact ih _ _ r1 hr1 d hd
        · obtain ⟨r1, hr1, rfl⟩ := Option.map_eq_some'.mp hr
          simp only [List.mem_cons] at hd
          rcases hd with rfl | hd
          · simp [dispatchedByChain, hw]
          · exact ih _ _ r1 hr1 d hd
    · simp only [Option.some.injEq] at hr
      subst hr
      simp at hd

/-! ## Claims on the event queue and the responder chain -/

/-- C1: starting from an empty queue (`eventtail = eventhead`), after more than 64
events are posted with `D_PostEvent` and no `D_ProcessEvents` in between, the next
`D_ProcessEvents` returns and dequeues at most 63 events (it dequeues
`n % 64` of them), and the dequeued events are a suffix of the posted sequence:
the most recently posted ones, in posting order. -/
theorem C1_overflow_drains_recent_suffix {σ : Type} (R : Responders σ) (wipe : Bool)
    (q : EventQueue) (w : σ) (hh : q.eventhead < 64) (hempty : q.eventtail = q.eventhead)
    (evs : List event_t) (_hn : 64 < evs.length) :
    ∃ r, D_ProcessEvents R wipe (postEvents q evs) w = some r ∧
      (dequeued r).length ≤ 63 ∧ (dequeued r).length ≤ 64 ∧
      (dequeued r).length = evs.length % 64 ∧
      dequeued r <:+ evs ∧
      dequeued r = evs.drop (evs.length - (dequeued r).length) := by
  obtain ⟨r, hr, hd, -, -⟩ := post_then_process R wipe q w hh hempty evs
  have hlen : (dequeued r).length = evs.length % 64 := by
    rw [hd, List.length_drop]
    have := Nat.mod_le evs.length 64
    omega
  refine ⟨r, hr, ?_, ?_, hlen, ?_, ?_⟩
  · omega
  · omega
  · rw [hd]; exact List.drop_suffix _ _
  · rw [hlen]; exact hd

theorem C1_overflow_drains_recent_suffix_witness :
    ∃ r, D_ProcessEvents sampleResponders true (postEvents startQueue (keyEvents 70)) 0 = some r ∧
      (dequeued r).length ≤ 63 ∧ (dequeued r).length ≤ 64 ∧
      (dequeued r).length = (keyEvents 70).length % 64 ∧
      dequeued r <:+ keyEvents 70 ∧
      dequeued r = (keyEvents 70).drop ((keyEvents 70).length - (dequeued r).length) :=
  C1_overflow_drains_recent_suffix sampleResponders true startQueue 0 (by decide) rfl
    (keyEvents 70) (by decide)

/-- C2: for fewer than 64 events posted with `D_PostEvent` to an empty queue,
`D_ProcessEvents` returns and dequeues exactly those events, each once, in the
order they were posted, and leaves the queue empty (`eventtail = eventhead`); and
when nothing is pending it dequeues nothing, calls no responder and changes
neither index. -/
theorem C2_drain_in_arrival_order {σ : Type} (R : Responders σ) (wipe : Bool)
    (q : EventQueue) (w : σ) (hh : q.eventhead < 64) (hempty : q.eventtail = q.eventhead)
    (evs : List event_t) (hk : evs.length < 64) :
    (∃ r, D_ProcessEvents R wipe (postEvents q evs) w = some r ∧
      dequeued r = evs ∧ r.1.eventtail = r.1.eventhead) ∧
    D_ProcessEvents R wipe q w = some (q, w, []) := by
  constructor
  · obtain ⟨r, hr, hd, he, -⟩ := post_then_process R wipe q w hh hempty evs
    refine ⟨r, hr, ?_, he⟩
    rw [hd, Nat.mod_eq_of_lt hk]
    simp
  · show D_ProcessEvents_loop R wipe (63 + 1) q w = some (q, w, [])
    unfold D_ProcessEvents_loop
    simp [hempty]

theorem C2_drain_in_arrival_order_witness :
    (∃ r, D_ProcessEvents sampleResponders false
        (postEvents startQueue (mouseEvent :: keyEvents 5)) 0 = some r ∧
      dequeued r = mouseEvent :: keyEvents 5 ∧ r.1.eventtail = r.1.eventhead) ∧
    D_ProcessEvents sampleResponders false startQueue 0 = some (startQueue, 0, []) :=
  C2_drain_in_arrival_order sampleResponders false startQueue 0 (by decide) rfl
    (mouseEvent :: keyEvents 5) (by decide)

/-- C3, as the code behaves: `D_PostEvent` is total, and when the queue already
holds 63 unread events, posting one more makes `eventhead` equal to `eventtail`:
the queue then reads as empty, so all 64 unread events are lost, not only the
oldest. A `D_ProcessEvents` called after `j < 64` further posts returns and
dequeues exactly those `j` most recent events, in posting order (none when
`j = 0`). -/
theorem C3_post_on_full_queue_empties_it {σ : Type} (R : Responders σ) (wipe : Bool)
    (q : EventQueue) (w : σ) (ht : q.eventtail < 64)
    (hfull : pending q = 63) (e : event_t) (more : List event_t) (hmore : more.length < 64) :
    (D_PostEvent q e).eventhead = (D_PostEvent q e).eventtail ∧
    pending (D_PostEvent q e) = 0 ∧
    ∃ r, D_ProcessEvents R wipe (postEvents (D_PostEvent q e) more) w = some r ∧
      dequeued r = more := by
  have hhead : (D_PostEvent q e).eventhead = q.eventtail := by
    simp only [D_PostEvent, mask_eq_mod]
    simp only [pending, MAXEVENTS] at hfull
    omega
  have htail : (D_PostEvent q e).eventtail = q.eventtail := rfl
  refine ⟨by rw [hhead, htail], by simp [pending, hhead, htail, MAXEVENTS], ?_⟩
  obtain ⟨r, hr, hd, -, -⟩ := post_then_process R wipe (D_PostEvent q e) w
    (by rw [hhead]; exact ht) (by rw [hhead, htail]) more
  refine ⟨r, hr, ?_⟩
  rw [hd, Nat.mod_eq_of_lt hmore]
  simp

theorem C3_post_on_full_queue_empties_it_witness :
    (D_PostEvent (postEvents startQueue (keyEvents 63)) mouseEvent).eventhead
      = (D_PostEvent (postEvents startQueue (keyEvents 63)) mouseEvent).eventtail ∧
    pending (D_PostEvent (postEvents startQueue (keyEvents 63)) mouseEvent) = 0 ∧
    ∃ r, D_ProcessEvents sampleResponders false
        (postEvents (D_PostEvent (postEvents startQueue (keyEvents 63)) mouseEvent)
          (keyEvents 2)) 0 = some r ∧
      dequeued r = keyEvents 2 :=
  C3_post_on_full_queue_empties_it sampleResponders false
    (postEvents startQueue (keyEvents 63)) 0 (by decide) (by decide)
    mouseEvent (keyEvents 2) (by decide)

/-- C3, the claim as stated fails: with 63 unread key events in the queue, one more
post (a mouse event) does not leave the 62 most recent key events and the mouse
event to be dequeued; the next `D_ProcessEvents` dequeues nothing at all. -/
theorem C3_counterexample :
    pending (postEvents startQueue (keyEvents 63)) = 63 ∧
    (∃ r, D_ProcessEvents sampleResponders false
        (D_PostEvent (postEvents startQueue (keyEvents 63)) mouseEvent) 0 = some r ∧
      dequeued r = []) ∧
    ¬ ∃ r, D_ProcessEvents sampleResponders false
        (D_PostEvent (postEvents startQueue (keyEvents 63)) mouseEvent) 0 = some r ∧
      dequeued r = (keyEvents 63).tail ++ [mouseEvent] := by
  refine ⟨by decide, ⟨_, rfl, rfl⟩, ?_⟩
  rintro ⟨r, hr, hd⟩
  have h0 : D_ProcessEvents sampleResponders false
      (D_PostEvent (postEvents startQueue (keyEvents 63)) mouseEvent) 0
      = some (D_PostEvent (postEvents startQueue (keyEvents 63)) mouseEvent, 0, []) := rfl
  rw [h0] at hr
  simp only [Option.some.injEq] at hr
  subst hr
  exact absurd hd (by decide)

/-- C5: for every value `v` in `[-999, 999]`, every table of digit glyphs, every gap,
and whether or not the minus patch is loaded, `HUDNumberWidth(v, numset, gap)`
equals the amount by which `DrawHUDNumber` advances its `x` cursor when drawing
`v` with the same `numset` and `gap`. -/
theorem C5_width_agrees_with_draw {τ δ : Type} (minuspatch : Option patch_t)
    (minuspatchwidth : Int) (x y v : Int) (translucency : τ) (numset : Int → patch_t)
    (gap : Int) (hudnumfunc : Int → Int → patch_t → τ → δ)
    (_hlo : -999 ≤ v) (_hhi : v ≤ 999) :
    HUDNumberWidth minuspatch minuspatchwidth v numset gap
      = (DrawHUDNumber minuspatch minuspatchwidth x y v translucency numset gap hudnumfunc).1
          - x := by
  unfold DrawHUDNumber HUDNumberWidth
  by_cases hneg : v < 0
  · cases minuspatch with
    | none => simp [hneg]
    | some mp =>
      by_cases hl : leadingOne (-v) = true <;>
      by_cases h99 : 99 < -v <;>
      by_cases h9 : 9 < (-v).tmod 100 <;>
      simp [hneg, hl, h99, h9] <;> ring_nf
  · by_cases h99 : 99 < v <;>
    by_cases h9 : 9 < v.tmod 100 <;>
    simp [hneg, h99, h9] <;> ring_nf

theorem C5_width_agrees_with_draw_witness :
    HUDNumberWidth (some sampleMinus) 7 (-115) sampleNumset 2
      = (DrawHUDNumber (some sampleMinus) 7 100 20 (-115) () sampleNumset 2
          (fun x y p t => HUDPatchCall.mk x y p t)).1 - 100 :=
  C5_width_agrees_with_draw (some sampleMinus) 7 100 20 (-115) () sampleNumset 2
    (fun x y p t => HUDPatchCall.mk x y p t) (by decide) (by decide)

/-! ## Lemmas on the player messages -/

theorem M_StringCopy_fits (src : String) (n : Nat) (h : src.length < n) :
    M_StringCopy src n = src := by
  unfold M_StringCopy
  have h1 : src.data.length ≤ n - 1 := by
    have : src.data.length = src.length := rfl
    omega
  rw [List.take_of_length_le h1]

theorem M_snprintf_fits (text : String) (n : Nat) (h : text.length < n) :
    M_snprintf n text = text :=
  M_StringCopy_fits text n h

/-- A post that `M_StringCompare` tells apart from the previous message: the text
is stored as it is, the repeat counter restarts at 1. -/
theorem HU_SetPlayerMessage_new (env : HUEnv) (s : HUState) (m : String) (ext : Bool)
    (hdiff : env.M_StringCompare m s.prevmessage = false) :
    HU_SetPlayerMessage env s m ext =
      { s with
        messagecount := 1
        prevmessage := M_StringCopy m env.prevmessage_size
        message := some (M_StringCopy m 133)
        message_external := ext && env.mapwindow } := by
  simp [HU_SetPlayerMessage, hdiff]

/-- A post that `M_StringCompare` equates with the previous message: the repeat
counter goes up by one and is appended in parentheses. -/
theorem HU_SetPlayerMessage_repeat (env : HUEnv) (s : HUState) (m : String) (ext : Bool)
    (hsame : env.M_StringCompare m s.prevmessage = true) :
    HU_SetPlayerMessage env s m ext =
      { s with
        messagecount := s.messagecount + 1
        message := some (M_snprintf 133 (m ++ " (" ++ toString (s.messagecount + 1) ++ ")"))
        message_external := ext && env.mapwindow } := by
  simp [HU_SetPlayerMessage, hsame]

/-- What the countdown block leaves alone. -/
theorem HU_Ticker_countdown_frame (env : HUEnv) (s : HUState) :
    (HU_Ticker_countdown env s).message = s.message ∧
    (HU_Ticker_countdown env s).message_dontfuckwithme = s.message_dontfuckwithme ∧
    (HU_Ticker_countdown env s).w_message = s.w_message ∧
    (HU_Ticker_countdown env s).prevmessage = s.prevmessage ∧
    (HU_Ticker_countdown env s).messagecount = s.messagecount := by
  unfold HU_Ticker_countdown
  split
  · by_cases h2 : s.message_counter - 1 = 0 <;>
      by_cases h3 : s.message_dontpause = true <;> simp [h2, h3]
  · simp

/-- The countdown block never sets the protection flag. -/
theorem HU_Ticker_countdown_unprotected (env : HUEnv) (s : HUState)
    (h : s.message_nottobefuckedwith = false) :
    (HU_Ticker_countdown env s).message_nottobefuckedwith = false := by
  unfold HU_Ticker_countdown
  split
  · by_cases h2 : s.message_counter - 1 = 0 <;>
      by_cases h3 : s.message_dontpause = true <;> simp [h, h2, h3]
  · simp [h]

/-- With no cheat readout on, the cheat block does nothing. -/
theorem HU_Ticker_cheats_off (env : HUEnv) (s : HUState)
    (hb : env.idbehold = false) (hm : env.idmypos = false) :
    HU_Ticker_cheats env s = s := by
  simp [HU_Ticker_cheats, hb, hm]

/-- The display block when the pending message gets through. -/
theorem HU_Ticker_display_shows (env : HUEnv) (s : HUState) (m shown : String)
    (hpend : s.message = some m)
    (hopen : s.message_nottobefuckedwith = false ∨ s.message_dontfuckwithme = true)
    (hmsgs : env.messages = true ∨ s.message_dontfuckwithme = true)
    (hb : env.idbehold = false) (hm : env.idmypos = false)
    (hloop : shownText env m = some shown) :
    HU_Ticker_display env s = some { s with
      w_message := s.w_message ++ [shown]
      message_on := true
      message_counter := env.HU_MSGTIMEOUT
      message_nottobefuckedwith := s.message_dontfuckwithme
      message_dontfuckwithme := false
      message := none } := by
  unfold HU_Ticker_display
  rw [hpend]
  have h1 : (!s.message_nottobefuckedwith || s.message_dontfuckwithme) = true := by
    rcases hopen with h | h <;> simp [h]
  have h2 : ((env.messages || s.message_dontfuckwithme) && !env.idbehold && !env.idmypos)
      = true := by
    rcases hmsgs with h | h <;> simp [h, hb, hm]
  simp only [h1, h2, if_true, hloop]

/-- The display block when a protected line blocks an ordinary pending message. -/
theorem HU_Ticker_display_blocked (env : HUEnv) (s : HUState)
    (hprot : s.message_nottobefuckedwith = true)
    (hord : s.message_dontfuckwithme = false) :
    HU_Ticker_display env s = some s := by
  unfold HU_Ticker_display
  cases s.message <;> simp [hprot, hord]

/-- The countdown block when the counter is let run and does not reach zero. -/
theorem HU_Ticker_countdown_running (env : HUEnv) (s : HUState)
    (hb : env.idbehold = false) (hm : env.idmypos = false)
    (hc : s.message_counter ≠ 0) (hrun : countdownRuns env s = true)
    (hlast : s.message_counter ≠ 1) :
    HU_Ticker_countdown env s = { s with message_counter := s.message_counter - 1 } := by
  have h2 : ¬ (s.message_counter - 1 = 0) := by omega
  simp [HU_Ticker_countdown, hb, hm, hc, hrun, h2]

/-- The countdown block when the counter reaches zero. -/
theorem HU_Ticker_countdown_expires (env : HUEnv) (s : HUState)
    (hb : env.idbehold = false) (hm : env.idmypos = false)
    (hrun : countdownRuns env s = true) (hlast : s.message_counter = 1) :
    (HU_Ticker_countdown env s).message_counter = 0 ∧
    (HU_Ticker_countdown env s).message_on = false ∧
    (HU_Ticker_countdown env s).message_nottobefuckedwith = false ∧
    (HU_Ticker_countdown env s).message = s.message ∧
    (HU_Ticker_countdown env s).message_dontfuckwithme = s.message_dontfuckwithme ∧
    (HU_Ticker_countdown env s).w_message = s.w_message := by
  by_cases h3 : s.message_dontpause = true <;>
    simp [HU_Ticker_countdown, hb, hm, hrun, hlast, h3]

/-- The countdown block when the counter is held: at zero, frozen, or under a
cheat readout. -/
theorem HU_Ticker_countdown_held (env : HUEnv) (s : HUState)
    (h : s.message_counter = 0 ∨ countdownRuns env s = false
      ∨ env.idbehold = true ∨ env.idmypos = true) :
    HU_Ticker_countdown env s = s := by
  unfold HU_Ticker_countdown
  rw [if_neg]
  rcases h with h | h | h | h <;> simp [h]

/-- The display block under a cheat readout: the pending message, if any, is
dropped or left pending; nothing is shown. -/
theorem HU_Ticker_display_cheat (env : HUEnv) (s : HUState)
    (hcheat : env.idbehold = true ∨ env.idmypos = true) :
    ∃ s1, HU_Ticker_display env s = some s1 ∧
      s1.message_on = s.message_on ∧
      s1.message_counter = s.message_counter ∧
      s1.w_message = s.w_message := by
  unfold HU_Ticker_display
  cases s.message with
  | none => exact ⟨_, rfl, rfl, rfl, rfl⟩
  | some pm =>
    have hoff : ((env.messages || s.message_dontfuckwithme) && !env.idbehold
        && !env.idmypos) = false := by
      rcases hcheat with h | h <;> simp [h]
    by_cases h1 : (!s.message_nottobefuckedwith || s.message_dontfuckwithme) = true
    · refine ⟨{ s with message := none }, ?_, rfl, rfl, rfl⟩
      simp only [hoff, h1, if_true, Bool.false_eq_true, if_false]
    · refine ⟨s, ?_, rfl, rfl, rfl⟩
      simp only [h1, Bool.false_eq_true, if_false]

/-! ## Claims on the player messages -/

/-- C6: for a message `m` that `M_StringCompare` tells apart from the player's
previous message and that fits the buffers together with its suffix, posting `m`
three times in a row through `HU_SetPlayerMessage` makes the pending message `m`,
then `m (2)`, then `m (3)`; posting a different message `m2` afterwards yields
`m2` with no suffix and resets the repeat counter to 1, so the next repeat of `m2`
is suffixed `(2)`. -/
theorem C6_repeat_counter (env : HUEnv) (s : HUState) (m m2 : String) (ext : Bool)
    (hdiff : env.M_StringCompare m s.prevmessage = false)
    (hsame : env.M_StringCompare m m = true)
    (hfit : m.length + 4 < 133) (hprev : m.length < env.prevmessage_size)
    (hdiff2 : env.M_StringCompare m2 m = false)
    (hsame2 : env.M_StringCompare m2 m2 = true)
    (hfit2 : m2.length + 4 < 133) (hprev2 : m2.length < env.prevmessage_size) :
    (HU_SetPlayerMessage env s m ext).message = some m ∧
    (HU_SetPlayerMessage env (HU_SetPlayerMessage env s m ext) m ext).message
      = some (m ++ " (2)") ∧
    (HU_SetPlayerMessage env (HU_SetPlayerMessage env
        (HU_SetPlayerMessage env s m ext) m ext) m ext).message
      = some (m ++ " (3)") ∧
    (HU_SetPlayerMessage env (HU_SetPlayerMessage env (HU_SetPlayerMessage env
        (HU_SetPlayerMessage env s m ext) m ext) m ext) m2 ext).message
      = some m2 ∧
    (HU_SetPlayerMessage env (HU_SetPlayerMessage env (HU_SetPlayerMessage env
        (HU_SetPlayerMessage env s m ext) m ext) m ext) m2 ext).messagecount
      = 1 ∧
    (HU_SetPlayerMessage env (HU_SetPlayerMessage env (HU_SetPlayerMessage env
        (HU_SetPlayerMessage env (HU_SetPlayerMessage env s m ext) m ext) m ext) m2 ext)
        m2 ext).message
      = some (m2 ++ " (2)") := by
  have t2 : toString ((1 : Int) + 1) = "2" := rfl
  have t3 : toString ((1 : Int) + 1 + 1) = "3" := rfl
  have a2 : ∀ x : String, x ++ " (" ++ "2" ++ ")" = x ++ " (2)" := by
    intro x; rw [String.append_assoc, String.append_assoc]; rfl
  have a3 : ∀ x : String, x ++ " (" ++ "3" ++ ")" = x ++ " (3)" := by
    intro x; rw [String.append_assoc, String.append_assoc]; rfl
  have l2 : ∀ x : String, (x ++ " (2)").length = x.length + 4 := by
    intro x; rw [String.length_append]; rfl
  have l3 : ∀ x : String, (x ++ " (3)").length = x.length + 4 := by
    intro x; rw [String.length_append]; rfl
  have c1 := M_StringCopy_fits m 133 (by omega)
  have p1 := M_StringCopy_fits m env.prevmessage_size hprev
  have c2 := M_StringCopy_fits m2 133 (by omega)
  have p2 := M_StringCopy_fits m2 env.prevmessage_size hprev2
  have f2 := M_snprintf_fits (m ++ " (2)") 133 (by rw [l2]; omega)
  have f3 := M_snprintf_fits (m ++ " (3)") 133 (by rw [l3]; omega)
  have g2 := M_snprintf_fits (m2 ++ " (2)") 133 (by rw [l2]; omega)
  have e1 := HU_SetPlayerMessage_new env s m ext hdiff
  rw [c1, p1] at e1
  rw [e1]
  have e2 := HU_SetPlayerMessage_repeat env
    { s with messagecount := 1, prevmessage := m, message := some m,
             message_external := ext && env.mapwindow } m ext hsame
  simp only [t2, a2, f2] at e2
  rw [e2]
  have e3 := HU_SetPlayerMessage_repeat env
    { s with messagecount := 1 + 1, prevmessage := m, message := some (m ++ " (2)"),
             message_external := ext && env.mapwindow } m ext hsame
  simp only [t3, a3, f3] at e3
  rw [e3]
  have e4 := HU_SetPlayerMessage_new env
    { s with messagecount := 1 + 1 + 1, prevmessage := m, message := some (m ++ " (3)"),
             message_external := ext && env.mapwindow } m2 ext hdiff2
  rw [c2, p2] at e4
  rw [e4]
  have e5 := HU_SetPlayerMessage_repeat env
    { s with messagecount := 1, prevmessage := m2, message := some m2,
             message_external := ext && env.mapwindow } m2 ext hsame2
  simp only [t2, a2, g2] at e5
  rw [e5]
  exact ⟨rfl, rfl, rfl, rfl, rfl, rfl⟩


theorem C6_repeat_counter_witness :
    (HU_SetPlayerMessage sampleEnv sampleIdle "Picked up a clip." false).message
      = some "Picked up a clip." ∧
    (HU_SetPlayerMessage sampleEnv
      (HU_SetPlayerMessage sampleEnv sampleIdle "Picked up a clip." false)
      "Picked up a clip." false).message
      = some "Picked up a clip. (2)" ∧
    (HU_SetPlayerMessage sampleEnv (HU_SetPlayerMessage sampleEnv
      (HU_SetPlayerMessage sampleEnv sampleIdle "Picked up a clip." false)
      "Picked up a clip." false) "Picked up a clip." false).message
      = some "Picked up a clip. (3)" ∧
    (HU_SetPlayerMessage sampleEnv (HU_SetPlayerMessage sampleEnv (HU_SetPlayerMessage sampleEnv
      (HU_SetPlayerMessage sampleEnv sampleIdle "Picked up a clip." false)
      "Picked up a clip." false) "Picked up a clip." false) "Picked up a medikit." false).message
      = some "Picked up a medikit." ∧
    (HU_SetPlayerMessage sampleEnv (HU_SetPlayerMessage sampleEnv (HU_SetPlayerMessage sampleEnv
      (HU_SetPlayerMessage sampleEnv sampleIdle "Picked up a clip." false)
      "Picked up a clip." false) "Picked up a clip." false)
      "Picked up a medikit." false).messagecount
      = 1 ∧
    (HU_SetPlayerMessage sampleEnv (HU_SetPlayerMessage sampleEnv (HU_SetPlayerMessage sampleEnv
      (HU_SetPlayerMessage sampleEnv (HU_SetPlayerMessage sampleEnv sampleIdle
      "Picked up a clip." false) "Picked up a clip." false) "Picked up a clip." false)
      "Picked up a medikit." false) "Picked up a medikit." false).message
      = some "Picked up a medikit. (2)" :=
  C6_repeat_counter sampleEnv sampleIdle "Picked up a clip." "Picked up a medikit." false
    (by decide) (by decide) (by decide) (by decide) (by decide) (by decide) (by decide)
    (by decide)

/-- C7, as the code behaves: a post that `M_StringCompare` equates with the
preceding message increments the repeat counter, and the `HU_Ticker` call that
processes it (messages enabled, no protected line displayed, no cheat readout,
the ellipsis loop returning the text `shown`) hands `shown` to the widget and sets
`message_counter` back to `HU_MSGTIMEOUT`, as for any other message. -/
theorem C7_repeat_restarts_timeout (env : HUEnv) (s : HUState) (m shown : String)
    (ext : Bool)
    (hsame : env.M_StringCompare m s.prevmessage = true)
    (hb : env.idbehold = false) (hm : env.idmypos = false)
    (hmsgs : env.messages = true)
    (hprot : s.message_nottobefuckedwith = false)
    (hloop : shownText env
      (M_snprintf 133 (m ++ " (" ++ toString (s.messagecount + 1) ++ ")")) = some shown) :
    (HU_SetPlayerMessage env s m ext).messagecount = s.messagecount + 1 ∧
    ∃ s1, HU_Ticker env (HU_SetPlayerMessage env s m ext) = some s1 ∧
      s1.message_counter = env.HU_MSGTIMEOUT ∧
      s1.message_on = true ∧
      s1.w_message = s.w_message ++ [shown] ∧
      s1.messagecount = s.messagecount + 1 := by
  have e := HU_SetPlayerMessage_repeat env s m ext hsame
  rw [e]
  refine ⟨rfl, ?_⟩
  unfold HU_Ticker
  rw [HU_Ticker_cheats_off env _ hb hm]
  obtain ⟨f1, f2, f3, f4, f5⟩ := HU_Ticker_countdown_frame env
    { s with
      messagecount := s.messagecount + 1
      message := some (M_snprintf 133 (m ++ " (" ++ toString (s.messagecount + 1) ++ ")"))
      message_external := ext && env.mapwindow }
  have f6 := HU_Ticker_countdown_unprotected env
    { s with
      messagecount := s.messagecount + 1
      message := some (M_snprintf 133 (m ++ " (" ++ toString (s.messagecount + 1) ++ ")"))
      message_external := ext && env.mapwindow } hprot
  rw [HU_Ticker_display_shows env _ _ shown f1 (Or.inl f6) (Or.inl hmsgs) hb hm hloop]
  exact ⟨_, rfl, rfl, rfl, by simp only [f3], by simp only [f5]⟩

theorem C7_repeat_restarts_timeout_witness :
    (HU_SetPlayerMessage sampleEnv sampleShown "Picked up a clip." false).messagecount
      = sampleShown.messagecount + 1 ∧
    ∃ s1, HU_Ticker sampleEnv (HU_SetPlayerMessage sampleEnv sampleShown "Picked up a clip." false)
        = some s1 ∧
      s1.message_counter = sampleEnv.HU_MSGTIMEOUT ∧
      s1.message_on = true ∧
      s1.w_message = sampleShown.w_message ++ ["Picked up a clip. (2)"] ∧
      s1.messagecount = sampleShown.messagecount + 1 :=
  C7_repeat_restarts_timeout sampleEnv sampleShown "Picked up a clip." "Picked up a clip. (2)"
    false (by decide) rfl rfl rfl rfl (by decide)

/-- C7, the claim as stated fails: the line "Picked up a clip." is displayed with 50
tics left; the same message is posted again and `HU_Ticker` runs. The counter
does not continue from 50 (to 49): it is set back to `HU_MSGTIMEOUT`, 140. -/
theorem C7_counterexample :
    ∃ s1, HU_Ticker sampleEnv (HU_SetPlayerMessage sampleEnv sampleShown "Picked up a clip." false)
        = some s1 ∧
      s1.messagecount = 2 ∧
      s1.w_message = ["Picked up a clip.", "Picked up a clip. (2)"] ∧
      sampleShown.message_counter = 50 ∧
      s1.message_counter = 140 ∧
      s1.message_counter = sampleEnv.HU_MSGTIMEOUT ∧
      s1.message_counter ≠ sampleShown.message_counter - 1 ∧
      s1.message_counter ≠ sampleShown.message_counter := by
  refine ⟨_, rfl, ?_, ?_, ?_, ?_, ?_, ?_, ?_⟩ <;> decide

/-- C8, as the code behaves: with no cheat readout on and a message pending,
(1) while a protected line is displayed (`message_nottobefuckedwith` and
`message_on` set, counter not zero) and its countdown does not reach zero in this
call (the countdown is held by menu, pause or console, or more than one tic is
left), an `HU_Ticker` call with an ordinary pending message
(`message_dontfuckwithme` clear) returns, adds no text to the widget, leaves
`message_on` and the protection flag set, does not restart the countdown and
keeps the message pending;
(2) an `HU_Ticker` call with a pending message posted with
`message_dontfuckwithme` set (the ellipsis loop returning `shown`) hands `shown`
to the widget, restarts the countdown at `HU_MSGTIMEOUT` and makes the new line
the protected one. -/
theorem C8_protected_message (env : HUEnv) (s : HUState) (m : String)
    (hb : env.idbehold = false) (hm : env.idmypos = false)
    (hpend : s.message = some m) :
    (s.message_nottobefuckedwith = true → s.message_on = true → s.message_counter ≠ 0 →
      s.message_dontfuckwithme = false →
      (countdownRuns env s = false ∨ s.message_counter ≠ 1) →
      ∃ s1, HU_Ticker env s = some s1 ∧
        s1.w_message = s.w_message ∧
        s1.message_on = true ∧
        s1.message_nottobefuckedwith = true ∧
        s1.message_counter
          = (if countdownRuns env s then s.message_counter - 1 else s.message_counter) ∧
        s1.message = some m) ∧
    (s.message_dontfuckwithme = true →
      ∀ shown, shownText env m = some shown →
      ∃ s1, HU_Ticker env s = some s1 ∧
        s1.w_message = s.w_message ++ [shown] ∧
        s1.message_counter = env.HU_MSGTIMEOUT ∧
        s1.message_on = true ∧
        s1.message_nottobefuckedwith = true ∧
        s1.message_dontfuckwithme = false ∧
        s1.message = none) := by
  constructor
  · intro hprot hon hc hord hnotlast
    unfold HU_Ticker
    rw [HU_Ticker_cheats_off env _ hb hm]
    by_cases hrun : countdownRuns env s = true
    · have hlast : s.message_counter ≠ 1 := by
        rcases hnotlast with h | h
        · rw [hrun] at h; exact absurd h (by simp)
        · exact h
      rw [HU_Ticker_countdown_running env s hb hm hc hrun hlast]
      rw [HU_Ticker_display_blocked env { s with message_counter := s.message_counter - 1 }
        hprot hord]
      exact ⟨_, rfl, rfl, hon, hprot, by simp [hrun], hpend⟩
    · have hrun2 : countdownRuns env s = false := by simpa using hrun
      rw [HU_Ticker_countdown_held env s (Or.inr (Or.inl hrun2))]
      rw [HU_Ticker_display_blocked env s hprot hord]
      exact ⟨_, rfl, rfl, hon, hprot, by simp [hrun2], hpend⟩
  · intro hforce shown hloop
    unfold HU_Ticker
    rw [HU_Ticker_cheats_off env _ hb hm]
    obtain ⟨f1, f2, f3, -, -⟩ := HU_Ticker_countdown_frame env s
    rw [HU_Ticker_display_shows env _ m shown (by rw [f1, hpend])
      (Or.inr (by rw [f2, hforce])) (Or.inr (by rw [f2, hforce])) hb hm hloop]
    exact ⟨_, rfl, by simp only [f3], rfl, rfl, by simp only [f2, hforce], rfl, rfl⟩

theorem C8_protected_message_witness :
    (∃ s1, HU_Ticker sampleEnv (sampleProtected 30) = some s1 ∧
        s1.w_message = (sampleProtected 30).w_message ∧
        s1.message_on = true ∧
        s1.message_nottobefuckedwith = true ∧
        s1.message_counter
          = (if countdownRuns sampleEnv (sampleProtected 30) then
              (sampleProtected 30).message_counter - 1
            else (sampleProtected 30).message_counter) ∧
        s1.message = some "Picked up a clip.") ∧
    (∃ s1, HU_Ticker sampleEnv
          { sampleProtected 30 with message_dontfuckwithme := true } = some s1 ∧
        s1.w_message = (sampleProtected 30).w_message ++ ["Picked up a clip."] ∧
        s1.message_counter = sampleEnv.HU_MSGTIMEOUT ∧
        s1.message_on = true ∧
        s1.message_nottobefuckedwith = true ∧
        s1.message_dontfuckwithme = false ∧
        s1.message = none) :=
  ⟨(C8_protected_message sampleEnv (sampleProtected 30) "Picked up a clip." rfl rfl rfl).1
      rfl rfl (by decide) rfl (Or.inr (by decide)),
   (C8_protected_message sampleEnv { sampleProtected 30 with message_dontfuckwithme := true }
      "Picked up a clip." rfl rfl rfl).2 rfl "Picked up a clip." (by decide)⟩

/-- C8, the claim as stated fails: a protected line is displayed with one tic left
(flag set, counter 1, not yet expired), no cheat readout is on and an ordinary
message is pending. This `HU_Ticker` call counts down to zero, clears the
protection and, in the same call, hands the ordinary message to the widget and
restarts the countdown at 140. -/
theorem C8_counterexample :
    (sampleProtected 1).message_nottobefuckedwith = true ∧
    (sampleProtected 1).message_on = true ∧
    (sampleProtected 1).message_counter = 1 ∧
    (sampleProtected 1).message_dontfuckwithme = false ∧
    (sampleProtected 1).message = some "Picked up a clip." ∧
    sampleEnv.idbehold = false ∧ sampleEnv.idmypos = false ∧
    ∃ s1, HU_Ticker sampleEnv (sampleProtected 1) = some s1 ∧
      s1.w_message = ["Game saved.", "Picked up a clip."] ∧
      s1.w_message ≠ (sampleProtected 1).w_message ∧
      s1.message_nottobefuckedwith = false ∧
      s1.message_counter = 140 := by
  refine ⟨rfl, rfl, rfl, rfl, rfl, rfl, rfl, _, rfl, ?_, ?_, ?_, ?_⟩ <;> decide

/-- The countdown block of `HU_Ticker`, with no cheat readout active and a non-zero
`message_counter`: the counter is decremented by exactly one if and only if the
countdown is let run, and is left unchanged otherwise; when the decrement reaches
zero, and only then, `message_on` and `message_nottobefuckedwith` are cleared. -/
theorem HU_Ticker_countdown_step (env : HUEnv) (s : HUState)
    (hb : env.idbehold = false) (hm : env.idmypos = false)
    (hc : s.message_counter ≠ 0) :
    ((HU_Ticker_countdown env s).message_counter = s.message_counter - 1
      ↔ countdownRuns env s = true) ∧
    (countdownRuns env s = false →
      (HU_Ticker_countdown env s).message_counter = s.message_counter) ∧
    ((HU_Ticker_countdown env s).message_counter = 0 →
      (HU_Ticker_countdown env s).message_on = false ∧
      (HU_Ticker_countdown env s).message_nottobefuckedwith = false) ∧
    ((HU_Ticker_countdown env s).message_counter ≠ 0 →
      (HU_Ticker_countdown env s).message_on = s.message_on ∧
      (HU_Ticker_countdown env s).message_nottobefuckedwith
        = s.message_nottobefuckedwith) := by
  by_cases hrun : countdownRuns env s = true
  · by_cases hlast : s.message_counter = 1
    · obtain ⟨e1, e2, e3, -, -, -⟩ := HU_Ticker_countdown_expires env s hb hm hrun hlast
      refine ⟨⟨fun _ => hrun, fun _ => by rw [e1, hlast]; rfl⟩, ?_, ?_, ?_⟩
      · intro h; rw [hrun] at h; exact absurd h (by simp)
      · intro _; exact ⟨e2, e3⟩
      · intro h; exact absurd e1 h
    · rw [HU_Ticker_countdown_running env s hb hm hc hrun hlast]
      refine ⟨⟨fun _ => hrun, fun _ => rfl⟩, ?_, ?_, ?_⟩
      · intro h; rw [hrun] at h; exact absurd h (by simp)
      · intro h
        simp only at h
        omega
      · intro _; exact ⟨rfl, rfl⟩
  · have hrun2 : countdownRuns env s = false := by simpa using hrun
    rw [HU_Ticker_countdown_held env s (Or.inr (Or.inl hrun2))]
    refine ⟨⟨fun h => by omega, fun h => ?_⟩, ?_, ?_, ?_⟩
    · rw [hrun2] at h; exact absurd h (by simp)
    · intro _; rfl
    · intro h; exact absurd h hc
    · intro _; exact ⟨rfl, rfl⟩

/-- The display block of `HU_Ticker` when it shows nothing: no message is pending,
or the pending message is ordinary and either messages are off or a protected
line is up. It returns and leaves the counter and the two flags alone. -/
theorem HU_Ticker_display_quiet (env : HUEnv) (c : HUState)
    (hq : c.message = none ∨ (c.message_dontfuckwithme = false
      ∧ (env.messages = false ∨ c.message_nottobefuckedwith = true))) :
    ∃ s1, HU_Ticker_display env c = some s1 ∧
      s1.message_counter = c.message_counter ∧
      s1.message_on = c.message_on ∧
      s1.message_nottobefuckedwith = c.message_nottobefuckedwith ∧
      s1.w_message = c.w_message := by
  unfold HU_Ticker_display
  cases hmsg : c.message with
  | none => exact ⟨c, rfl, rfl, rfl, rfl, rfl⟩
  | some m =>
    rw [hmsg] at hq
    rcases hq with h | ⟨hd, h⟩
    · exact absurd h (by simp)
    · rcases h with h | h
      · by_cases hp : c.message_nottobefuckedwith = true
        · refine ⟨c, ?_, rfl, rfl, rfl, rfl⟩
          simp [hd, hp]
        · refine ⟨{ c with message := none }, ?_, rfl, rfl, rfl, rfl⟩
          simp [hd, hp, h]
      · refine ⟨c, ?_, rfl, rfl, rfl, rfl⟩
        simp [hd, h]

/-- C9, as the code behaves: with no cheat readout active and a non-zero
`message_counter`, an `HU_Ticker` call that shows no pending message (none is
pending, or the pending one is ordinary and messages are off or a protected line
stays up) returns having decremented the counter by exactly one if and only if
none of `menuactive`, `paused`, `consoleactive` is set, or `inhelpscreens` or
`message_dontpause` is set, and having left it unchanged otherwise; on the call
where the decrement reaches zero, and only then, `message_on` and
`message_nottobefuckedwith` are cleared. An `HU_Ticker` call that shows a pending
message ends, whatever the countdown did, with the counter at `HU_MSGTIMEOUT`,
`message_on` set and `message_nottobefuckedwith` equal to the
`message_dontfuckwithme` of the message. -/
theorem C9_countdown_step (env : HUEnv) (s : HUState)
    (hb : env.idbehold = false) (hm : env.idmypos = false)
    (hc : s.message_counter ≠ 0) :
    (countdownRuns env s
      = ((!env.menuactive && !env.paused && !env.consoleactive)
          || env.inhelpscreens || s.message_dontpause)) ∧
    ((s.message = none ∨ (s.message_dontfuckwithme = false
        ∧ (env.messages = false ∨ (s.message_nottobefuckedwith = true
            ∧ (s.message_counter ≠ 1 ∨ countdownRuns env s = false))))) →
      ∃ s1, HU_Ticker env s = some s1 ∧
        (s1.message_counter = s.message_counter - 1 ↔ countdownRuns env s = true) ∧
        (countdownRuns env s = false → s1.message_counter = s.message_counter) ∧
        (s1.message_counter = 0 →
          s1.message_on = false ∧ s1.message_nottobefuckedwith = false) ∧
        (s1.message_counter ≠ 0 →
          s1.message_on = s.message_on ∧
          s1.message_nottobefuckedwith = s.message_nottobefuckedwith) ∧
        s1.w_message = s.w_message) ∧
    (∀ m shown, s.message = some m →
      (s.message_dontfuckwithme = true ∨ (env.messages = true
        ∧ (s.message_nottobefuckedwith = false
            ∨ (s.message_counter = 1 ∧ countdownRuns env s = true)))) →
      shownText env m = some shown →
      ∃ s1, HU_Ticker env s = some s1 ∧
        s1.message_counter = env.HU_MSGTIMEOUT ∧
        s1.message_on = true ∧
        s1.message_nottobefuckedwith = s.message_dontfuckwithme ∧
        s1.w_message = s.w_message ++ [shown]) := by
  obtain ⟨f1, f2, f3, -, -⟩ := HU_Ticker_countdown_frame env s
  obtain ⟨k1, k2, k3, k4⟩ := HU_Ticker_countdown_step env s hb hm hc
  refine ⟨rfl, ?_, ?_⟩
  · intro hq
    have hq2 : (HU_Ticker_countdown env s).message = none
        ∨ ((HU_Ticker_countdown env s).message_dontfuckwithme = false
          ∧ (env.messages = false
            ∨ (HU_Ticker_countdown env s).message_nottobefuckedwith = true)) := by
      rcases hq with h | ⟨hd, h⟩
      · left; rw [f1, h]
      · right
        refine ⟨by rw [f2, hd], ?_⟩
        rcases h with h | ⟨hp, hnot⟩
        · left; exact h
        · right
          have hne : (HU_Ticker_countdown env s).message_counter ≠ 0 := by
            rcases hnot with h1 | h1
            · by_cases hrun : countdownRuns env s = true
              · rw [k1.mpr hrun]; omega
              · have hrun2 : countdownRuns env s = false := by simpa using hrun
                rw [k2 hrun2]; exact hc
            · rw [k2 h1]; exact hc
          rw [(k4 hne).2, hp]
    obtain ⟨s1, h1, h2, h3, h4, h5⟩ := HU_Ticker_display_quiet env _ hq2
    refine ⟨s1, ?_, ?_, ?_, ?_, ?_, ?_⟩
    · unfold HU_Ticker
      rw [HU_Ticker_cheats_off env _ hb hm]
      exact h1
    · rw [h2]; exact k1
    · rw [h2]; exact k2
    · rw [h2, h3, h4]; exact k3
    · rw [h2, h3, h4]; exact k4
    · rw [h5, f3]
  · intro m shown hpend hopen hloop
    have hgate : (HU_Ticker_countdown env s).message_nottobefuckedwith = false
        ∨ (HU_Ticker_countdown env s).message_dontfuckwithme = true := by
      rcases hopen with h | ⟨_, h | ⟨h1, h2⟩⟩
      · right; rw [f2, h]
      · left; exact HU_Ticker_countdown_unprotected env s h
      · left; exact (HU_Ticker_countdown_expires env s hb hm h2 h1).2.2.1
    have hmsgs : env.messages = true
        ∨ (HU_Ticker_countdown env s).message_dontfuckwithme = true := by
      rcases hopen with h | ⟨h, _⟩
      · right; rw [f2, h]
      · left; exact h
    unfold HU_Ticker
    rw [HU_Ticker_cheats_off env _ hb hm,
      HU_Ticker_display_shows env _ m shown (by rw [f1, hpend]) hgate hmsgs hb hm hloop]
    exact ⟨_, rfl, rfl, rfl, by simp only [f2], by simp only [f3]⟩

theorem C9_countdown_step_witness :
    (∃ s1, HU_Ticker sampleEnv sampleShown = some s1 ∧
      (s1.message_counter = sampleShown.message_counter - 1
        ↔ countdownRuns sampleEnv sampleShown = true) ∧
      (countdownRuns sampleEnv sampleShown = false →
        s1.message_counter = sampleShown.message_counter) ∧
      (s1.message_counter = 0 →
        s1.message_on = false ∧ s1.message_nottobefuckedwith = false) ∧
      (s1.message_counter ≠ 0 →
        s1.message_on = sampleShown.message_on ∧
        s1.message_nottobefuckedwith = sampleShown.message_nottobefuckedwith) ∧
      s1.w_message = sampleShown.w_message) ∧
    (∃ s1, HU_Ticker sampleEnv { sampleShown with message := some "Picked up a shotgun." }
        = some s1 ∧
      s1.message_counter = sampleEnv.HU_MSGTIMEOUT ∧
      s1.message_on = true ∧
      s1.message_nottobefuckedwith = false ∧
      s1.w_message = sampleShown.w_message ++ ["Picked up a shotgun."]) :=
  ⟨(C9_countdown_step sampleEnv sampleShown rfl rfl (by decide)).2.1 (Or.inl rfl),
   (C9_countdown_step sampleEnv { sampleShown with message := some "Picked up a shotgun." }
      rfl rfl (by decide)).2.2 "Picked up a shotgun." "Picked up a shotgun." rfl
      (Or.inr ⟨rfl, Or.inl rfl⟩) (by decide)⟩

/-- C9, the claim as stated fails: no cheat readout is on, the counter is at 50
and an ordinary message is pending behind an unprotected line. With the game
running the `HU_Ticker` call leaves the counter at 140, not at 49; with the game
paused it leaves the counter at 140 too, not unchanged at 50; and with one tic
left the call on which the decrement reaches zero ends with `message_on` set. -/
theorem C9_counterexample :
    sampleEnv.idbehold = false ∧ sampleEnv.idmypos = false ∧
    sampleShown.message_counter = 50 ∧
    countdownRuns sampleEnv sampleShown = true ∧
    (∃ s1, HU_Ticker sampleEnv { sampleShown with message := some "Picked up a shotgun." }
        = some s1 ∧ s1.message_counter = 140 ∧ s1.message_counter ≠ 50 - 1) ∧
    countdownRuns { sampleEnv with paused := true } sampleShown = false ∧
    (∃ s1, HU_Ticker { sampleEnv with paused := true }
        { sampleShown with message := some "Picked up a shotgun." } = some s1 ∧
      s1.message_counter = 140 ∧ s1.message_counter ≠ 50) ∧
    (HU_Ticker_countdown sampleEnv
      { sampleShown with message_counter := 1, message := some "Picked up a shotgun." }
      ).message_counter = 0 ∧
    (∃ s1, HU_Ticker sampleEnv
        { sampleShown with message_counter := 1, message := some "Picked up a shotgun." }
        = some s1 ∧ s1.message_on = true) := by
  refine ⟨rfl, rfl, rfl, by decide, ⟨_, rfl, by decide, by decide⟩, by decide,
    ⟨_, rfl, by decide, by decide⟩, by decide, ⟨_, rfl, by decide⟩⟩

/-- C10: while `idbehold` or the IDMYPOS cheat (`CF_MYPOS`) is on, every `HU_Ticker`
call returns with `message_on` true and `message_counter` non-zero, for every
starting counter value `>= 0` and whatever the menu, pause and console state
(`HU_MSGTIMEOUT` being a non-zero constant); and in such a tick the cheat text is
the only text added to the message widget: no pending player message is added. -/
theorem C10_cheat_readout_persists (env : HUEnv) (s : HUState)
    (hcheat : env.idbehold = true ∨ env.idmypos = true)
    (_hc : 0 ≤ s.message_counter) (htimeout : env.HU_MSGTIMEOUT ≠ 0) :
    ∃ s1, HU_Ticker env s = some s1 ∧
      s1.message_on = true ∧
      s1.message_counter ≠ 0 ∧
      s1.w_message
        = s.w_message ++ [if env.idbehold then env.s_STSTR_BEHOLD else env.mypos] := by
  unfold HU_Ticker
  rw [HU_Ticker_countdown_held env s (Or.inr (Or.inr hcheat))]
  have hcnt : cheatCounter env s.message_counter ≠ 0 := by
    unfold cheatCounter
    split_ifs <;> omega
  have hres := HU_Ticker_display_cheat env (HU_Ticker_cheats env s) hcheat
  obtain ⟨s1, h1, h2, h3, h4⟩ := hres
  refine ⟨s1, h1, ?_, ?_, ?_⟩
  · rw [h2]
    unfold HU_Ticker_cheats
    rcases hcheat with h | h
    · simp [h]
    · by_cases hb : env.idbehold = true <;> simp [h, hb]
  · rw [h3]
    unfold HU_Ticker_cheats
    rcases hcheat with h | h
    · simpa [h] using hcnt
    · by_cases hb : env.idbehold = true
      · simpa [h, hb] using hcnt
      · simpa [h, hb] using hcnt
  · rw [h4]
    unfold HU_Ticker_cheats
    rcases hcheat with h | h
    · simp [h]
    · by_cases hb : env.idbehold = true <;> simp [h, hb]

theorem C10_cheat_readout_persists_witness :
    ∃ s1, HU_Ticker { sampleEnv with idmypos := true, paused := true } (sampleProtected 0)
        = some s1 ∧
      s1.message_on = true ∧
      s1.message_counter ≠ 0 ∧
      s1.w_message
        = (sampleProtected 0).w_message ++
          [if ({ sampleEnv with idmypos := true, paused := true } : HUEnv).idbehold then
            ({ sampleEnv with idmypos := true, paused := true } : HUEnv).s_STSTR_BEHOLD
          else ({ sampleEnv with idmypos := true, paused := true } : HUEnv).mypos] :=
  C10_cheat_readout_persists { sampleEnv with idmypos := true, paused := true }
    (sampleProtected 0) (Or.inr rfl) (by decide) (by decide)

/-! ## Lemmas on the title sequence -/

theorem advanceTitleTimes_succ (env : DoomEnv) (n : Nat) (s : DoomState) :
    advanceTitleTimes env (n + 1) s = (D_DoAdvanceTitle env (advanceTitleTimes env n s)).1 := by
  induction n generalizing s with
  | zero => rfl
  | succ n ih =>
    show advanceTitleTimes env (n + 1) (D_DoAdvanceTitle env s).1 = _
    rw [ih]
    rfl

theorem advanceTitleTimes_add (env : DoomEnv) (n k : Nat) (s : DoomState) :
    advanceTitleTimes env (n + k) s = advanceTitleTimes env k (advanceTitleTimes env n s) := by
  induction n generalizing s with
  | zero => simp [advanceTitleTimes]
  | succ n ih =>
    have h : n + 1 + k = (n + k) + 1 := by omega
    rw [h]
    show advanceTitleTimes env (n + k) (D_DoAdvanceTitle env s).1 = _
    rw [ih]
    rfl

/-- One call of `D_DoAdvanceTitle` on page 0: the splash page, next index 1. -/
theorem D_DoAdvanceTitle_page0 (env : DoomEnv) (s : DoomState) (h : s.titlesequence = 0) :
    (D_DoAdvanceTitle env s).1.titlesequence = 1 ∧
    (D_DoAdvanceTitle env s).1.splashscreen = true := by
  simp [D_DoAdvanceTitle, h]

/-- One call of `D_DoAdvanceTitle` on page 1: the title page, next index 2. -/
theorem D_DoAdvanceTitle_page1 (env : DoomEnv) (s : DoomState) (h : s.titlesequence = 1) :
    (D_DoAdvanceTitle env s).1.titlesequence = 2 ∧
    (D_DoAdvanceTitle env s).1.splashscreen = false ∧
    (D_DoAdvanceTitle env s).1.pagename
      = some (if env.TITLEPIC then "TITLEPIC"
          else (if env.DMENUPIC then "DMENUPIC" else "INTERPIC")) := by
  by_cases hf : s.flag = true <;> simp [D_DoAdvanceTitle, h, hf]

/-- One call of `D_DoAdvanceTitle` on page 2: the credits page, next index 1, the
splash flag untouched. -/
theorem D_DoAdvanceTitle_page2 (env : DoomEnv) (s : DoomState) (h : s.titlesequence = 2) :
    (D_DoAdvanceTitle env s).1.titlesequence = 1 ∧
    (D_DoAdvanceTitle env s).1.splashscreen = s.splashscreen ∧
    (D_DoAdvanceTitle env s).1.forcewipe = true := by
  simp [D_DoAdvanceTitle, h]

/-- From index 1 or 2 the index stays in 1, 2 and flips at each call. -/
theorem advanceTitleTimes_cycle (env : DoomEnv) (n : Nat) (s : DoomState)
    (h : s.titlesequence = 1 ∨ s.titlesequence = 2) :
    ((advanceTitleTimes env n s).titlesequence = 1 ∨
      (advanceTitleTimes env n s).titlesequence = 2) ∧
    (advanceTitleTimes env (n + 1) s).titlesequence
      = 3 - (advanceTitleTimes env n s).titlesequence := by
  induction n with
  | zero =>
    refine ⟨h, ?_⟩
    show (D_DoAdvanceTitle env s).1.titlesequence = 3 - s.titlesequence
    rcases h with h | h
    · rw [(D_DoAdvanceTitle_page1 env s h).1, h]; rfl
    · rw [(D_DoAdvanceTitle_page2 env s h).1, h]; rfl
  | succ n ih =>
    obtain ⟨ih1, ih2⟩ := ih
    have hn : (advanceTitleTimes env (n + 1) s).titlesequence = 1 ∨
        (advanceTitleTimes env (n + 1) s).titlesequence = 2 := by
      rcases ih1 with h1 | h1 <;> rw [ih2, h1] <;> simp
    refine ⟨hn, ?_⟩
    rw [advanceTitleTimes_succ env (n + 1) s]
    rcases hn with h1 | h1
    · rw [(D_DoAdvanceTitle_page1 env _ h1).1, h1]; rfl
    · rw [(D_DoAdvanceTitle_page2 env _ h1).1, h1]; rfl

/-- Once page 1 has been processed the splash flag stays clear. -/
theorem advanceTitleTimes_splash (env : DoomEnv) (k : Nat) (s : DoomState)
    (h : s.titlesequence = 1) :
    (advanceTitleTimes env (k + 1) s).splashscreen = false := by
  induction k with
  | zero => exact (D_DoAdvanceTitle_page1 env s h).2.1
  | succ k ih =>
    rw [advanceTitleTimes_succ env (k + 1) s]
    rcases (advanceTitleTimes_cycle env (k + 1) s (Or.inl h)).1 with h1 | h1
    · exact (D_DoAdvanceTitle_page1 env _ h1).2.1
    · rw [(D_DoAdvanceTitle_page2 env _ h1).2.1]; exact ih

/-! ## Claims on the title sequence -/

/-- C14: `D_AdvanceTitle` is idempotent: for every program state, calling it twice
leaves exactly the same state as calling it once, and a call changes nothing
except setting the `advancetitle` flag to true; so a `D_DoAdvanceTitle` that runs
after two calls sees what it sees after one. -/
theorem C14_advance_title_idempotent (env : DoomEnv) (s : DoomState) :
    D_AdvanceTitle (D_AdvanceTitle s) = D_AdvanceTitle s ∧
    D_AdvanceTitle s = { s with advancetitle := true } ∧
    D_DoAdvanceTitle env (D_AdvanceTitle (D_AdvanceTitle s))
      = D_DoAdvanceTitle env (D_AdvanceTitle s) :=
  ⟨rfl, rfl, rfl⟩

/-- C15: starting from any page index in 0, 1, 2 (as set by `D_StartTitle`), after
every call of `D_DoAdvanceTitle` the page index `titlesequence` is 1 or 2; from
then on successive calls process the pages alternately (the index before call
`n + 2` is 3 minus the index before call `n + 1`), page 0, the splash, is never
processed again (the index is never 0 again), and `splashscreen` is false after
page 1 has been processed. -/
theorem C15_title_pages_alternate (env : DoomEnv) (s : DoomState) (page : Int)
    (hpage : page = 0 ∨ page = 1 ∨ page = 2) :
    (D_StartTitle s page).titlesequence = page ∧
    (∀ n, 1 ≤ n →
      (advanceTitleTimes env n (D_StartTitle s page)).titlesequence = 1 ∨
      (advanceTitleTimes env n (D_StartTitle s page)).titlesequence = 2) ∧
    (∀ n, 1 ≤ n →
      (advanceTitleTimes env (n + 1) (D_StartTitle s page)).titlesequence
        = 3 - (advanceTitleTimes env n (D_StartTitle s page)).titlesequence) ∧
    (∀ n, 1 ≤ n → (advanceTitleTimes env n (D_StartTitle s page)).titlesequence ≠ 0) ∧
    (∀ n, (advanceTitleTimes env n (D_StartTitle s page)).titlesequence = 1 →
      ∀ k, 1 ≤ k →
        (advanceTitleTimes env (n + k) (D_StartTitle s page)).splashscreen = false) := by
  have hts : (D_StartTitle s page).titlesequence = page := rfl
  -- after the first call the index is 1 or 2
  have hfirst : (advanceTitleTimes env 1 (D_StartTitle s page)).titlesequence = 1 ∨
      (advanceTitleTimes env 1 (D_StartTitle s page)).titlesequence = 2 := by
    show (D_DoAdvanceTitle env (D_StartTitle s page)).1.titlesequence = 1 ∨
      (D_DoAdvanceTitle env (D_StartTitle s page)).1.titlesequence = 2
    rcases hpage with h | h | h
    · exact Or.inl (D_DoAdvanceTitle_page0 env _ (by rw [hts, h])).1
    · exact Or.inr (D_DoAdvanceTitle_page1 env _ (by rw [hts, h])).1
    · exact Or.inl (D_DoAdvanceTitle_page2 env _ (by rw [hts, h])).1
  have hcyc : ∀ m, ((advanceTitleTimes env (1 + m) (D_StartTitle s page)).titlesequence = 1 ∨
        (advanceTitleTimes env (1 + m) (D_StartTitle s page)).titlesequence = 2) ∧
      (advanceTitleTimes env (1 + (m + 1)) (D_StartTitle s page)).titlesequence
        = 3 - (advanceTitleTimes env (1 + m) (D_StartTitle s page)).titlesequence := by
    intro m
    rw [advanceTitleTimes_add env 1 m, advanceTitleTimes_add env 1 (m + 1)]
    exact advanceTitleTimes_cycle env m _ hfirst
  refine ⟨hts, ?_, ?_, ?_, ?_⟩
  · intro n hn
    obtain ⟨m, rfl⟩ : ∃ m, n = 1 + m := ⟨n - 1, by omega⟩
    exact (hcyc m).1
  · intro n hn
    obtain ⟨m, rfl⟩ : ∃ m, n = 1 + m := ⟨n - 1, by omega⟩
    have h := (hcyc m).2
    have e : 1 + m + 1 = 1 + (m + 1) := by omega
    rw [e]; exact h
  · intro n hn
    obtain ⟨m, rfl⟩ : ∃ m, n = 1 + m := ⟨n - 1, by omega⟩
    rcases (hcyc m).1 with h | h <;> rw [h] <;> decide
  · intro n h1 k hk
    obtain ⟨j, rfl⟩ : ∃ j, k = j + 1 := ⟨k - 1, by omega⟩
    rw [advanceTitleTimes_add env n (j + 1)]
    exact advanceTitleTimes_splash env j _ h1

theorem C15_title_pages_alternate_witness :
    (D_StartTitle sampleStart 0).titlesequence = 0 ∧
    (∀ n, 1 ≤ n →
      (advanceTitleTimes sampleDoomEnv n (D_StartTitle sampleStart 0)).titlesequence = 1 ∨
      (advanceTitleTimes sampleDoomEnv n (D_StartTitle sampleStart 0)).titlesequence = 2) ∧
    (∀ n, 1 ≤ n →
      (advanceTitleTimes sampleDoomEnv (n + 1) (D_StartTitle sampleStart 0)).titlesequence
        = 3 - (advanceTitleTimes sampleDoomEnv n (D_StartTitle sampleStart 0)).titlesequence) ∧
    (∀ n, 1 ≤ n →
      (advanceTitleTimes sampleDoomEnv n (D_StartTitle sampleStart 0)).titlesequence ≠ 0) ∧
    (∀ n, (advanceTitleTimes sampleDoomEnv n (D_StartTitle sampleStart 0)).titlesequence = 1 →
      ∀ k, 1 ≤ k →
        (advanceTitleTimes sampleDoomEnv (n + k) (D_StartTitle sampleStart 0)).splashscreen
          = false) :=
  C15_title_pages_alternate sampleDoomEnv sampleStart 0 (Or.inl rfl)

/-- C16: when `D_DoAdvanceTitle` processes page index 1, `splashscreen` is cleared
and the page image name becomes "TITLEPIC" if the TITLEPIC lump is present
("DMENUPIC" exactly when TITLEPIC is absent and DMENUPIC present, "INTERPIC"
exactly when both are absent); the following `D_PageDrawer` then makes the one
call `V_DrawPatch(0, 0, 0, ...)` of that page image and none of the calls of the
splash path. -/
theorem C16_title_page_image (env : DoomEnv) (s : DoomState) (h1 : s.titlesequence = 1) :
    (D_DoAdvanceTitle env s).1.splashscreen = false ∧
    (env.TITLEPIC = true →
      (D_DoAdvanceTitle env s).1.pagename = some "TITLEPIC" ∧
      D_PageDrawer env (D_DoAdvanceTitle env s).1
        = [Call.V_DrawPatch 0 0 0 (some "TITLEPIC")]) ∧
    ((D_DoAdvanceTitle env s).1.pagename = some "DMENUPIC"
      ↔ env.TITLEPIC = false ∧ env.DMENUPIC = true) ∧
    ((D_DoAdvanceTitle env s).1.pagename = some "INTERPIC"
      ↔ env.TITLEPIC = false ∧ env.DMENUPIC = false) ∧
    (∃ name, (D_DoAdvanceTitle env s).1.pagename = some name ∧
      D_PageDrawer env (D_DoAdvanceTitle env s).1 = [Call.V_DrawPatch 0 0 0 (some name)]) := by
  obtain ⟨-, hsplash, hname⟩ := D_DoAdvanceTitle_page1 env s h1
  have hdraw : ∀ name, (D_DoAdvanceTitle env s).1.pagename = some name →
      D_PageDrawer env (D_DoAdvanceTitle env s).1 = [Call.V_DrawPatch 0 0 0 (some name)] := by
    intro name hn
    unfold D_PageDrawer
    rw [hsplash, hn]
    rfl
  refine ⟨hsplash, ?_, ?_, ?_, ?_⟩
  · intro hT
    have hn : (D_DoAdvanceTitle env s).1.pagename = some "TITLEPIC" := by
      rw [hname, hT]; rfl
    exact ⟨hn, hdraw _ hn⟩
  · rw [hname]
    cases env.TITLEPIC <;> cases env.DMENUPIC <;> decide
  · rw [hname]
    cases env.TITLEPIC <;> cases env.DMENUPIC <;> decide
  · exact ⟨_, hname, hdraw _ hname⟩

theorem C16_title_page_image_witness :
    (D_DoAdvanceTitle sampleDoomEnv (D_StartTitle sampleStart 1)).1.splashscreen = false ∧
    (sampleDoomEnv.TITLEPIC = true →
      (D_DoAdvanceTitle sampleDoomEnv (D_StartTitle sampleStart 1)).1.pagename
        = some "TITLEPIC" ∧
      D_PageDrawer sampleDoomEnv (D_DoAdvanceTitle sampleDoomEnv (D_StartTitle sampleStart 1)).1
        = [Call.V_DrawPatch 0 0 0 (some "TITLEPIC")]) ∧
    ((D_DoAdvanceTitle sampleDoomEnv (D_StartTitle sampleStart 1)).1.pagename = some "DMENUPIC"
      ↔ sampleDoomEnv.TITLEPIC = false ∧ sampleDoomEnv.DMENUPIC = true) ∧
    ((D_DoAdvanceTitle sampleDoomEnv (D_StartTitle sampleStart 1)).1.pagename = some "INTERPIC"
      ↔ sampleDoomEnv.TITLEPIC = false ∧ sampleDoomEnv.DMENUPIC = false) ∧
    (∃ name, (D_DoAdvanceTitle sampleDoomEnv (D_StartTitle sampleStart 1)).1.pagename
        = some name ∧
      D_PageDrawer sampleDoomEnv (D_DoAdvanceTitle sampleDoomEnv (D_StartTitle sampleStart 1)).1
        = [Call.V_DrawPatch 0 0 0 (some name)]) :=
  C16_title_page_image sampleDoomEnv (D_StartTitle sampleStart 1) rfl

/-! ## Lemmas on `D_Display` -/

theorem D_Display_setsize_frame (env : DoomEnv) (s : DoomState) :
    (D_Display_setsize env s).1.gamestate = s.gamestate ∧
    (D_Display_setsize env s).1.wipegamestate = s.wipegamestate ∧
    (D_Display_setsize env s).1.forcewipe = s.forcewipe ∧
    Call.wipe_StartScreen ∉ (D_Display_setsize env s).2 := by
  unfold D_Display_setsize
  split <;> simp

/-- The arming block: `wipe` is set exactly when the game state differs from
`wipegamestate` or a wipe is forced, `wipe_StartScreen` is called exactly then, and
`forcewipe` is clear afterwards. -/
theorem D_Display_arm_spec (s : DoomState) :
    (D_Display_arm s).1.wipe = (decide (s.gamestate ≠ s.wipegamestate) || s.forcewipe) ∧
    (D_Display_arm s).1.forcewipe = false ∧
    (D_Display_arm s).1.gamestate = s.gamestate ∧
    (D_Display_arm s).2
      = (if (decide (s.gamestate ≠ s.wipegamestate) || s.forcewipe) = true then
          [Call.wipe_StartScreen] else []) := by
  unfold D_Display_arm
  by_cases hg : s.gamestate = s.wipegamestate <;> cases hf : s.forcewipe <;> simp [hg, hf]

theorem D_Display_draw_frame (env : DoomEnv) (s : DoomState) :
    (D_Display_draw env s).1.gamestate = s.gamestate ∧
    (D_Display_draw env s).1.wipe = s.wipe ∧
    (D_Display_draw env s).1.forcewipe = s.forcewipe := by
  unfold D_Display_draw
  split
  · exact ⟨rfl, rfl, rfl⟩
  · split
    · by_cases h1 : s.oldgamestate ≠ gamestate_t.GS_LEVEL <;>
      by_cases h2 : (!env.automapactive) = true <;>
      by_cases h3 : env.scaledviewwidth ≠ env.SCREENWIDTH <;>
      simp only [h1, h2, h3, if_true, if_false, ne_eq, not_true_eq_false, not_false_eq_true,
        Bool.false_eq_true] <;>
      (try split_ifs) <;> simp
    · exact ⟨rfl, rfl, rfl⟩

theorem D_PageDrawer_calls (env : DoomEnv) (s : DoomState) :
    Call.wipe_StartScreen ∉ D_PageDrawer env s := by
  unfold D_PageDrawer
  split <;> simp

theorem D_Display_draw_calls (env : DoomEnv) (s : DoomState) :
    Call.wipe_StartScreen ∉ (D_Display_draw env s).2 := by
  unfold D_Display_draw
  split
  · have hp := D_PageDrawer_calls env s
    cases hg : s.gamestate <;> simp only [List.mem_append, not_or] <;>
      refine ⟨by split <;> simp, ?_⟩ <;> first | simp | exact hp
  · split
    · by_cases h1 : s.oldgamestate ≠ gamestate_t.GS_LEVEL <;>
      by_cases h2 : (!env.automapactive) = true <;>
      by_cases h3 : env.scaledviewwidth ≠ env.SCREENWIDTH <;>
      simp only [h1, h2, h3, if_true, if_false, ne_eq, not_true_eq_false, not_false_eq_true,
        Bool.false_eq_true] <;>
      (try split_ifs) <;> simp
    · simp

theorem D_Display_overlay_frame (env : DoomEnv) (s : DoomState) :
    (D_Display_overlay env s).1.gamestate = s.gamestate ∧
    (D_Display_overlay env s).1.wipegamestate = s.wipegamestate ∧
    (D_Display_overlay env s).1.wipe = s.wipe ∧
    (D_Display_overlay env s).1.forcewipe = s.forcewipe ∧
    Call.wipe_StartScreen ∉ (D_Display_overlay env s).2 := by
  unfold D_Display_overlay
  refine ⟨rfl, rfl, rfl, rfl, ?_⟩
  simp only [List.mem_append, not_or]
  refine ⟨?_, by simp⟩
  split_ifs <;> simp

/-- The part of `D_Display` before the update: `wipe` and the call of
`wipe_StartScreen` follow the arming test on the entry state, and on exit
`wipegamestate` equals `gamestate` and `forcewipe` is clear. -/
theorem D_Display_frame_spec (env : DoomEnv) (s : DoomState) :
    (D_Display_frame env s).1.wipe = (decide (s.gamestate ≠ s.wipegamestate) || s.forcewipe) ∧
    (D_Display_frame env s).1.forcewipe = false ∧
    (D_Display_frame env s).1.gamestate = s.gamestate ∧
    (D_Display_frame env s).1.wipegamestate = s.gamestate ∧
    (Call.wipe_StartScreen ∈ (D_Display_frame env s).2
      ↔ (decide (s.gamestate ≠ s.wipegamestate) || s.forcewipe) = true) := by
  obtain ⟨a1, a2, a3, a4⟩ := D_Display_setsize_frame env s
  obtain ⟨b1, b2, b3, b4⟩ := D_Display_arm_spec (D_Display_setsize env s).1
  obtain ⟨c1, c2, c3⟩ := D_Display_draw_frame env (D_Display_arm (D_Display_setsize env s).1).1
  have c4 := D_Display_draw_calls env (D_Display_arm (D_Display_setsize env s).1).1
  obtain ⟨d1, d2, d3, d4, d5⟩ := D_Display_overlay_frame env
    (D_Display_sync env (D_Display_draw env (D_Display_arm (D_Display_setsize env s).1).1).1)
  rw [a1, a2, a3] at b1
  rw [a1, a2, a3] at b4
  rw [a1] at b3
  unfold D_Display_frame
  simp only
  refine ⟨?_, ?_, ?_, ?_, ?_⟩
  · rw [d3]; show (D_Display_draw env _).1.wipe = _; rw [c2, b1]
  · rw [d4]; show (D_Display_draw env _).1.forcewipe = _; rw [c3, b2]
  · rw [d1]; show (D_Display_draw env _).1.gamestate = _; rw [c1, b3]
  · rw [d2]; show (D_Display_draw env _).1.gamestate = _; rw [c1, b3]
  · simp only [List.mem_append, a4, c4, d5, or_false, false_or]
    rw [b4]
    split_ifs with h
    · simpa using h
    · simpa using h

/-- The inner loop, when it returns, has read a clock value above `wipestart`. -/
theorem D_Display_poll_spec (I_GetTime : Nat → Int) (wipestart : Int) (fuel : Nat) :
    ∀ (k : Nat) (reads : List Int) (now : Int) (k1 : Nat) (reads1 : List Int),
      D_Display_poll I_GetTime wipestart fuel k reads = some (now, k1, reads1) →
      wipestart < now ∧ k < k1 ∧ now = I_GetTime (k1 - 1) := by
  induction fuel with
  | zero =>
    intro k reads now k1 reads1 h
    simp [D_Display_poll] at h
  | succ fuel ih =>
    intro k reads now k1 reads1 h
    unfold D_Display_poll at h
    simp only at h
    split at h
    · obtain ⟨h1, h2, h3⟩ := ih _ _ _ _ _ h
      exact ⟨h1, by omega, h3⟩
    · rename_i hpos
      simp only [Option.some.injEq, Prod.mk.injEq] at h
      obtain ⟨rfl, rfl, -⟩ := h
      refine ⟨by omega, by omega, ?_⟩
      simp

/-- The inner loop returns as soon as a clock value above `wipestart` is within
reach of the fuel. -/
theorem D_Display_poll_returns (I_GetTime : Nat → Int) (wipestart : Int) (j : Nat) :
    ∀ (fuel k : Nat) (reads : List Int), j < fuel → wipestart < I_GetTime (k + j) →
      ∃ now k1 reads1,
        D_Display_poll I_GetTime wipestart fuel k reads = some (now, k1, reads1) := by
  induction j with
  | zero =>
    intro fuel k reads hf hj
    obtain ⟨f, rfl⟩ : ∃ f, fuel = f + 1 := ⟨fuel - 1, by omega⟩
    unfold D_Display_poll
    simp only [Nat.add_zero] at hj
    have hpos : ¬ (I_GetTime k - wipestart ≤ 0) := by omega
    simp only [if_neg hpos]
    exact ⟨_, _, _, rfl⟩
  | succ j ih =>
    intro fuel k reads hf hj
    obtain ⟨f, rfl⟩ : ∃ f, fuel = f + 1 := ⟨fuel - 1, by omega⟩
    unfold D_Display_poll
    simp only
    by_cases hpos : I_GetTime k - wipestart ≤ 0
    · simp only [if_pos hpos]
      have e : k + (j + 1) = k + 1 + j := by omega
      rw [e] at hj
      exact ih f (k + 1) _ (by omega) hj
    · simp only [if_neg hpos]
      exact ⟨_, _, _, rfl⟩

/-- The outer loop, when it returns: at least one pass was made, each pass handed
`wipe_ScreenWipe` the clock ticks elapsed since the pass before, at least 1, the
tick counts add up to the clock time covered, and only the last pass was `done`. -/
theorem D_Display_wipeLoop_tics {ω : Type} (I_GetTime : Nat → Int)
    (wipe_ScreenWipe : Int → ω → Bool × ω) (fuel : Nat) :
    ∀ (wipestart : Int) (k : Nat) (w w1 : ω) (frames : List WipeFrame),
      D_Display_wipeLoop I_GetTime wipe_ScreenWipe fuel wipestart k w = some (w1, frames) →
      frames ≠ [] ∧ ticsMatchClock wipestart frames ∧
      (frames.map WipeFrame.tics).sum = lastNowtime wipestart frames - wipestart ∧
      wipeCompleted frames := by
  induction fuel with
  | zero =>
    intro wipestart k w w1 frames h
    simp [D_Display_wipeLoop] at h
  | succ fuel ih =>
    intro wipestart k w w1 frames h
    unfold D_Display_wipeLoop at h
    cases hpoll : D_Display_poll I_GetTime wipestart (fuel + 1) k [] with
    | none => rw [hpoll] at h; simp at h
    | some res =>
      obtain ⟨now, k1, reads⟩ := res
      rw [hpoll] at h
      simp only at h
      obtain ⟨hnow, -, -⟩ := D_Display_poll_spec I_GetTime wipestart _ _ _ _ _ _ hpoll
      by_cases hdone : (wipe_ScreenWipe (now - wipestart) w).1 = true
      · simp only [hdone, if_true, Option.some.injEq, Prod.mk.injEq] at h
        obtain ⟨-, rfl⟩ := h
        refine ⟨by simp, ?_, ?_, ?_⟩
        · exact ⟨rfl, by show 1 ≤ now - wipestart; omega, trivial⟩
        · simp [lastNowtime]
        · simp [wipeCompleted, hdone]
      · simp only [hdone, Bool.false_eq_true, if_false] at h
        obtain ⟨res2, hres2, heq⟩ := Option.map_eq_some'.mp h
        obtain ⟨w2, frames2⟩ := res2
        simp only [Prod.mk.injEq] at heq
        obtain ⟨-, rfl⟩ := heq
        obtain ⟨i1, i2, i3, i4⟩ := ih now k1 _ w2 frames2 hres2
        refine ⟨by simp, ?_, ?_, ?_⟩
        · exact ⟨rfl, by show 1 ≤ now - wipestart; omega, i2⟩
        · simp only [List.map_cons, List.sum_cons, lastNowtime, i3]
          ring
        · have hd : (wipe_ScreenWipe (now - wipestart) w).1 = false := by
            simpa using hdone
          simp [wipeCompleted, i1, hd, i4]

/-- The outer loop returns when the clock gains a tick within every `p` reads and
the wipe effect is done once it has been advanced by what is left of its budget:
at most `n` passes are made when at most `n` tics are left (one pass when none
is left). -/
theorem D_Display_wipeLoop_returns {ω : Type} (I_GetTime : Nat → Int)
    (wipe_ScreenWipe : Int → ω → Bool × ω) (remaining : ω → Int) (p : Nat)
    (hclock : ∀ k, I_GetTime k < I_GetTime (k + p))
    (hfx : ∀ (tics : Int) (w : ω), 1 ≤ tics →
      ((wipe_ScreenWipe tics w).1 = true ↔ remaining w ≤ tics) ∧
      remaining (wipe_ScreenWipe tics w).2 = remaining w - tics) (n : Nat) :
    ∀ (fuel : Nat) (wipestart : Int) (k : Nat) (w : ω),
      remaining w ≤ n → 1 ≤ k → wipestart ≤ I_GetTime (k - 1) → n + p ≤ fuel → 1 ≤ fuel →
      ∃ w1 frames,
        D_Display_wipeLoop I_GetTime wipe_ScreenWipe fuel wipestart k w = some (w1, frames) ∧
        frames.length ≤ max n 1 := by
  induction n with
  | zero =>
    intro fuel wipestart k w hrem hk hstart hfuel hfuel1
    obtain ⟨f, rfl⟩ : ∃ f, fuel = f + 1 := ⟨fuel - 1, by omega⟩
    have hp : 1 ≤ p := by
      rcases Nat.eq_zero_or_pos p with h0 | h0
      · have := hclock 0; rw [h0] at this; simp at this
      · exact h0
    have hreach : wipestart < I_GetTime (k + (p - 1)) := by
      have h := hclock (k - 1)
      have e : k - 1 + p = k + (p - 1) := by omega
      rw [e] at h
      omega
    obtain ⟨now, k1, reads, hpoll⟩ :=
      D_Display_poll_returns I_GetTime wipestart (p - 1) (f + 1) k [] (by omega) hreach
    obtain ⟨hnow, hk1, hnowk⟩ := D_Display_poll_spec I_GetTime wipestart _ _ _ _ _ _ hpoll
    unfold D_Display_wipeLoop
    rw [hpoll]
    simp only
    have hdone : (wipe_ScreenWipe (now - wipestart) w).1 = true := by
      rw [(hfx (now - wipestart) w (by omega)).1]
      simp only [Nat.cast_zero] at hrem
      omega
    simp only [hdone, if_true]
    exact ⟨_, _, rfl, by simp⟩
  | succ n ih =>
    intro fuel wipestart k w hrem hk hstart hfuel hfuel1
    obtain ⟨f, rfl⟩ : ∃ f, fuel = f + 1 := ⟨fuel - 1, by omega⟩
    have hp : 1 ≤ p := by
      rcases Nat.eq_zero_or_pos p with h0 | h0
      · have := hclock 0; rw [h0] at this; simp at this
      · exact h0
    have hreach : wipestart < I_GetTime (k + (p - 1)) := by
      have h := hclock (k - 1)
      have e : k - 1 + p = k + (p - 1) := by omega
      rw [e] at h
      omega
    obtain ⟨now, k1, reads, hpoll⟩ :=
      D_Display_poll_returns I_GetTime wipestart (p - 1) (f + 1) k [] (by omega) hreach
    obtain ⟨hnow, hk1, hnowk⟩ := D_Display_poll_spec I_GetTime wipestart _ _ _ _ _ _ hpoll
    unfold D_Display_wipeLoop
    rw [hpoll]
    simp only
    obtain ⟨hfx1, hfx2⟩ := hfx (now - wipestart) w (by omega)
    by_cases hdone : (wipe_ScreenWipe (now - wipestart) w).1 = true
    · simp only [hdone, if_true]
      exact ⟨_, _, rfl, by simp⟩
    · simp only [hdone, Bool.false_eq_true, if_false]
      have hleft : ¬ (remaining w ≤ now - wipestart) := fun h => hdone (hfx1.mpr h)
      have hrem2 : remaining (wipe_ScreenWipe (now - wipestart) w).2 ≤ (n : Int) := by
        rw [hfx2]
        push_cast at hrem
        omega
      have hn1 : 1 ≤ n := by
        push_cast at hrem
        omega
      obtain ⟨w2, frames2, hrun, hlen⟩ := ih f now k1 (wipe_ScreenWipe (now - wipestart) w).2
        hrem2 (by omega) (by rw [hnowk]) (by omega) (by omega)
      rw [hrun]
      refine ⟨_, _, rfl, ?_⟩
      simp only [List.length_cons]
      have : max n 1 = n := by omega
      rw [this] at hlen
      have : max (n + 1) 1 = n + 1 := by omega
      rw [this]
      omega

/-- A call of `D_Display` that arms no wipe returns after `I_FinishUpdate`,
whatever the fuel. -/
theorem D_Display_unarmed {ω : Type} (env : DoomEnv) (I_GetTime : Nat → Int)
    (wipe_ScreenWipe : Int → ω → Bool × ω) (fuel : Nat) (s : DoomState) (w : ω)
    (h : (D_Display_frame env s).1.wipe = false) :
    D_Display env I_GetTime wipe_ScreenWipe fuel s w
      = some { state := (D_Display_frame env s).1
               calls := (D_Display_frame env s).2 ++ [Call.I_FinishUpdate]
               effect := w, frames := [] } := by
  unfold D_Display
  simp [h]

/-- What a returning call of `D_Display` leaves, in terms of the part before the
update and of the wipe loop. -/
theorem D_Display_some {ω : Type} (env : DoomEnv) (I_GetTime : Nat → Int)
    (wipe_ScreenWipe : Int → ω → Bool × ω) (fuel : Nat) (s : DoomState) (w : ω)
    (r : DisplayResult ω)
    (hrun : D_Display env I_GetTime wipe_ScreenWipe fuel s w = some r) :
    r.state.wipe = (D_Display_frame env s).1.wipe ∧
    r.state.forcewipe = (D_Display_frame env s).1.forcewipe ∧
    r.state.gamestate = (D_Display_frame env s).1.gamestate ∧
    r.state.wipegamestate = (D_Display_frame env s).1.wipegamestate ∧
    (Call.wipe_StartScreen ∈ r.calls ↔ Call.wipe_StartScreen ∈ (D_Display_frame env s).2) ∧
    (((D_Display_frame env s).1.wipe = false ∧ r.frames = [] ∧ r.effect = w) ∨
      ((D_Display_frame env s).1.wipe = true ∧
        D_Display_wipeLoop I_GetTime wipe_ScreenWipe fuel (I_GetTime 0 - 1) 1 w
          = some (r.effect, r.frames))) := by
  unfold D_Display at hrun
  simp only at hrun
  by_cases hw : (D_Display_frame env s).1.wipe = true
  · simp only [hw, Bool.not_true, Bool.false_eq_true, if_false] at hrun
    cases hloop : D_Display_wipeLoop I_GetTime wipe_ScreenWipe fuel (I_GetTime 0 - 1) 1 w with
    | none => rw [hloop] at hrun; simp at hrun
    | some res =>
      obtain ⟨w1, frames⟩ := res
      rw [hloop] at hrun
      simp only [Option.some.injEq] at hrun
      subst hrun
      refine ⟨hw.symm, rfl, rfl, rfl, by simp, Or.inr ⟨hw, rfl⟩⟩
  · have hw2 : (D_Display_frame env s).1.wipe = false := by simpa using hw
    simp only [hw2, Bool.not_false, if_true, Option.some.injEq] at hrun
    subst hrun
    refine ⟨rfl, rfl, rfl, rfl, by simp, Or.inl ⟨hw2, rfl, rfl⟩⟩

theorem ticsMatchClock_pos (prev : Int) (frames : List WipeFrame)
    (h : ticsMatchClock prev frames) : ∀ f ∈ frames, 1 ≤ f.tics := by
  induction frames generalizing prev with
  | nil => intro f hf; simp at hf
  | cons g gs ih =>
    intro f hf
    obtain ⟨-, h2, h3⟩ := h
    rcases List.mem_cons.mp hf with rfl | hf
    · exact h2
    · exact ih g.nowtime h3 f hf

/-! ## Claims on `D_Display` -/

/-- C17: after every `D_Display` call that returns, `wipegamestate` equals
`gamestate` and `forcewipe` is false (the collaborator drawers change neither);
the call arms a wipe (sets `wipe`, calls `wipe_StartScreen`) exactly when on entry
`gamestate` differs from `wipegamestate` or `forcewipe` is set; consequently an
immediately following `D_Display` call on the state left behind returns without
arming one: its `wipe` flag is false, `wipe_StartScreen` is not called and no wipe
pass is made. -/
theorem C17_wipe_armed_on_change_only {ω : Type} (env env2 : DoomEnv)
    (I_GetTime I_GetTime2 : Nat → Int) (wipe_ScreenWipe : Int → ω → Bool × ω)
    (fuel fuel2 : Nat) (s : DoomState) (w : ω) (r : DisplayResult ω)
    (hrun : D_Display env I_GetTime wipe_ScreenWipe fuel s w = some r) :
    r.state.wipegamestate = r.state.gamestate ∧
    r.state.forcewipe = false ∧
    (r.state.wipe = true ↔ (s.gamestate ≠ s.wipegamestate ∨ s.forcewipe = true)) ∧
    (Call.wipe_StartScreen ∈ r.calls
      ↔ (s.gamestate ≠ s.wipegamestate ∨ s.forcewipe = true)) ∧
    ∃ r2, D_Display env2 I_GetTime2 wipe_ScreenWipe fuel2 r.state r.effect = some r2 ∧
      r2.state.wipe = false ∧
      Call.wipe_StartScreen ∉ r2.calls ∧
      r2.frames = [] ∧
      r2.state.wipegamestate = r2.state.gamestate ∧
      r2.state.forcewipe = false := by
  obtain ⟨h1, h2, h3, h4, h5, -⟩ := D_Display_some env I_GetTime wipe_ScreenWipe fuel s w r hrun
  obtain ⟨f1, f2, f3, f4, f5⟩ := D_Display_frame_spec env s
  have harm : ((decide (s.gamestate ≠ s.wipegamestate) || s.forcewipe) = true)
      ↔ (s.gamestate ≠ s.wipegamestate ∨ s.forcewipe = true) := by simp
  have hsync : r.state.wipegamestate = r.state.gamestate := by rw [h4, h3, f4, f3]
  have hforce : r.state.forcewipe = false := by rw [h2, f2]
  refine ⟨hsync, hforce, ?_, ?_, ?_⟩
  · rw [h1, f1]; exact harm
  · rw [h5, f5]; exact harm
  · obtain ⟨g1, g2, g3, g4, g5⟩ := D_Display_frame_spec env2 r.state
    have hoff : (D_Display_frame env2 r.state).1.wipe = false := by
      rw [g1, hsync, hforce]; simp
    have hrun2 := D_Display_unarmed env2 I_GetTime2 wipe_ScreenWipe fuel2 r.state r.effect hoff
    refine ⟨_, hrun2, hoff, ?_, rfl, ?_, g2⟩
    · simp only [List.mem_append, List.mem_singleton, not_or]
      refine ⟨?_, by decide⟩
      rw [g5, hsync, hforce]; simp
    · show (D_Display_frame env2 r.state).1.wipegamestate
        = (D_Display_frame env2 r.state).1.gamestate
      rw [g4, g3]

theorem C17_wipe_armed_on_change_only_witness :
    ∃ r, D_Display sampleDoomEnv sampleClock sampleWipe 20 sampleStart 4 = some r ∧
      r.state.wipegamestate = r.state.gamestate ∧
      r.state.forcewipe = false ∧
      (r.state.wipe = true
        ↔ (sampleStart.gamestate ≠ sampleStart.wipegamestate ∨ sampleStart.forcewipe = true)) ∧
      (Call.wipe_StartScreen ∈ r.calls
        ↔ (sampleStart.gamestate ≠ sampleStart.wipegamestate ∨ sampleStart.forcewipe = true)) ∧
      ∃ r2, D_Display sampleDoomEnv sampleClock sampleWipe 0 r.state r.effect = some r2 ∧
        r2.state.wipe = false ∧
        Call.wipe_StartScreen ∉ r2.calls ∧
        r2.frames = [] ∧
        r2.state.wipegamestate = r2.state.gamestate ∧
        r2.state.forcewipe = false :=
  ⟨_, rfl, C17_wipe_armed_on_change_only sampleDoomEnv sampleDoomEnv sampleClock sampleClock
    sampleWipe 20 0 sampleStart 4 _ rfl⟩

/-- C18, as the code behaves: when `D_Display` returns after running a wipe
animation to completion, the flag `wipe` is still true, because `D_Display`
assigns it only in its arming test. A `D_ProcessEvents` called before the next
`D_Display` therefore still makes no responder call for a mouse event; the flag
becomes false in the next `D_Display` call, which finds `gamestate` equal to
`wipegamestate` and `forcewipe` clear. -/
theorem C18_wipe_flag_outlives_the_wipe {ω σ : Type} (env env2 : DoomEnv)
    (I_GetTime I_GetTime2 : Nat → Int) (wipe_ScreenWipe : Int → ω → Bool × ω)
    (fuel fuel2 : Nat) (s : DoomState) (w : ω) (r : DisplayResult ω)
    (R : Responders σ) (q : EventQueue) (rs : σ)
    (hrun : D_Display env I_GetTime wipe_ScreenWipe fuel s w = some r)
    (harmed : s.gamestate ≠ s.wipegamestate ∨ s.forcewipe = true)
    (hh : q.eventhead < 64) (ht : q.eventtail < 64) :
    wipeCompleted r.frames ∧
    r.state.wipe = true ∧
    (∃ out, D_ProcessEvents R r.state.wipe q rs = some out ∧
      ∀ d ∈ out.2.2, d.ev.type = evtype_t.ev_mouse → d.calls = []) ∧
    ∃ r2, D_Display env2 I_GetTime2 wipe_ScreenWipe fuel2 r.state r.effect = some r2 ∧
      r2.state.wipe = false := by
  obtain ⟨h1, h2, h3, h4, -, h6⟩ := D_Display_some env I_GetTime wipe_ScreenWipe fuel s w r hrun
  obtain ⟨f1, f2, f3, f4, -⟩ := D_Display_frame_spec env s
  have hw : (D_Display_frame env s).1.wipe = true := by
    rw [f1]; simpa using harmed
  have hwipe : r.state.wipe = true := by rw [h1, hw]
  refine ⟨?_, hwipe, ?_, ?_⟩
  · rcases h6 with ⟨h, -, -⟩ | ⟨-, hloop⟩
    · rw [hw] at h; exact absurd h (by simp)
    · exact (D_Display_wipeLoop_tics I_GetTime wipe_ScreenWipe fuel _ _ _ _ _ hloop).2.2.2
  · obtain ⟨rs1, out, hout, -⟩ := D_ProcessEvents_spec R r.state.wipe q rs hh ht
    refine ⟨_, hout, ?_⟩
    intro d hd hmouse
    have hc := D_ProcessEvents_loop_chain R r.state.wipe MAXEVENTS q rs _ hout d hd
    unfold dispatchedByChain at hc
    rw [if_pos ⟨hwipe, hmouse⟩] at hc
    exact hc
  · obtain ⟨g1, -, -, -, -⟩ := D_Display_frame_spec env2 r.state
    have hoff : (D_Display_frame env2 r.state).1.wipe = false := by
      rw [g1, h4, h3, f4, f3, h2, f2]; simp
    exact ⟨_, D_Display_unarmed env2 I_GetTime2 wipe_ScreenWipe fuel2 r.state r.effect hoff,
      hoff⟩

theorem C18_wipe_flag_outlives_the_wipe_witness :
    ∃ r, D_Display sampleDoomEnv sampleClock sampleWipe 20 sampleStart 4 = some r ∧
      wipeCompleted r.frames ∧
      r.state.wipe = true ∧
      (∃ out, D_ProcessEvents sampleResponders r.state.wipe
          (postEvents startQueue [mouseEvent]) 0 = some out ∧
        ∀ d ∈ out.2.2, d.ev.type = evtype_t.ev_mouse → d.calls = []) ∧
      ∃ r2, D_Display sampleDoomEnv sampleClock sampleWipe 0 r.state r.effect = some r2 ∧
        r2.state.wipe = false :=
  ⟨_, rfl, C18_wipe_flag_outlives_the_wipe sampleDoomEnv sampleDoomEnv sampleClock sampleClock
    sampleWipe 20 0 sampleStart 4 _ sampleResponders (postEvents startQueue [mouseEvent]) 0
    rfl (Or.inl (by decide)) (by decide) (by decide)⟩

/-- C18, the claim as stated fails: the level is entered from the title screen, the
wipe runs its four passes to completion and `D_Display` returns; the flag `wipe`
is true, not false, and a mouse event processed next by `D_ProcessEvents` reaches
neither `M_Responder` nor `G_Responder`. -/
theorem C18_counterexample :
    ∃ r, D_Display sampleDoomEnv sampleClock sampleWipe 20 sampleStart 4 = some r ∧
      r.frames.map WipeFrame.done = [false, false, false, true] ∧
      r.state.wipe = true ∧
      r.state.wipe ≠ false ∧
      ∃ out, D_ProcessEvents sampleResponders r.state.wipe
          (postEvents startQueue [mouseEvent]) 0 = some out ∧
        out.2.2 = [{ ev := mouseEvent, calls := [] }] := by
  refine ⟨_, rfl, by decide, by decide, by decide, _, rfl, by decide⟩

/-- The inner loop, when it returns: the values it read are the successive values
of `I_GetTime` from call number `k` on, all of them but the last not above
`wipestart`, and the last one, above `wipestart`, is the `nowtime` it returns. -/
theorem D_Display_poll_reads (I_GetTime : Nat → Int) (wipestart : Int) (fuel : Nat) :
    ∀ (k : Nat) (reads : List Int) (now : Int) (k1 : Nat) (reads1 : List Int),
      D_Display_poll I_GetTime wipestart fuel k reads = some (now, k1, reads1) →
      ∃ added : List Int, reads1 = reads ++ added ∧ k1 = k + added.length ∧
        added = (List.range added.length).map (fun i => I_GetTime (k + i)) ∧
        (∀ v ∈ added.dropLast, v ≤ wipestart) ∧
        added.getLast? = some now ∧ wipestart < now := by
  induction fuel with
  | zero =>
    intro k reads now k1 reads1 h
    simp [D_Display_poll] at h
  | succ fuel ih =>
    intro k reads now k1 reads1 h
    unfold D_Display_poll at h
    simp only at h
    split at h
    · rename_i hle
      obtain ⟨added, h1, h2, h3, h4, h5, h6⟩ := ih _ _ _ _ _ h
      have hne : added ≠ [] := by
        intro he; rw [he] at h5; simp at h5
      refine ⟨I_GetTime k :: added, ?_, ?_, ?_, ?_, ?_, h6⟩
      · rw [h1]; simp
      · rw [h2]; simp only [List.length_cons]; omega
      · simp only [List.length_cons, List.range_succ_eq_map, List.map_cons, List.map_map,
          Nat.add_zero]
        congr 1
        conv_lhs => rw [h3]
        apply List.map_congr_left
        intro i _
        simp only [Function.comp_apply, Nat.succ_eq_add_one]
        congr 1
        omega
      · intro v hv
        rw [List.dropLast_cons_of_ne_nil hne] at hv
        rcases List.mem_cons.mp hv with rfl | hv
        · omega
        · exact h4 v hv
      · cases added with
        | nil => exact absurd rfl hne
        | cons a rest => rw [List.getLast?_cons_cons]; exact h5
    · rename_i hpos
      simp only [Option.some.injEq, Prod.mk.injEq] at h
      obtain ⟨rfl, rfl, rfl⟩ := h
      refine ⟨[I_GetTime k], rfl, rfl, ?_, by simp, by simp, by omega⟩
      simp [List.range_succ_eq_map]

/-- The outer loop, when it returns: its passes follow the clock, they are the
calls of `wipe_ScreenWipe`, and the `nowtime` of the last pass is the value the
last call of `I_GetTime` returned. -/
theorem D_Display_wipeLoop_clock {ω : Type} (I_GetTime : Nat → Int)
    (wipe_ScreenWipe : Int → ω → Bool × ω) (fuel : Nat) :
    ∀ (wipestart : Int) (k : Nat) (w w1 : ω) (frames : List WipeFrame),
      D_Display_wipeLoop I_GetTime wipe_ScreenWipe fuel wipestart k w = some (w1, frames) →
      framesFollowClock I_GetTime wipestart k frames ∧
      framesCallWipe wipe_ScreenWipe w frames w1 ∧
      1 ≤ clockReads frames ∧
      lastNowtime wipestart frames = I_GetTime (k + clockReads frames - 1) := by
  induction fuel with
  | zero =>
    intro wipestart k w w1 frames h
    simp [D_Display_wipeLoop] at h
  | succ fuel ih =>
    intro wipestart k w w1 frames h
    unfold D_Display_wipeLoop at h
    cases hpoll : D_Display_poll I_GetTime wipestart (fuel + 1) k [] with
    | none => rw [hpoll] at h; simp at h
    | some res =>
      obtain ⟨now, k1, reads⟩ := res
      rw [hpoll] at h
      simp only at h
      obtain ⟨added, a1, a2, a3, a4, a5, a6⟩ :=
        D_Display_poll_reads I_GetTime wipestart _ _ _ _ _ _ hpoll
      obtain ⟨-, -, hnowk⟩ := D_Display_poll_spec I_GetTime wipestart _ _ _ _ _ _ hpoll
      simp only [List.nil_append] at a1
      subst a1
      have hlen : 1 ≤ reads.length := by
        cases reads with
        | nil => simp at a5
        | cons a rest => simp
      by_cases hdone : (wipe_ScreenWipe (now - wipestart) w).1 = true
      · simp only [hdone, if_true, Option.some.injEq, Prod.mk.injEq] at h
        obtain ⟨rfl, rfl⟩ := h
        refine ⟨⟨a3, a4, a5, a6, rfl, trivial⟩, ⟨hdone.symm, rfl⟩, ?_, ?_⟩
        · simp only [clockReads, List.map_cons, List.map_nil, List.sum_cons, List.sum_nil]
          omega
        · simp only [lastNowtime, clockReads, List.map_cons, List.map_nil, List.sum_cons,
            List.sum_nil, Nat.add_zero]
          rw [hnowk, a2]
      · simp only [hdone, Bool.false_eq_true, if_false] at h
        obtain ⟨res2, hres2, heq⟩ := Option.map_eq_some'.mp h
        obtain ⟨w2, frames2⟩ := res2
        simp only [Prod.mk.injEq] at heq
        obtain ⟨rfl, rfl⟩ := heq
        obtain ⟨i1, i2, i3, i4⟩ := ih now k1 _ _ frames2 hres2
        have hd : (wipe_ScreenWipe (now - wipestart) w).1 = false := by simpa using hdone
        refine ⟨⟨a3, a4, a5, a6, rfl, ?_⟩, ⟨hd.symm, i2⟩, ?_, ?_⟩
        · rw [← a2]; exact i1
        · simp only [clockReads, List.map_cons, List.sum_cons]
          omega
        · simp only [lastNowtime, clockReads, List.map_cons, List.sum_cons]
          rw [i4, a2]
          simp only [clockReads]
          congr 1
          have := i3
          simp only [clockReads] at this
          omega

/-- C19: in the wipe loop of `D_Display`, for every tick clock (non-decreasing or
not), the passes of a call that returns follow the clock: each pass reads
`I_GetTime` until it returns a value above the one kept by the pass before (one
tick before the value read when the loop started, for the first pass), and hands
`wipe_ScreenWipe` the difference, a tick count of at least 1 that is the clock
ticks elapsed since the previous call; so the tick counts passed over the whole
wipe sum to (the value the last call of `I_GetTime` returned) - (the value read
when the loop started) + 1. -/
theorem C19_wipe_tics_are_elapsed_ticks {ω : Type} (env : DoomEnv) (I_GetTime : Nat → Int)
    (wipe_ScreenWipe : Int → ω → Bool × ω) (fuel : Nat) (s : DoomState) (w : ω)
    (r : DisplayResult ω)
    (hrun : D_Display env I_GetTime wipe_ScreenWipe fuel s w = some r)
    (harmed : r.state.wipe = true) :
    r.frames ≠ [] ∧
    (∀ f ∈ r.frames, 1 ≤ f.tics) ∧
    ticsMatchClock (I_GetTime 0 - 1) r.frames ∧
    framesFollowClock I_GetTime (I_GetTime 0 - 1) 1 r.frames ∧
    framesCallWipe wipe_ScreenWipe w r.frames r.effect ∧
    lastNowtime (I_GetTime 0 - 1) r.frames = I_GetTime (clockReads r.frames) ∧
    (r.frames.map WipeFrame.tics).sum
      = I_GetTime (clockReads r.frames) - I_GetTime 0 + 1 := by
  obtain ⟨h1, -, -, -, -, h6⟩ := D_Display_some env I_GetTime wipe_ScreenWipe fuel s w r hrun
  rcases h6 with ⟨h, -, -⟩ | ⟨-, hloop⟩
  · rw [← h1, harmed] at h; exact absurd h (by simp)
  · obtain ⟨t1, t2, t3, -⟩ :=
      D_Display_wipeLoop_tics I_GetTime wipe_ScreenWipe fuel _ _ _ _ _ hloop
    obtain ⟨c1, c2, c3, c4⟩ :=
      D_Display_wipeLoop_clock I_GetTime wipe_ScreenWipe fuel _ _ _ _ _ hloop
    have hidx : 1 + clockReads r.frames - 1 = clockReads r.frames := by omega
    rw [hidx] at c4
    refine ⟨t1, ticsMatchClock_pos _ _ t2, t2, c1, c2, c4, ?_⟩
    rw [t3, c4]; ring

theorem C19_wipe_tics_are_elapsed_ticks_witness :
    ∃ r, D_Display sampleDoomEnv sampleJumpClock sampleWipe 20 sampleStart 4 = some r ∧
      r.frames.map WipeFrame.tics = [1, 2, 2] ∧
      r.frames.map WipeFrame.reads = [[1000], [1002], [1002, 1004]] ∧
      clockReads r.frames = 4 ∧
      (r.frames ≠ [] ∧
      (∀ f ∈ r.frames, 1 ≤ f.tics) ∧
      ticsMatchClock (sampleJumpClock 0 - 1) r.frames ∧
      framesFollowClock sampleJumpClock (sampleJumpClock 0 - 1) 1 r.frames ∧
      framesCallWipe sampleWipe 4 r.frames r.effect ∧
      lastNowtime (sampleJumpClock 0 - 1) r.frames = sampleJumpClock (clockReads r.frames) ∧
      (r.frames.map WipeFrame.tics).sum
        = sampleJumpClock (clockReads r.frames) - sampleJumpClock 0 + 1) :=
  ⟨_, rfl, by decide, by decide, by decide,
    C19_wipe_tics_are_elapsed_ticks sampleDoomEnv sampleJumpClock sampleWipe 20
      sampleStart 4 _ rfl (by decide)⟩

/-- C20: given a clock that keeps advancing (it gains a tick within every `p`
reads, as a clock of constant rate does) and a wipe effect that reports done once
it has been advanced by a total budget of `B >= 1` ticks, the wipe loop of
`D_Display` terminates: with fuel `B + p` or more the call returns, after at
least one and at most `B` calls of `wipe_ScreenWipe`, the last of which reported
done. -/
theorem C20_wipe_loop_terminates {ω : Type} (env : DoomEnv) (I_GetTime : Nat → Int)
    (wipe_ScreenWipe : Int → ω → Bool × ω) (remaining : ω → Int) (p B fuel : Nat)
    (s : DoomState) (w : ω)
    (hclock : ∀ k, I_GetTime k < I_GetTime (k + p))
    (hfx : ∀ (tics : Int) (w : ω), 1 ≤ tics →
      ((wipe_ScreenWipe tics w).1 = true ↔ remaining w ≤ tics) ∧
      remaining (wipe_ScreenWipe tics w).2 = remaining w - tics)
    (hbudget : remaining w = B) (hB : 1 ≤ B)
    (harmed : s.gamestate ≠ s.wipegamestate ∨ s.forcewipe = true)
    (hfuel : B + p ≤ fuel) :
    ∃ r, D_Display env I_GetTime wipe_ScreenWipe fuel s w = some r ∧
      r.frames ≠ [] ∧
      r.frames.length ≤ B ∧
      wipeCompleted r.frames := by
  obtain ⟨f1, -, -, -, -⟩ := D_Display_frame_spec env s
  have hw : (D_Display_frame env s).1.wipe = true := by
    rw [f1]; simpa using harmed
  obtain ⟨w1, frames, hloop, hlen⟩ :=
    D_Display_wipeLoop_returns I_GetTime wipe_ScreenWipe remaining p hclock hfx B fuel
      (I_GetTime 0 - 1) 1 w (by rw [hbudget]) (by omega) (by simp) hfuel (by omega)
  obtain ⟨t1, -, -, t4⟩ := D_Display_wipeLoop_tics I_GetTime wipe_ScreenWipe fuel _ _ _ _ _ hloop
  refine ⟨{ state := { (D_Display_frame env s).1 with blurred := false }
            calls := (D_Display_frame env s).2 ++ [Call.wipe_EndScreen]
            effect := w1, frames := frames }, ?_, t1, ?_, t4⟩
  · unfold D_Display
    simp only [hw, Bool.not_true, Bool.false_eq_true, if_false, hloop]
  · have : max B 1 = B := by omega
    rw [this] at hlen
    exact hlen

theorem C20_wipe_loop_terminates_witness :
    ∃ r, D_Display sampleDoomEnv sampleClock sampleWipe 7 sampleStart 4 = some r ∧
      r.frames ≠ [] ∧
      r.frames.length ≤ 4 ∧
      wipeCompleted r.frames :=
  C20_wipe_loop_terminates sampleDoomEnv sampleClock sampleWipe (fun left => left) 3 4 7
    sampleStart 4
    (by
      intro k
      simp only [sampleClock]
      have : (k + 3) / 3 = k / 3 + 1 := by omega
      rw [this]
      push_cast
      omega)
    (by
      intro tics left _
      simp [sampleWipe])
    rfl (by decide) (Or.inl (by decide)) (by decide)

/-! ## Lemmas on the two HUDs -/

/-- Every call `DrawHUDNumber` records through `HUDDraw.mk fn` carries the function
and the translucency table it was given. -/
theorem DrawHUDNumber_translucency (minuspatch : Option patch_t) (minuspatchwidth : Int)
    (x y val : Int) (t : tinttab_t) (numset : Int → patch_t) (gap : Int) (fn : hudfn_t) :
    ∀ d ∈ (DrawHUDNumber minuspatch minuspatchwidth x y val t numset gap (HUDDraw.mk fn)).2,
      d.translucency = t ∧ d.fn = fn := by
  unfold DrawHUDNumber
  by_cases hneg : val < 0
  · cases minuspatch with
    | none => simp [hneg]
    | some mp =>
      by_cases hl : leadingOne (-val) = true <;>
      by_cases h99 : 99 < -val <;>
      by_cases h9 : 9 < (-val).tmod 100 <;>
      simp [hneg, hl, h99, h9]
  · by_cases h99 : 99 < val <;>
    by_cases h9 : 9 < val.tmod 100 <;>
    simp [hneg, h99, h9]

/-- The health number and its percent glyph are all drawn with the table
`healthTranslucency` picks. -/
theorem HU_DrawHUD_health_translucency (pv : PlayerView) (env : HUDEnv) (s : HUDState) :
    ∀ d ∈ HU_DrawHUD_health pv env s, d.translucency = healthTranslucency pv env s := by
  intro d hd
  unfold HU_DrawHUD_health at hd
  simp only at hd
  split at hd
  · rcases List.mem_append.mp hd with h | h
    · exact (DrawHUDNumber_translucency _ _ _ _ _ _ _ _ _ d h).1
    · split at h
      · simp only [List.mem_singleton] at h
        rw [h]
      · simp at h
  · rcases List.mem_append.mp hd with h | h
    · exact (DrawHUDNumber_translucency _ _ _ _ _ _ _ _ _ d h).1
    · split at h
      · simp only [List.mem_singleton] at h
        rw [h]
      · simp at h

/-- The health number is never empty: `DrawHUDNumber` always draws a last digit. -/
theorem HU_DrawHUD_health_nonempty (pv : PlayerView) (env : HUDEnv) (s : HUDState) :
    HU_DrawHUD_health pv env s ≠ [] := by
  unfold HU_DrawHUD_health DrawHUDNumber
  simp only
  split <;> simp

/-! ## Claims on the two HUDs -/

/-- C11, as the code behaves: when the player's health is 0 (or below),
`HU_DrawHUD` selects the 66% translucency table `tinttab66` for the health number
and its percent glyph, whatever the blink phase, and never `tinttab25`; the dim
25% table is selected exactly when `0 < health <= HUD_HEALTH_MIN` and the blink
phase `healthanim` is off. -/
theorem C11_dead_health_is_drawn_at_66 (pv : PlayerView) (env : HUDEnv) (s : HUDState)
    (hdead : pv.health ≤ 0) :
    healthTranslucency pv env s = tinttab_t.tinttab66 ∧
    HU_DrawHUD_health pv env s ≠ [] ∧
    (∀ d ∈ HU_DrawHUD_health pv env s, d.translucency = tinttab_t.tinttab66) ∧
    (∀ (pv2 : PlayerView) (s2 : HUDState),
      healthTranslucency pv2 env s2 = tinttab_t.tinttab25
        ↔ (0 < pv2.health ∧ pv2.health ≤ env.HUD_HEALTH_MIN ∧ s2.healthanim = false)) := by
  have h66 : healthTranslucency pv env s = tinttab_t.tinttab66 := by
    unfold healthTranslucency
    simp [hdead]
  refine ⟨h66, HU_DrawHUD_health_nonempty pv env s, ?_, ?_⟩
  · intro d hd
    rw [HU_DrawHUD_health_translucency pv env s d hd, h66]
  · intro pv2 s2
    unfold healthTranslucency
    cases ha : s2.healthanim
    · by_cases h0 : pv2.health ≤ 0
      · simp [h0]
      · by_cases hm : pv2.health ≤ env.HUD_HEALTH_MIN
        · have h1 : ¬ (env.HUD_HEALTH_MIN < pv2.health) := by omega
          simp [h0, hm, h1]
          omega
        · have h1 : env.HUD_HEALTH_MIN < pv2.health := by omega
          simp [h0, hm, h1]
    · by_cases h0 : pv2.health ≤ 0
      · simp [h0]
      · by_cases hm : pv2.health ≤ env.HUD_HEALTH_MIN
        · simp [h0, hm]
        · have h1 : env.HUD_HEALTH_MIN < pv2.health := by omega
          simp [h0, hm, h1]

theorem C11_dead_health_is_drawn_at_66_witness :
    healthTranslucency { samplePlayer with health := 0 } sampleHUDEnv sampleHUD
      = tinttab_t.tinttab66 ∧
    HU_DrawHUD_health { samplePlayer with health := 0 } sampleHUDEnv sampleHUD ≠ [] ∧
    (∀ d ∈ HU_DrawHUD_health { samplePlayer with health := 0 } sampleHUDEnv sampleHUD,
      d.translucency = tinttab_t.tinttab66) ∧
    (∀ (pv2 : PlayerView) (s2 : HUDState),
      healthTranslucency pv2 sampleHUDEnv s2 = tinttab_t.tinttab25
        ↔ (0 < pv2.health ∧ pv2.health ≤ sampleHUDEnv.HUD_HEALTH_MIN
            ∧ s2.healthanim = false)) :=
  C11_dead_health_is_drawn_at_66 { samplePlayer with health := 0 } sampleHUDEnv sampleHUD
    (by decide)

/-- C11, the claim as stated fails: with health 0, in either blink phase,
`HU_DrawHUD` draws the digit 0 and the percent glyph with `tinttab66`, not with
`tinttab25`. -/
theorem C11_counterexample :
    healthTranslucency { samplePlayer with health := 0 } sampleHUDEnv
      { sampleHUD with healthanim := false } = tinttab_t.tinttab66 ∧
    healthTranslucency { samplePlayer with health := 0 } sampleHUDEnv
      { sampleHUD with healthanim := true } = tinttab_t.tinttab66 ∧
    (HU_DrawHUD_health { samplePlayer with health := 0 } sampleHUDEnv sampleHUD).map
      (fun d => (d.patch, d.translucency))
      = [(sampleHUDEnv.tallnum 0, tinttab_t.tinttab66),
         (sampleHUDEnv.tallpercent, tinttab_t.tinttab66)] ∧
    tinttab_t.tinttab66 ≠ tinttab_t.tinttab25 := by
  refine ⟨?_, ?_, ?_, ?_⟩ <;> decide

/-- C12, as the code behaves: when the player's armor is 0, the armor block of
`HU_DrawHUD` makes no call (no armor icon, no armor number, no percent glyph: the
calls of `HU_DrawHUD` are those of its other blocks), while the armor block of
`HU_DrawAltHUD` makes exactly one call, of the armor icon `altarmpatch`, and draws
no armor number or bar; the icon's colour is `darkgray` when the palette is not
inverted and `colormaps[0][32 * 256 + darkgray]` when it is. -/
theorem C12_no_armor (pv : PlayerView) (env : HUDEnv) (aenv : AltHUDEnv) (s : HUDState)
    (harmor : pv.armorpoints = 0) :
    HU_DrawHUD_armor pv env = [] ∧
    (HU_DrawHUD pv env s).2
      = HU_DrawHUD_face env ++ HU_DrawHUD_health pv env s
        ++ (HU_DrawHUD_ammo pv env (HU_DrawHUD_healthblink pv env s)).2
        ++ (HU_DrawHUD_keys pv env (env.SCREENWIDTH - 13)).2
        ++ (HU_DrawHUD_neededcard pv env (HU_DrawHUD_keys pv env (env.SCREENWIDTH - 13)).1
              (HU_DrawHUD_ammo pv env (HU_DrawHUD_healthblink pv env s)).1).2 ∧
    HU_DrawAltHUD_armor pv aenv
      = some [AltDraw.althudfunc (ALTHUD_LEFT_X + 43) (ALTHUD_Y aenv) aenv.altarmpatch WHITE
          (if invert pv aenv then aenv.colormaps0 (32 * 256 + aenv.darkgray)
            else aenv.darkgray)] ∧
    (invert pv aenv = false →
      HU_DrawAltHUD_armor pv aenv
        = some [AltDraw.althudfunc (ALTHUD_LEFT_X + 43) (ALTHUD_Y aenv) aenv.altarmpatch WHITE
            aenv.darkgray]) := by
  have h1 : HU_DrawHUD_armor pv env = [] := by
    unfold HU_DrawHUD_armor
    simp [harmor]
  have h3 : HU_DrawAltHUD_armor pv aenv
      = some [AltDraw.althudfunc (ALTHUD_LEFT_X + 43) (ALTHUD_Y aenv) aenv.altarmpatch WHITE
          (if invert pv aenv then aenv.colormaps0 (32 * 256 + aenv.darkgray)
            else aenv.darkgray)] := by
    unfold HU_DrawAltHUD_armor invertible
    simp [harmor]
  refine ⟨h1, ?_, h3, ?_⟩
  · unfold HU_DrawHUD
    simp only [h1, harmor, ne_eq, not_true_eq_false, if_false, List.append_nil]
  · intro hinv
    rw [h3, hinv]
    simp

theorem C12_no_armor_witness :
    HU_DrawHUD_armor samplePlayer sampleHUDEnv = [] ∧
    (HU_DrawHUD samplePlayer sampleHUDEnv sampleHUD).2
      = HU_DrawHUD_face sampleHUDEnv ++ HU_DrawHUD_health samplePlayer sampleHUDEnv sampleHUD
        ++ (HU_DrawHUD_ammo samplePlayer sampleHUDEnv
              (HU_DrawHUD_healthblink samplePlayer sampleHUDEnv sampleHUD)).2
        ++ (HU_DrawHUD_keys samplePlayer sampleHUDEnv (sampleHUDEnv.SCREENWIDTH - 13)).2
        ++ (HU_DrawHUD_neededcard samplePlayer sampleHUDEnv
              (HU_DrawHUD_keys samplePlayer sampleHUDEnv (sampleHUDEnv.SCREENWIDTH - 13)).1
              (HU_DrawHUD_ammo samplePlayer sampleHUDEnv
                (HU_DrawHUD_healthblink samplePlayer sampleHUDEnv sampleHUD)).1).2 ∧
    HU_DrawAltHUD_armor samplePlayer sampleAltEnv
      = some [AltDraw.althudfunc (ALTHUD_LEFT_X + 43) (ALTHUD_Y sampleAltEnv)
          sampleAltEnv.altarmpatch WHITE
          (if invert samplePlayer sampleAltEnv then
            sampleAltEnv.colormaps0 (32 * 256 + sampleAltEnv.darkgray)
            else sampleAltEnv.darkgray)] ∧
    (invert samplePlayer sampleAltEnv = false →
      HU_DrawAltHUD_armor samplePlayer sampleAltEnv
        = some [AltDraw.althudfunc (ALTHUD_LEFT_X + 43) (ALTHUD_Y sampleAltEnv)
            sampleAltEnv.altarmpatch WHITE sampleAltEnv.darkgray]) :=
  C12_no_armor samplePlayer sampleHUDEnv sampleAltEnv sampleHUD rfl

/-- C12, the claim as stated fails: with armor 0 and the inverse colormap of
invulnerability active, `HU_DrawAltHUD` draws the armor icon in the colour
`colormaps[0][32 * 256 + darkgray]` (89 here, a light gray), not in `darkgray`
(102). -/
theorem C12_counterexample :
    ({ samplePlayer with inversecolormap := true } : PlayerView).armorpoints = 0 ∧
    invert { samplePlayer with inversecolormap := true } sampleAltEnv = true ∧
    HU_DrawAltHUD_armor { samplePlayer with inversecolormap := true } sampleAltEnv
      = some [AltDraw.althudfunc 64 299 sampleAltEnv.altarmpatch 4 89] ∧
    sampleAltEnv.darkgray = 102 ∧
    HU_DrawAltHUD_armor { samplePlayer with inversecolormap := true } sampleAltEnv
      ≠ some [AltDraw.althudfunc 64 299 sampleAltEnv.altarmpatch 4 sampleAltEnv.darkgray] := by
  refine ⟨?_, ?_, ?_, ?_, ?_⟩ <;> decide

/-- A step of the power-up selection on counters that are not negative: the
power-up replaces the selection exactly when it is active and either nothing is
selected yet or it has fewer tics left than the selection. -/
theorem powerupStep_timed (powerup duration : Int) (sel : Int × Option Int)
    (hp : 0 ≤ powerup) :
    powerupStep powerup duration sel
      = if 0 < powerup ∧ (sel.1 = 0 ∨ powerup < sel.1) then (powerup, some duration)
        else sel := by
  unfold powerupStep
  by_cases h0 : powerup = 0
  · subst h0; simp
  · have hpos : 0 < powerup := by omega
    have hne : powerup ≠ -1 := by omega
    by_cases hs : sel.1 = 0
    · simp [h0, hpos, hs, hne]
    · by_cases hlt : powerup < sel.1
      · simp [h0, hpos, hs, hne, hlt, hp]
      · simp [h0, hpos, hs, hlt]

/-- The selection among the four timed power-ups, before the berserk step, on
counters that are not negative and not all zero: the active power-up with the
fewest tics left is selected, the earlier one on a tie. -/
theorem powerupSteps_timed (D1 D2 D3 D4 : Int) (a b c d : Int) (x : Int × Option Int)
    (ha : 0 ≤ a) (hb : 0 ≤ b) (hc : 0 ≤ c) (hd : 0 ≤ d)
    (hact : 0 < a ∨ 0 < b ∨ 0 < c ∨ 0 < d)
    (hx : x = powerupStep d D4 (powerupStep c D3 (powerupStep b D2
      (if a ≠ 0 then (if a = -1 then D1 else a, some D1) else (0, none))))) :
    (0 < a ∧ x.1 = a ∧ x.2 = some D1 ∧ (0 < b → a ≤ b) ∧ (0 < c → a ≤ c) ∧ (0 < d → a ≤ d)) ∨
    (0 < b ∧ x.1 = b ∧ x.2 = some D2 ∧ (0 < a → b < a) ∧ (0 < c → b ≤ c) ∧ (0 < d → b ≤ d)) ∨
    (0 < c ∧ x.1 = c ∧ x.2 = some D3 ∧ (0 < a → c < a) ∧ (0 < b → c < b) ∧ (0 < d → c ≤ d)) ∨
    (0 < d ∧ x.1 = d ∧ x.2 = some D4 ∧ (0 < a → d < a) ∧ (0 < b → d < b) ∧ (0 < c → d < c)) := by
  rw [powerupStep_timed d _ _ hd, powerupStep_timed c _ _ hc, powerupStep_timed b _ _ hb] at hx
  have hne : a ≠ -1 := by omega
  simp only [hne, if_false] at hx
  split_ifs at hx <;> subst hx <;> dsimp only at * <;>
    first
    | (refine Or.inl ⟨?_, rfl, rfl, ?_, ?_, ?_⟩ <;> omega)
    | (refine Or.inr (Or.inl ⟨?_, rfl, rfl, ?_, ?_, ?_⟩) <;> omega)
    | (refine Or.inr (Or.inr (Or.inl ⟨?_, rfl, rfl, ?_, ?_, ?_⟩)) <;> omega)
    | (refine Or.inr (Or.inr (Or.inr ⟨?_, rfl, rfl, ?_, ?_, ?_⟩)) <;> omega)
    | (exfalso; omega)

/-- C13, as the code behaves: when timed power-ups among invulnerability,
invisibility, radiation suit and light-amp are active (counters above 0, none
negative), `HU_DrawAltHUD` selects the active power-up with the fewest tics
remaining in absolute terms, the earlier in this order on a tie; the bar it draws
(when the flash test lets it draw) has the length of that power-up's remaining
tics times 101 divided by that power-up's full duration. -/
theorem C13_powerup_bar_fewest_tics (pv : PlayerView) (env : AltHUDEnv)
    (h1 : 0 ≤ pv.pw_invulnerability) (h2 : 0 ≤ pv.pw_invisibility)
    (h3 : 0 ≤ pv.pw_ironfeet) (h4 : 0 ≤ pv.pw_infrared)
    (hactive : 0 < pv.pw_invulnerability ∨ 0 < pv.pw_invisibility
      ∨ 0 < pv.pw_ironfeet ∨ 0 < pv.pw_infrared)
    (hd1 : env.INVULNTICS ≠ 0) (hd2 : env.INVISTICS ≠ 0)
    (hd3 : env.IRONTICS ≠ 0) (hd4 : env.INFRATICS ≠ 0) :
    ((0 < pv.pw_invulnerability ∧
        (selectPowerup pv env).1 = pv.pw_invulnerability ∧
        (selectPowerup pv env).2 = some env.INVULNTICS ∧
        (0 < pv.pw_invisibility → pv.pw_invulnerability ≤ pv.pw_invisibility) ∧
        (0 < pv.pw_ironfeet → pv.pw_invulnerability ≤ pv.pw_ironfeet) ∧
        (0 < pv.pw_infrared → pv.pw_invulnerability ≤ pv.pw_infrared)) ∨
      (0 < pv.pw_invisibility ∧
        (selectPowerup pv env).1 = pv.pw_invisibility ∧
        (selectPowerup pv env).2 = some env.INVISTICS ∧
        (0 < pv.pw_invulnerability → pv.pw_invisibility < pv.pw_invulnerability) ∧
        (0 < pv.pw_ironfeet → pv.pw_invisibility ≤ pv.pw_ironfeet) ∧
        (0 < pv.pw_infrared → pv.pw_invisibility ≤ pv.pw_infrared)) ∨
      (0 < pv.pw_ironfeet ∧
        (selectPowerup pv env).1 = pv.pw_ironfeet ∧
        (selectPowerup pv env).2 = some env.IRONTICS ∧
        (0 < pv.pw_invulnerability → pv.pw_ironfeet < pv.pw_invulnerability) ∧
        (0 < pv.pw_invisibility → pv.pw_ironfeet < pv.pw_invisibility) ∧
        (0 < pv.pw_infrared → pv.pw_ironfeet ≤ pv.pw_infrared)) ∨
      (0 < pv.pw_infrared ∧
        (selectPowerup pv env).1 = pv.pw_infrared ∧
        (selectPowerup pv env).2 = some env.INFRATICS ∧
        (0 < pv.pw_invulnerability → pv.pw_infrared < pv.pw_invulnerability) ∧
        (0 < pv.pw_invisibility → pv.pw_infrared < pv.pw_invisibility) ∧
        (0 < pv.pw_ironfeet → pv.pw_infrared < pv.pw_ironfeet))) ∧
    ∃ max, (selectPowerup pv env).2 = some max ∧
      HU_DrawAltHUD_powerup pv env
        = some (if (selectPowerup pv env).1 > env.STARTFLASHING
              || Int.land (selectPowerup pv env).1 8 != 0 then
            [AltDraw.fillrectfunc 0 (ALTHUD_RIGHT_X env) (ALTHUD_Y env + 26) 101 2
              (invertible pv env env.darkgray) false,
             AltDraw.fillrectfunc 0 (ALTHUD_RIGHT_X env) (ALTHUD_Y env + 26)
              (((selectPowerup pv env).1 * 101).tdiv max) 2
              (invertible pv env env.gray) false]
          else []) := by
  have hx := powerupSteps_timed env.INVULNTICS env.INVISTICS env.IRONTICS env.INFRATICS
    pv.pw_invulnerability pv.pw_invisibility pv.pw_ironfeet pv.pw_infrared _ h1 h2 h3 h4
    hactive rfl
  -- the berserk step does not apply: a bar is already selected
  have hsel : selectPowerup pv env
      = powerupStep pv.pw_infrared env.INFRATICS (powerupStep pv.pw_ironfeet env.IRONTICS
          (powerupStep pv.pw_invisibility env.INVISTICS
            (if pv.pw_invulnerability ≠ 0 then
              (if pv.pw_invulnerability = -1 then env.INVULNTICS else pv.pw_invulnerability,
                some env.INVULNTICS)
            else (0, none)))) := by
    have hpos : (powerupStep pv.pw_infrared env.INFRATICS (powerupStep pv.pw_ironfeet
        env.IRONTICS (powerupStep pv.pw_invisibility env.INVISTICS
          (if pv.pw_invulnerability ≠ 0 then
            (if pv.pw_invulnerability = -1 then env.INVULNTICS else pv.pw_invulnerability,
              some env.INVULNTICS)
          else (0, none))))).1 ≠ 0 := by
      rcases hx with h | h | h | h <;> rw [h.2.1] <;> omega
    unfold selectPowerup
    simp only
    rw [if_neg]
    simp only [Bool.and_eq_true, beq_iff_eq, not_and]
    intro _
    exact hpos
  rw [← hsel] at hx
  refine ⟨hx, ?_⟩
  have hmax : ∃ max, (selectPowerup pv env).2 = some max ∧ max ≠ 0 := by
    rcases hx with h | h | h | h
    · exact ⟨_, h.2.2.1, hd1⟩
    · exact ⟨_, h.2.2.1, hd2⟩
    · exact ⟨_, h.2.2.1, hd3⟩
    · exact ⟨_, h.2.2.1, hd4⟩
  obtain ⟨max, hm, hm0⟩ := hmax
  refine ⟨max, hm, ?_⟩
  unfold HU_DrawAltHUD_powerup
  simp only [hm, divide, hm0, if_false]
  split <;> rfl

theorem C13_powerup_bar_fewest_tics_witness :
    ((0 < samplePowered.pw_invulnerability ∧
        (selectPowerup samplePowered sampleAltEnv).1 = samplePowered.pw_invulnerability ∧
        (selectPowerup samplePowered sampleAltEnv).2 = some sampleAltEnv.INVULNTICS ∧
        (0 < samplePowered.pw_invisibility →
          samplePowered.pw_invulnerability ≤ samplePowered.pw_invisibility) ∧
        (0 < samplePowered.pw_ironfeet →
          samplePowered.pw_invulnerability ≤ samplePowered.pw_ironfeet) ∧
        (0 < samplePowered.pw_infrared →
          samplePowered.pw_invulnerability ≤ samplePowered.pw_infrared)) ∨
      (0 < samplePowered.pw_invisibility ∧
        (selectPowerup samplePowered sampleAltEnv).1 = samplePowered.pw_invisibility ∧
        (selectPowerup samplePowered sampleAltEnv).2 = some sampleAltEnv.INVISTICS ∧
        (0 < samplePowered.pw_invulnerability →
          samplePowered.pw_invisibility < samplePowered.pw_invulnerability) ∧
        (0 < samplePowered.pw_ironfeet →
          samplePowered.pw_invisibility ≤ samplePowered.pw_ironfeet) ∧
        (0 < samplePowered.pw_infrared →
          samplePowered.pw_invisibility ≤ samplePowered.pw_infrared)) ∨
      (0 < samplePowered.pw_ironfeet ∧
        (selectPowerup samplePowered sampleAltEnv).1 = samplePowered.pw_ironfeet ∧
        (selectPowerup samplePowered sampleAltEnv).2 = some sampleAltEnv.IRONTICS ∧
        (0 < samplePowered.pw_invulnerability →
          samplePowered.pw_ironfeet < samplePowered.pw_invulnerability) ∧
        (0 < samplePowered.pw_invisibility →
          samplePowered.pw_ironfeet < samplePowered.pw_invisibility) ∧
        (0 < samplePowered.pw_infrared →
          samplePowered.pw_ironfeet ≤ samplePowered.pw_infrared)) ∨
      (0 < samplePowered.pw_infrared ∧
        (selectPowerup samplePowered sampleAltEnv).1 = samplePowered.pw_infrared ∧
        (selectPowerup samplePowered sampleAltEnv).2 = some sampleAltEnv.INFRATICS ∧
        (0 < samplePowered.pw_invulnerability →
          samplePowered.pw_infrared < samplePowered.pw_invulnerability) ∧
        (0 < samplePowered.pw_invisibility →
          samplePowered.pw_infrared < samplePowered.pw_invisibility) ∧
        (0 < samplePowered.pw_ironfeet →
          samplePowered.pw_infrared < samplePowered.pw_ironfeet))) ∧
    ∃ max, (selectPowerup samplePowered sampleAltEnv).2 = some max ∧
      HU_DrawAltHUD_powerup samplePowered sampleAltEnv
        = some (if (selectPowerup samplePowered sampleAltEnv).1 > sampleAltEnv.STARTFLASHING
              || Int.land (selectPowerup samplePowered sampleAltEnv).1 8 != 0 then
            [AltDraw.fillrectfunc 0 (ALTHUD_RIGHT_X sampleAltEnv) (ALTHUD_Y sampleAltEnv + 26)
              101 2 (invertible samplePowered sampleAltEnv sampleAltEnv.darkgray) false,
             AltDraw.fillrectfunc 0 (ALTHUD_RIGHT_X sampleAltEnv) (ALTHUD_Y sampleAltEnv + 26)
              (((selectPowerup samplePowered sampleAltEnv).1 * 101).tdiv max) 2
              (invertible samplePowered sampleAltEnv sampleAltEnv.gray) false]
          else []) :=
  C13_powerup_bar_fewest_tics samplePowered sampleAltEnv (by decide) (by decide) (by decide)
    (by decide) (Or.inl (by decide)) (by decide) (by decide) (by decide) (by decide)

/-- C13, the claim as stated fails: invulnerability has 1000 of its 1050 tics left
and invisibility 1040 of its 2100, so invisibility has the least proportional
time remaining; `HU_DrawAltHUD` selects invulnerability, which has the fewer
tics, and draws a bar of 96 pixels (1000 * 101 / 1050), not one of 50 pixels
(1040 * 101 / 2100). -/
theorem C13_counterexample :
    samplePowered.pw_invisibility * sampleAltEnv.INVULNTICS
      < samplePowered.pw_invulnerability * sampleAltEnv.INVISTICS ∧
    selectPowerup samplePowered sampleAltEnv = (1000, some 1050) ∧
    HU_DrawAltHUD_powerup samplePowered sampleAltEnv
      = some [AltDraw.fillrectfunc 0 461 325 101 2 102 false,
              AltDraw.fillrectfunc 0 461 325 96 2 92 false] ∧
    (samplePowered.pw_invulnerability * 101).tdiv sampleAltEnv.INVULNTICS = 96 ∧
    (samplePowered.pw_invisibility * 101).tdiv sampleAltEnv.INVISTICS = 50 := by
  refine ⟨?_, ?_, ?_, ?_, ?_⟩ <;> decide

/-! ## Claims on the message position -/

/-- The widget block of `HU_InitMessages` leaves `message_x`, `message_y` and
`r_messagepos` as they are. -/
theorem HU_InitMessages_widgets_frame (env : MsgEnv) (s : MsgState) :
    (HU_InitMessages_widgets env s).message_x = s.message_x ∧
    (HU_InitMessages_widgets env s).message_y = s.message_y ∧
    (HU_InitMessages_widgets env s).r_messagepos = s.r_messagepos := by
  unfold HU_InitMessages_widgets
  refine ⟨?_, ?_, ?_⟩ <;> (dsimp only; split_ifs <;> rfl)

/-- The position block of `HU_InitMessages` on a kept position: nothing but the
two coordinates is written, and nothing is saved. -/
theorem HU_InitMessages_position_kept (env : MsgEnv) (s : MsgState) (x y : Int)
    (hscan : env.sscanf s.r_messagepos = scan_t.both x y)
    (hx0 : 0 ≤ x) (hx1 : x < env.SCREENWIDTH)
    (hy0 : 0 ≤ y) (hy1 : y < env.SCREENHEIGHT - env.SBARHEIGHT) :
    HU_InitMessages_position env s = ({ s with message_x := x, message_y := y }, []) := by
  unfold HU_InitMessages_position
  simp only [hscan, scan_t.ret]
  have h1 : ¬ (x < 0) := by omega
  have h2 : ¬ (env.SCREENWIDTH ≤ x) := by omega
  have h3 : ¬ (y < 0) := by omega
  have h4 : ¬ (env.SCREENHEIGHT - env.SBARHEIGHT ≤ y) := by omega
  simp [h1, h2, h3, h4]

/-- The position block of `HU_InitMessages` on any other scan: the defaults are
stored and the settings are saved. -/
theorem HU_InitMessages_position_reset (env : MsgEnv) (s : MsgState)
    (hbad : keptPosition env (env.sscanf s.r_messagepos) = false) :
    (HU_InitMessages_position env s).1.message_x = env.HU_MSGX ∧
    (HU_InitMessages_position env s).1.message_y = env.HU_MSGY ∧
    (HU_InitMessages_position env s).1.r_messagepos = env.r_messagepos_default ∧
    (HU_InitMessages_position env s).2 = [MsgCall.M_SaveCVARs] := by
  unfold HU_InitMessages_position
  cases hscan : env.sscanf s.r_messagepos with
  | unmatched eof => cases eof <;> simp [scan_t.ret]
  | first x => simp [scan_t.ret]
  | both x y =>
    rw [hscan] at hbad
    simp only [keptPosition, Bool.and_eq_false_iff, decide_eq_false_iff_not, not_le,
      not_lt] at hbad
    have hc : (x < 0 ∨ env.SCREENWIDTH ≤ x) ∨ y < 0 ∨ env.SCREENHEIGHT - env.SBARHEIGHT ≤ y := by
      rcases hbad with ((h | h) | h) | h
      · exact Or.inl (Or.inl h)
      · exact Or.inl (Or.inr h)
      · exact Or.inr (Or.inl h)
      · exact Or.inr (Or.inr h)
    simp only [scan_t.ret]
    rw [if_pos]
    · exact ⟨rfl, rfl, rfl, rfl⟩
    · simp only [bne_self_eq_false, Bool.false_or, Bool.or_eq_true, decide_eq_true_eq, ge_iff_le]
      rcases hc with (h | h) | h | h
      · exact Or.inl (Or.inl (Or.inl h))
      · exact Or.inl (Or.inl (Or.inr h))
      · exact Or.inl (Or.inr h)
      · exact Or.inr h

/-- C21: provided the default position `(HU_MSGX, HU_MSGY)` itself lies on the
screen, for every `r_messagepos` string and whatever `sscanf` makes of it, after
`HU_InitMessages` `message_x` lies in `[0, SCREENWIDTH)` and `message_y` in
`[0, SCREENHEIGHT - SBARHEIGHT)`; if `sscanf` does not convert two numbers or
either number is outside those ranges, both coordinates are the defaults,
`r_messagepos` is `r_messagepos_default` and `M_SaveCVARs` is called once; a
converted in-range position is kept, `r_messagepos` is unchanged and nothing is
saved. The function is total: there is no error path. -/
theorem C21_message_position_is_sanitised (env : MsgEnv) (s : MsgState)
    (hx : 0 ≤ env.HU_MSGX ∧ env.HU_MSGX < env.SCREENWIDTH)
    (hy : 0 ≤ env.HU_MSGY ∧ env.HU_MSGY < env.SCREENHEIGHT - env.SBARHEIGHT) :
    (0 ≤ (HU_InitMessages env s).1.message_x ∧
      (HU_InitMessages env s).1.message_x < env.SCREENWIDTH ∧
      0 ≤ (HU_InitMessages env s).1.message_y ∧
      (HU_InitMessages env s).1.message_y < env.SCREENHEIGHT - env.SBARHEIGHT) ∧
    (keptPosition env (env.sscanf s.r_messagepos) = false →
      (HU_InitMessages env s).1.message_x = env.HU_MSGX ∧
      (HU_InitMessages env s).1.message_y = env.HU_MSGY ∧
      (HU_InitMessages env s).1.r_messagepos = env.r_messagepos_default ∧
      (HU_InitMessages env s).2 = [MsgCall.M_SaveCVARs]) ∧
    (∀ x y : Int, env.sscanf s.r_messagepos = scan_t.both x y →
      0 ≤ x → x < env.SCREENWIDTH → 0 ≤ y → y < env.SCREENHEIGHT - env.SBARHEIGHT →
      (HU_InitMessages env s).1.message_x = x ∧
      (HU_InitMessages env s).1.message_y = y ∧
      (HU_InitMessages env s).1.r_messagepos = s.r_messagepos ∧
      (HU_InitMessages env s).2 = []) := by
  have hw := HU_InitMessages_widgets_frame env (HU_InitMessages_position env s).1
  have hreset : keptPosition env (env.sscanf s.r_messagepos) = false →
      (HU_InitMessages env s).1.message_x = env.HU_MSGX ∧
      (HU_InitMessages env s).1.message_y = env.HU_MSGY ∧
      (HU_InitMessages env s).1.r_messagepos = env.r_messagepos_default ∧
      (HU_InitMessages env s).2 = [MsgCall.M_SaveCVARs] := by
    intro hbad
    have h := HU_InitMessages_position_reset env s hbad
    unfold HU_InitMessages
    exact ⟨hw.1.trans h.1, hw.2.1.trans h.2.1, hw.2.2.trans h.2.2.1, h.2.2.2⟩
  have hkept : ∀ x y : Int, env.sscanf s.r_messagepos = scan_t.both x y →
      0 ≤ x → x < env.SCREENWIDTH → 0 ≤ y → y < env.SCREENHEIGHT - env.SBARHEIGHT →
      (HU_InitMessages env s).1.message_x = x ∧
      (HU_InitMessages env s).1.message_y = y ∧
      (HU_InitMessages env s).1.r_messagepos = s.r_messagepos ∧
      (HU_InitMessages env s).2 = [] := by
    intro x y hscan hx0 hx1 hy0 hy1
    have h := HU_InitMessages_position_kept env s x y hscan hx0 hx1 hy0 hy1
    unfold HU_InitMessages
    rw [h] at hw ⊢
    exact ⟨hw.1, hw.2.1, hw.2.2, rfl⟩
  refine ⟨?_, hreset, hkept⟩
  cases hk : keptPosition env (env.sscanf s.r_messagepos) with
  | false =>
    obtain ⟨h1, h2, _, _⟩ := hreset hk
    rw [h1, h2]
    exact ⟨hx.1, hx.2, hy.1, hy.2⟩
  | true =>
    cases hscan : env.sscanf s.r_messagepos with
    | unmatched eof => rw [hscan] at hk; simp [keptPosition] at hk
    | first x => rw [hscan] at hk; simp [keptPosition] at hk
    | both x y =>
      rw [hscan] at hk
      simp only [keptPosition, Bool.and_eq_true, decide_eq_true_eq] at hk
      obtain ⟨⟨⟨hx0, hx1⟩, hy0⟩, hy1⟩ := hk
      obtain ⟨h1, h2, _, _⟩ := hkept x y hscan hx0 hx1 hy0 hy1
      rw [h1, h2]
      exact ⟨hx0, hx1, hy0, hy1⟩


theorem C21_message_position_is_sanitised_witness :
    ((HU_InitMessages sampleMsgEnv (sampleMsgState "(700,2)")).1.message_x = 3 ∧
      (HU_InitMessages sampleMsgEnv (sampleMsgState "(700,2)")).1.message_y = 2 ∧
      (HU_InitMessages sampleMsgEnv (sampleMsgState "(700,2)")).1.r_messagepos = "(3,2)" ∧
      (HU_InitMessages sampleMsgEnv (sampleMsgState "(700,2)")).2 = [MsgCall.M_SaveCVARs]) ∧
    ((HU_InitMessages sampleMsgEnv (sampleMsgState "(12,k)")).1.message_x = 3 ∧
      (HU_InitMessages sampleMsgEnv (sampleMsgState "(12,k)")).1.message_y = 2 ∧
      (HU_InitMessages sampleMsgEnv (sampleMsgState "(12,k)")).1.r_messagepos = "(3,2)" ∧
      (HU_InitMessages sampleMsgEnv (sampleMsgState "(12,k)")).2 = [MsgCall.M_SaveCVARs]) ∧
    ((HU_InitMessages sampleMsgEnv (sampleMsgState "(10,20)")).1.message_x = 10 ∧
      (HU_InitMessages sampleMsgEnv (sampleMsgState "(10,20)")).1.message_y = 20 ∧
      (HU_InitMessages sampleMsgEnv (sampleMsgState "(10,20)")).1.r_messagepos = "(10,20)" ∧
      (HU_InitMessages sampleMsgEnv (sampleMsgState "(10,20)")).2 = []) :=
  ⟨(C21_message_position_is_sanitised sampleMsgEnv (sampleMsgState "(700,2)")
      (by decide) (by decide)).2.1 (by decide),
   (C21_message_position_is_sanitised sampleMsgEnv (sampleMsgState "(12,k)")
      (by decide) (by decide)).2.1 (by decide),
   (C21_message_position_is_sanitised sampleMsgEnv (sampleMsgState "(10,20)")
      (by decide) (by decide)).2.2 10 20 (by decide) (by decide) (by decide) (by decide)
      (by decide)⟩


/-! ## Claims on the page ticker -/

/-- C22, as the code behaves: with the menu inactive, each `D_PageTicker` call
decrements `pagetic` by exactly one and sets `advancetitle` when the decremented
countdown is below zero (`--pagetic < 0`), leaving it as it was otherwise: the
call that takes the countdown from 1 to 0 requests nothing, the call that takes
it from 0 to -1 does. With the menu active the state is unchanged (no decrement,
no request) and no call is made. -/
theorem C22_page_countdown_below_zero (env : DoomEnv) (s : DoomState) :
    (s.menuactive = false →
      (D_PageTicker env s).1
        = { s with
            pagetic := s.pagetic - 1
            advancetitle := s.advancetitle || decide (s.pagetic - 1 < 0) }) ∧
    (s.menuactive = false → 0 ≤ s.pagetic - 1 →
      (D_PageTicker env s).1.advancetitle = s.advancetitle) ∧
    (s.menuactive = false → s.pagetic - 1 < 0 →
      (D_PageTicker env s).1.advancetitle = true) ∧
    (s.menuactive = true → D_PageTicker env s = (s, [])) := by
  refine ⟨?_, ?_, ?_, ?_⟩
  · intro hm
    unfold D_PageTicker D_AdvanceTitle
    by_cases hp : s.pagetic - 1 < 0
    · simp [hm, hp]
    · simp [hm, hp]
  · intro hm hp
    unfold D_PageTicker D_AdvanceTitle
    have hp2 : ¬ (s.pagetic - 1 < 0) := by omega
    simp [hm, hp2]
  · intro hm hp
    unfold D_PageTicker D_AdvanceTitle
    simp [hm, hp]
  · intro hm
    unfold D_PageTicker
    simp [hm]

theorem C22_page_countdown_below_zero_witness :
    (D_PageTicker sampleDoomEnv (sampleTitlePage 0)).1
      = { sampleTitlePage 0 with pagetic := -1, advancetitle := true } ∧
    D_PageTicker sampleDoomEnv { sampleTitlePage 0 with menuactive := true }
      = ({ sampleTitlePage 0 with menuactive := true }, []) :=
  ⟨(C22_page_countdown_below_zero sampleDoomEnv (sampleTitlePage 0)).1 rfl,
   (C22_page_countdown_below_zero sampleDoomEnv
      { sampleTitlePage 0 with menuactive := true }).2.2.2 rfl⟩

/-- C22, the claim as stated fails: with the menu inactive and one tic left, the
call brings the countdown to zero and requests no page (`advancetitle` stays
false); the request comes one call later, when the countdown goes from 0 to -1. -/
theorem C22_counterexample :
    (sampleTitlePage 1).menuactive = false ∧
    (sampleTitlePage 1).advancetitle = false ∧
    (D_PageTicker sampleDoomEnv (sampleTitlePage 1)).1.pagetic = 0 ∧
    (D_PageTicker sampleDoomEnv (sampleTitlePage 1)).1.advancetitle = false ∧
    (D_PageTicker sampleDoomEnv (D_PageTicker sampleDoomEnv (sampleTitlePage 1)).1).1.pagetic
      = -1 ∧
    (D_PageTicker sampleDoomEnv
      (D_PageTicker sampleDoomEnv (sampleTitlePage 1)).1).1.advancetitle = true := by
  refine ⟨?_, ?_, ?_, ?_, ?_, ?_⟩ <;> decide

/-- C23, as the code behaves: `D_PageTicker` calls `M_StartControlPanel` exactly on
the ticks on which the menu is inactive and there is no `TITLEPIC` lump, whatever
the page countdown; it makes no other call, and never calls it while the menu is
active or when a `TITLEPIC` lump is present, underflow or not. -/
theorem C23_control_panel_without_titlepic (env : DoomEnv) (s : DoomState) :
    (D_PageTicker env s).2
      = (if s.menuactive = false ∧ env.TITLEPIC = false then [Call.M_StartControlPanel]
         else []) ∧
    (Call.M_StartControlPanel ∈ (D_PageTicker env s).2
      ↔ s.menuactive = false ∧ env.TITLEPIC = false) := by
  have h : (D_PageTicker env s).2
      = (if s.menuactive = false ∧ env.TITLEPIC = false then [Call.M_StartControlPanel]
         else []) := by
    unfold D_PageTicker
    cases hm : s.menuactive <;> cases ht : env.TITLEPIC <;> simp
  refine ⟨h, ?_⟩
  rw [h]
  split_ifs with hc
  · simpa using hc
  · simpa using hc

/-- C23, the claim as stated fails: without a `TITLEPIC` lump and with the menu
inactive, `M_StartControlPanel` is called on a tick that leaves the countdown at
99, far from underflow. With a `TITLEPIC` lump it is not called on the tick on
which the countdown underflows either: the underflow is not what opens the
control panel. -/
theorem C23_counterexample :
    (D_PageTicker { sampleDoomEnv with TITLEPIC := false } (sampleTitlePage 100)).2
      = [Call.M_StartControlPanel] ∧
    (D_PageTicker { sampleDoomEnv with TITLEPIC := false } (sampleTitlePage 100)).1.pagetic
      = 99 ∧
    (D_PageTicker sampleDoomEnv (sampleTitlePage 0)).1.pagetic = -1 ∧
    (D_PageTicker sampleDoomEnv (sampleTitlePage 0)).2 = [] := by
  refine ⟨?_, ?_, ?_, ?_⟩ <;> decide


/-! ## Claims on the digits of a HUD number -/

/-- The decimal digits of a number below 1000, by quotients and remainders. -/
theorem decimalDigits_lt_1000 (n : Nat) (h : n < 1000) :
    decimalDigits n
      = if n > 99 then [n / 100, n % 100 / 10, n % 10]
        else if n > 9 then [n / 10, n % 10] else [n] := by
  unfold decimalDigits
  by_cases h0 : n = 0
  · subst h0; simp
  · by_cases h9 : n > 9
    · by_cases h99 : n > 99
      · have e1 : n / 10 / 10 = n / 100 := by omega
        have e2 : n / 10 % 10 = n % 100 / 10 := by omega
        rw [Nat.digits_def' (by norm_num) (by omega), Nat.digits_def' (by norm_num) (by omega),
          Nat.digits_of_lt 10 (n / 10 / 10) (by omega) (by omega)]
        simp [h0, h9, h99, e1, e2]
      · rw [Nat.digits_def' (by norm_num) (by omega),
          Nat.digits_of_lt 10 (n / 10) (by omega) (by omega)]
        simp [h0, h9, h99]
    · rw [Nat.digits_of_lt 10 n h0 (by omega)]
      have : ¬ n > 99 := by omega
      simp [h0, h9, this]

/-- The digits `DrawHUDNumber` draws for a value `n` in `0 .. 999`, starting at
`x` after the calls `drawn`: the row of the decimal digits of `n`. -/
theorem DrawHUDNumber_digits {τ δ : Type} (minuspatch : Option patch_t) (minuspatchwidth : Int)
    (x y : Int) (n : Nat) (hn : n < 1000) (t : τ) (numset : Int → patch_t) (gap : Int)
    (f : Int → Int → patch_t → τ → δ) :
    (DrawHUDNumber minuspatch minuspatchwidth x y (n : Int) t numset gap f).2
      = glyphRow numset gap f y t x (decimalDigits n) := by
  have hnn : ¬ ((n : Int) < 0) := by omega
  have t100 : (n : Int).tdiv 100 = ((n / 100 : Nat) : Int) := by
    rw [Int.tdiv_eq_ediv (by omega) (by norm_num)]; norm_cast
  have m100 : (n : Int).tmod 100 = ((n % 100 : Nat) : Int) := by
    rw [Int.tmod_eq_emod (by omega) (by norm_num)]; norm_cast
  have t10 : ((n % 100 : Nat) : Int).tdiv 10 = ((n % 100 / 10 : Nat) : Int) := by
    rw [Int.tdiv_eq_ediv (by omega) (by norm_num)]; norm_cast
  have m10 : ((n % 100 : Nat) : Int).tmod 10 = ((n % 10 : Nat) : Int) := by
    rw [Int.tmod_eq_emod (by omega) (by norm_num)]
    have : n % 100 % 10 = n % 10 := by omega
    rw [← this]; norm_cast
  rw [decimalDigits_lt_1000 n hn]
  unfold DrawHUDNumber
  simp only [hnn, if_false, t100, m100, t10, m10]
  by_cases h99 : n > 99
  · have h99i : (n : Int) > 99 := by omega
    simp [h99, h99i, glyphRow]
  · have h99i : ¬ ((n : Int) > 99) := by omega
    by_cases h9 : n > 9
    · have h9i : (9 : Int) < (n : Int) % 100 := by omega
      have e1 : n % 100 / 10 = n / 10 := by omega
      simp [h99, h99i, h9, h9i, glyphRow, e1]
    · have h9i : ¬ ((9 : Int) < (n : Int) % 100) := by omega
      have e1 : n % 10 = n := by omega
      simp [h99, h99i, h9, h9i, glyphRow, e1]


/-- A negative value with a minus patch loaded: `DrawHUDNumber` draws the minus
glyph five rows down, moves on by `minuspatchwidth` (one pixel less when the
number starts with a 1) and continues as on the absolute value. -/
theorem DrawHUDNumber_minus {τ δ : Type} (minus : patch_t) (minuspatchwidth : Int)
    (x y : Int) (n : Nat) (hn : 0 < n) (t : τ) (numset : Int → patch_t) (gap : Int)
    (f : Int → Int → patch_t → τ → δ) :
    (DrawHUDNumber (some minus) minuspatchwidth x y (-(n : Int)) t numset gap f).2
      = f x (y + 5) minus t
        :: (DrawHUDNumber (some minus) minuspatchwidth
              (if leadingOne (n : Int) then x + minuspatchwidth - 1 else x + minuspatchwidth)
              y (n : Int) t numset gap f).2 := by
  have hneg : (-(n : Int)) < 0 := by omega
  have hnn : ¬ ((n : Int) < 0) := by omega
  unfold DrawHUDNumber
  simp only [hneg, hnn, if_true, if_false, neg_neg]
  by_cases hl : leadingOne (n : Int) = true <;>
  by_cases h99 : (n : Int) > 99 <;>
  by_cases h9 : (n : Int).tmod 100 > 9 <;>
  simp [hl, h99, h9]

/-- A negative value with no minus patch: `DrawHUDNumber` draws the single
digit 0. -/
theorem DrawHUDNumber_no_minus {τ δ : Type} (minuspatchwidth : Int)
    (x y val : Int) (hneg : val < 0) (t : τ) (numset : Int → patch_t) (gap : Int)
    (f : Int → Int → patch_t → τ → δ) :
    (DrawHUDNumber none minuspatchwidth x y val t numset gap f).2 = [f x y (numset 0) t] := by
  unfold DrawHUDNumber
  simp [hneg]

/-- C24: for every `val` in `[-999, 999]`, `DrawHUDNumber` draws, for `val >= 0`,
exactly the decimal digits of `val`, most significant first and with no leading
zero (one glyph up to 9, two up to 99, three up to 999), the first at `x` and each
next one where the previous one ended plus `gap`; for `val < 0` with a minus patch
loaded, the minus glyph followed by the row of the digits of `|val|`; and for
`val < 0` with no minus patch, the single digit 0. -/
theorem C24_digits_most_significant_first {τ δ : Type} (minuspatch : Option patch_t)
    (minuspatchwidth : Int) (x y val : Int) (t : τ) (numset : Int → patch_t) (gap : Int)
    (f : Int → Int → patch_t → τ → δ) (hval : -999 ≤ val ∧ val ≤ 999) :
    (DrawHUDNumber minuspatch minuspatchwidth x y val t numset gap f).2
      = (if 0 ≤ val then glyphRow numset gap f y t x (decimalDigits val.natAbs)
         else
          match minuspatch with
          | some minus =>
            f x (y + 5) minus t
              :: glyphRow numset gap f y t
                  (if leadingOne (-val) then x + minuspatchwidth - 1 else x + minuspatchwidth)
                  (decimalDigits val.natAbs)
          | none => [f x y (numset 0) t]) ∧
    (decimalDigits val.natAbs).length
      = (if val.natAbs ≤ 9 then 1 else if val.natAbs ≤ 99 then 2 else 3) ∧
    (decimalDigits val.natAbs).map (fun d => (d : Int))
      = (if val.natAbs ≤ 9 then [(val.natAbs : Int)]
         else if val.natAbs ≤ 99 then [(val.natAbs : Int) / 10, (val.natAbs : Int) % 10]
         else [(val.natAbs : Int) / 100, (val.natAbs : Int) / 10 % 10,
               (val.natAbs : Int) % 10]) := by
  have hn : val.natAbs < 1000 := by omega
  refine ⟨?_, ?_, ?_⟩
  · by_cases h0 : 0 ≤ val
    · have hv : val = (val.natAbs : Int) := by omega
      rw [if_pos h0]
      conv_lhs => rw [hv]
      exact DrawHUDNumber_digits minuspatch minuspatchwidth x y val.natAbs hn t numset gap f
    · have hv : val = -(val.natAbs : Int) := by omega
      have hpos : 0 < val.natAbs := by omega
      rw [if_neg h0]
      cases minuspatch with
      | none => exact DrawHUDNumber_no_minus minuspatchwidth x y val (by omega) t numset gap f
      | some minus =>
        have hl : leadingOne (-val) = leadingOne (val.natAbs : Int) := by
          congr 1; omega
        simp only [hl]
        conv_lhs => rw [hv]
        rw [DrawHUDNumber_minus minus minuspatchwidth x y val.natAbs hpos t numset gap f,
          DrawHUDNumber_digits]
        exact hn
  · rw [decimalDigits_lt_1000 _ hn]
    by_cases h9 : val.natAbs ≤ 9
    · have h1 : ¬ val.natAbs > 99 := by omega
      have h2 : ¬ val.natAbs > 9 := by omega
      simp [h9, h1, h2]
    · by_cases h99 : val.natAbs ≤ 99
      · have h1 : ¬ val.natAbs > 99 := by omega
        have h2 : val.natAbs > 9 := by omega
        simp [h9, h99, h1, h2]
      · have h1 : val.natAbs > 99 := by omega
        simp [h9, h99, h1]
  · rw [decimalDigits_lt_1000 _ hn]
    by_cases h9 : val.natAbs ≤ 9
    · have h1 : ¬ val.natAbs > 99 := by omega
      have h2 : ¬ val.natAbs > 9 := by omega
      simp [h9, h1, h2]
    · by_cases h99 : val.natAbs ≤ 99
      · have h1 : ¬ val.natAbs > 99 := by omega
        have h2 : val.natAbs > 9 := by omega
        simp [h9, h99, h1, h2]
      · have h1 : val.natAbs > 99 := by omega
        have e : (val.natAbs : Int) % 100 / 10 = (val.natAbs : Int) / 10 % 10 := by omega
        rw [Int.natCast_natAbs] at e
        simp [h9, h99, h1, e]


theorem C24_digits_most_significant_first_witness :
    (DrawHUDNumber (some sampleMinus) 7 100 50 507 tinttab_t.tinttab66 sampleNumset 2
        (HUDDraw.mk hudfn_t.hudnumfunc)).2
      = [HUDDraw.mk hudfn_t.hudnumfunc 100 50 (sampleNumset 5) tinttab_t.tinttab66,
         HUDDraw.mk hudfn_t.hudnumfunc 117 50 (sampleNumset 0) tinttab_t.tinttab66,
         HUDDraw.mk hudfn_t.hudnumfunc 129 50 (sampleNumset 7) tinttab_t.tinttab66] ∧
    (DrawHUDNumber (some sampleMinus) 7 100 50 (-13) tinttab_t.tinttab66 sampleNumset 2
        (HUDDraw.mk hudfn_t.hudnumfunc)).2
      = [HUDDraw.mk hudfn_t.hudnumfunc 100 55 sampleMinus tinttab_t.tinttab66,
         HUDDraw.mk hudfn_t.hudnumfunc 106 50 (sampleNumset 1) tinttab_t.tinttab66,
         HUDDraw.mk hudfn_t.hudnumfunc 119 50 (sampleNumset 3) tinttab_t.tinttab66] ∧
    (DrawHUDNumber none 7 100 50 (-13) tinttab_t.tinttab66 sampleNumset 2
        (HUDDraw.mk hudfn_t.hudnumfunc)).2
      = [HUDDraw.mk hudfn_t.hudnumfunc 100 50 (sampleNumset 0) tinttab_t.tinttab66] :=
  ⟨(C24_digits_most_significant_first (some sampleMinus) 7 100 50 507 tinttab_t.tinttab66
      sampleNumset 2 (HUDDraw.mk hudfn_t.hudnumfunc) (by decide)).1.trans
      (by simp [decimalDigits, glyphRow, sampleNumset]),
   (C24_digits_most_significant_first (some sampleMinus) 7 100 50 (-13) tinttab_t.tinttab66
      sampleNumset 2 (HUDDraw.mk hudfn_t.hudnumfunc) (by decide)).1.trans
      (by simp [decimalDigits, glyphRow, sampleNumset, leadingOne]),
   (C24_digits_most_significant_first none 7 100 50 (-13) tinttab_t.tinttab66
      sampleNumset 2 (HUDDraw.mk hudfn_t.hudnumfunc) (by decide)).1.trans
      (by simp)⟩


/-! ## Claims on the key cards -/

theorem keyRow_append (env : HUDEnv) (js ks : List Nat) :
    ∀ x : Int, keyRow env x (js ++ ks)
      = keyRow env x js ++ keyRow env (keyRowEnd env x js) ks := by
  induction js with
  | nil => intro x; rfl
  | cons j js ih =>
    intro x
    cases hp : env.keypics j with
    | none => simp [keyRow, keyRowEnd, hp, ih]
    | some patch => simp [keyRow, keyRowEnd, hp, ih]

theorem keyRowEnd_append (env : HUDEnv) (js ks : List Nat) :
    ∀ x : Int, keyRowEnd env x (js ++ ks) = keyRowEnd env (keyRowEnd env x js) ks := by
  induction js with
  | nil => intro x; rfl
  | cons j js ih =>
    intro x
    cases hp : env.keypics j with
    | none => simp [keyRowEnd, hp, ih]
    | some patch => simp [keyRowEnd, hp, ih]

/-- The inner key loop of `HU_DrawHUD` for one slot index `i`: it appends the row
of the cards with that slot index and a patch. -/
theorem HU_DrawHUD_key_fold (pv : PlayerView) (env : HUDEnv) (i : Int) (js : List Nat) :
    ∀ acc : Int × List HUDDraw,
      js.foldl (HU_DrawHUD_key pv env i) acc
        = (keyRowEnd env acc.1
              (js.filter (fun j => decide (pv.cards j = i) && (env.keypics j).isSome)),
           acc.2 ++ keyRow env acc.1
              (js.filter (fun j => decide (pv.cards j = i) && (env.keypics j).isSome))) := by
  induction js with
  | nil => intro acc; simp [keyRow, keyRowEnd]
  | cons j js ih =>
    intro acc
    rw [List.foldl_cons, ih]
    unfold HU_DrawHUD_key
    by_cases hc : pv.cards j = i
    · cases hp : env.keypics j with
      | none => simp [hc, hp, List.filter_cons]
      | some patch => simp [hc, hp, List.filter_cons, keyRow, keyRowEnd]
    · simp [hc, List.filter_cons]

/-- The key loop of `HU_DrawHUD` draws the row of the cards of `cardOrder`. -/
theorem HU_DrawHUD_keys_row (pv : PlayerView) (env : HUDEnv) (keypic_x : Int) :
    HU_DrawHUD_keys pv env keypic_x
      = (keyRowEnd env keypic_x (cardOrder pv env), keyRow env keypic_x (cardOrder pv env)) := by
  have outer : ∀ (is : List Int) (acc : Int × List HUDDraw),
      is.foldl (fun acc i => (List.range NUMCARDS).foldl (HU_DrawHUD_key pv env i) acc) acc
        = (keyRowEnd env acc.1 (is.flatMap (fun i =>
              (List.range NUMCARDS).filter (fun j =>
                decide (pv.cards j = i) && (env.keypics j).isSome))),
           acc.2 ++ keyRow env acc.1 (is.flatMap (fun i =>
              (List.range NUMCARDS).filter (fun j =>
                decide (pv.cards j = i) && (env.keypics j).isSome)))) := by
    intro is
    induction is with
    | nil => intro acc; simp [keyRow, keyRowEnd]
    | cons i is ih =>
      intro acc
      rw [List.foldl_cons, HU_DrawHUD_key_fold, ih]
      simp [List.flatMap_cons, keyRow_append, keyRowEnd_append]
  unfold HU_DrawHUD_keys cardOrder
  rw [outer]
  rfl


/-- The cards of `cardOrder` are the held cards that have a patch. -/
theorem cardOrder_mem (pv : PlayerView) (env : HUDEnv) (j : Nat) :
    j ∈ cardOrder pv env
      ↔ j < NUMCARDS ∧ 1 ≤ pv.cards j ∧ pv.cards j ≤ NUMCARDS ∧ (env.keypics j).isSome = true := by
  unfold cardOrder
  simp only [List.mem_flatMap, List.mem_filter, List.mem_range, List.mem_range'_1,
    Bool.and_eq_true, decide_eq_true_eq, NUMCARDS]
  constructor
  · rintro ⟨i, ⟨hi1, hi2⟩, hj, hc, hp⟩
    refine ⟨hj, ?_, ?_, hp⟩ <;> rw [hc] <;> push_cast <;> omega
  · rintro ⟨hj, h1, h2, hp⟩
    refine ⟨(pv.cards j).toNat, ⟨?_, ?_⟩, hj, ?_, hp⟩
    · omega
    · push_cast at h2; omega
    · omega

/-- The list `cardOrder` is sorted by slot index, and by array index within a slot
index. -/
theorem cardOrder_sorted (pv : PlayerView) (env : HUDEnv) :
    (cardOrder pv env).Pairwise
      (fun a b => pv.cards a < pv.cards b ∨ (pv.cards a = pv.cards b ∧ a < b)) := by
  unfold cardOrder
  rw [List.pairwise_flatMap]
  constructor
  · intro i _
    refine List.Pairwise.imp_of_mem ?_ ((List.pairwise_lt_range NUMCARDS).filter _)
    intro a b ha hb hab
    simp only [List.mem_filter, Bool.and_eq_true, decide_eq_true_eq] at ha hb
    exact Or.inr ⟨ha.2.1.trans hb.2.1.symm, hab⟩
  · refine (List.pairwise_lt_range' 1 NUMCARDS).imp ?_
    intro i1 i2 hlt a ha b hb
    simp only [List.mem_filter, Bool.and_eq_true, decide_eq_true_eq] at ha hb
    left
    rw [ha.2.1, hb.2.1]
    exact_mod_cast hlt

/-- No card occurs twice in `cardOrder`. -/
theorem cardOrder_nodup (pv : PlayerView) (env : HUDEnv) : (cardOrder pv env).Nodup := by
  refine (cardOrder_sorted pv env).imp ?_
  intro a b h hab
  subst hab
  rcases h with h | h
  · exact lt_irrefl _ h
  · exact lt_irrefl _ h.2

/-- The patches of a row, in order, are the patches of its cards. -/
theorem keyRow_patches (env : HUDEnv) (js : List Nat) :
    ∀ x : Int, (keyRow env x js).map (fun d => d.patch) = js.filterMap env.keypics := by
  induction js with
  | nil => intro x; rfl
  | cons j js ih =>
    intro x
    cases hp : env.keypics j with
    | none => simp [keyRow, hp, List.filterMap_cons, ih]
    | some patch => simp [keyRow, hp, List.filterMap_cons, ih]

/-- With patches that are not of negative width, no picture of a row starts to the
right of where the row stood. -/
theorem keyRow_x_le (env : HUDEnv) (hwidth : ∀ j p, env.keypics j = some p → 0 ≤ p.width)
    (js : List Nat) : ∀ x : Int, ∀ d ∈ keyRow env x js, d.x ≤ x := by
  induction js with
  | nil => intro x d hd; simp [keyRow] at hd
  | cons j js ih =>
    intro x d hd
    cases hp : env.keypics j with
    | none =>
      simp only [keyRow, hp] at hd
      exact ih x d hd
    | some patch =>
      simp only [keyRow, hp, List.mem_cons] at hd
      have hw := hwidth j patch hp
      rcases hd with h | h
      · subst h; simp only; omega
      · have := ih _ d h
        omega

/-- With patches that are not of negative width, every picture of a row is drawn
strictly to the left of the pictures drawn before it. -/
theorem keyRow_decreasing (env : HUDEnv) (hwidth : ∀ j p, env.keypics j = some p → 0 ≤ p.width)
    (js : List Nat) : ∀ x : Int, (keyRow env x js).Pairwise (fun d e => e.x < d.x) := by
  induction js with
  | nil => intro x; simp [keyRow]
  | cons j js ih =>
    intro x
    cases hp : env.keypics j with
    | none =>
      simp only [keyRow, hp]
      exact ih x
    | some patch =>
      simp only [keyRow, hp, List.pairwise_cons]
      refine ⟨?_, ih _⟩
      intro e he
      have := keyRow_x_le env hwidth js _ e he
      omega


/-- A row of cards that all have a patch has one picture per card. -/
theorem keyRow_length (env : HUDEnv) (js : List Nat)
    (hp : ∀ j ∈ js, (env.keypics j).isSome = true) :
    ∀ x : Int, (keyRow env x js).length = js.length := by
  induction js with
  | nil => intro x; rfl
  | cons j js ih =>
    intro x
    have hj := hp j (List.mem_cons_self _ _)
    have ih2 := ih (fun k hk => hp k (List.mem_cons_of_mem _ hk))
    cases hk : env.keypics j with
    | none => rw [hk] at hj; simp at hj
    | some patch => simp [keyRow, hk, ih2]

/-- The health blink of `HU_DrawHUD` writes only `healthanim` and `healthwait`. -/
theorem HU_DrawHUD_healthblink_frame (pv : PlayerView) (env : HUDEnv) (s : HUDState) :
    (HU_DrawHUD_healthblink pv env s).ammoanim = s.ammoanim ∧
    (HU_DrawHUD_healthblink pv env s).ammowait = s.ammowait ∧
    (HU_DrawHUD_healthblink pv env s).keywait = s.keywait ∧
    (HU_DrawHUD_healthblink pv env s).showkey = s.showkey ∧
    (HU_DrawHUD_healthblink pv env s).altkeywait = s.altkeywait ∧
    (HU_DrawHUD_healthblink pv env s).altshowkey = s.altshowkey ∧
    (HU_DrawHUD_healthblink pv env s).neededcardflash = s.neededcardflash := by
  unfold HU_DrawHUD_healthblink
  refine ⟨?_, ?_, ?_, ?_, ?_, ?_, ?_⟩ <;> (split_ifs <;> rfl)

/-- The ammunition block of `HU_DrawHUD` writes only `ammoanim` and `ammowait`. -/
theorem HU_DrawHUD_ammo_frame (pv : PlayerView) (env : HUDEnv) (s : HUDState) :
    (HU_DrawHUD_ammo pv env s).1.healthanim = s.healthanim ∧
    (HU_DrawHUD_ammo pv env s).1.healthwait = s.healthwait ∧
    (HU_DrawHUD_ammo pv env s).1.keywait = s.keywait ∧
    (HU_DrawHUD_ammo pv env s).1.showkey = s.showkey ∧
    (HU_DrawHUD_ammo pv env s).1.altkeywait = s.altkeywait ∧
    (HU_DrawHUD_ammo pv env s).1.altshowkey = s.altshowkey ∧
    (HU_DrawHUD_ammo pv env s).1.neededcardflash = s.neededcardflash := by
  unfold HU_DrawHUD_ammo
  refine ⟨?_, ?_, ?_, ?_, ?_, ?_, ?_⟩ <;> (dsimp only; split_ifs <;> rfl)

/-- The needed-key flash of `HU_DrawHUD` writes only `keywait`, `showkey` and
`neededcardflash`. -/
theorem HU_DrawHUD_neededcard_frame (pv : PlayerView) (env : HUDEnv) (x : Int) (s : HUDState) :
    (HU_DrawHUD_neededcard pv env x s).1.healthanim = s.healthanim ∧
    (HU_DrawHUD_neededcard pv env x s).1.healthwait = s.healthwait ∧
    (HU_DrawHUD_neededcard pv env x s).1.ammoanim = s.ammoanim ∧
    (HU_DrawHUD_neededcard pv env x s).1.ammowait = s.ammowait ∧
    (HU_DrawHUD_neededcard pv env x s).1.altkeywait = s.altkeywait ∧
    (HU_DrawHUD_neededcard pv env x s).1.altshowkey = s.altshowkey := by
  unfold HU_DrawHUD_neededcard
  cases env.keypics pv.neededcard <;>
    (refine ⟨?_, ?_, ?_, ?_, ?_, ?_⟩ <;> (dsimp only; split_ifs <;> rfl))


/-- The row of the held cards never moves to the right (patches not being of
negative width). -/
theorem keyRowEnd_le (env : HUDEnv) (hwidth : ∀ j p, env.keypics j = some p → 0 ≤ p.width)
    (js : List Nat) : ∀ x : Int, keyRowEnd env x js ≤ x := by
  induction js with
  | nil => intro x; simp [keyRowEnd]
  | cons j js ih =>
    intro x
    cases hp : env.keypics j with
    | none =>
      simp only [keyRowEnd, hp]
      exact ih x
    | some patch =>
      simp only [keyRowEnd, hp]
      have hw := hwidth j patch hp
      have := ih (x - patch.width - 4)
      omega

/-- Every picture of a row starts at least four pixels to the right of where the
row ends (patches not being of negative width). -/
theorem keyRow_right_of_end (env : HUDEnv)
    (hwidth : ∀ j p, env.keypics j = some p → 0 ≤ p.width) (js : List Nat) :
    ∀ x : Int, ∀ d ∈ keyRow env x js, keyRowEnd env x js + 4 ≤ d.x := by
  induction js with
  | nil => intro x d hd; simp [keyRow] at hd
  | cons j js ih =>
    intro x d hd
    cases hp : env.keypics j with
    | none =>
      simp only [keyRow, hp] at hd
      simp only [keyRowEnd, hp]
      exact ih x d hd
    | some patch =>
      simp only [keyRow, hp, List.mem_cons] at hd
      simp only [keyRowEnd, hp]
      rcases hd with h | h
      · subst h
        have := keyRowEnd_le env hwidth js (x - patch.width - 4)
        simp only
        omega
      · exact ih _ d h

/-- The calls of the needed-key flash of `HU_DrawHUD`: the picture `neededKeyFlash`
describes, for the counter found on entry and the `showkey` the block leaves. -/
theorem HU_DrawHUD_neededcard_draws (pv : PlayerView) (env : HUDEnv) (x : Int) (s : HUDState) :
    (HU_DrawHUD_neededcard pv env x s).2
      = neededKeyFlash pv env s.neededcardflash (HU_DrawHUD_neededcard pv env x s).1.showkey
          x := by
  unfold HU_DrawHUD_neededcard neededKeyFlash
  by_cases h0 : s.neededcardflash = 0
  · simp [h0]
  · cases hp : env.keypics pv.neededcard with
    | none => simp [h0]
    | some patch =>
      simp only [ne_eq, h0, not_false_eq_true, if_true, true_and]

/-- C25, as the code behaves: for every assignment of slot indices to the cards,
the key loop of `HU_DrawHUD` draws the row of the cards of `cardOrder`, which are
exactly the held cards (`cards[j]` in `1 .. NUMCARDS`) that have a patch, each
once, sorted by slot index and by array index within a slot index; the row has
one picture per card, in that order, and, the patches not being of negative
width, every picture is drawn strictly to the left of the ones drawn before it,
so the lowest slot is rightmost. Besides the row, `HU_DrawHUD` draws one more
card, held or not: the needed card, when a flash is pending, it has a patch and
`showkey` is on, to the left of the whole row; with no flash pending the row is
the only place where `HU_DrawHUD` draws a card. -/
theorem C25_keys_right_to_left (pv : PlayerView) (env : HUDEnv) (s : HUDState)
    (hwidth : ∀ j p, env.keypics j = some p → 0 ≤ p.width) :
    (∀ x : Int, (HU_DrawHUD_keys pv env x).2 = keyRow env x (cardOrder pv env)) ∧
    ((HU_DrawHUD pv env s).2
        = HU_DrawHUD_face env ++ HU_DrawHUD_health pv env s
          ++ (HU_DrawHUD_ammo pv env (HU_DrawHUD_healthblink pv env s)).2
          ++ keyRow env (if pv.armorpoints ≠ 0 then env.HUD_KEYS_X else env.SCREENWIDTH - 13)
              (cardOrder pv env)
          ++ neededKeyFlash pv env s.neededcardflash (HU_DrawHUD pv env s).1.showkey
              (keyRowEnd env
                (if pv.armorpoints ≠ 0 then env.HUD_KEYS_X else env.SCREENWIDTH - 13)
                (cardOrder pv env))
          ++ HU_DrawHUD_armor pv env) ∧
    (∀ (showkey : Bool) (x : Int), neededKeyFlash pv env 0 showkey x = []) ∧
    (∀ (n : Int) (showkey : Bool) (x : Int),
      ∀ d ∈ keyRow env x (cardOrder pv env),
      ∀ e ∈ neededKeyFlash pv env n showkey (keyRowEnd env x (cardOrder pv env)),
        e.x < d.x) ∧
    (∀ j : Nat, j ∈ cardOrder pv env
      ↔ j < NUMCARDS ∧ 1 ≤ pv.cards j ∧ pv.cards j ≤ NUMCARDS
        ∧ (env.keypics j).isSome = true) ∧
    (cardOrder pv env).Nodup ∧
    (cardOrder pv env).Pairwise
      (fun a b => pv.cards a < pv.cards b ∨ (pv.cards a = pv.cards b ∧ a < b)) ∧
    (∀ x : Int, (keyRow env x (cardOrder pv env)).map (fun d => d.patch)
      = (cardOrder pv env).filterMap env.keypics) ∧
    (∀ x : Int, (keyRow env x (cardOrder pv env)).length = (cardOrder pv env).length) ∧
    (∀ x : Int, (keyRow env x (cardOrder pv env)).Pairwise (fun d e => e.x < d.x)) := by
  refine ⟨?_, ?_, ?_, ?_, cardOrder_mem pv env, cardOrder_nodup pv env,
    cardOrder_sorted pv env, keyRow_patches env _, ?_, keyRow_decreasing env hwidth _⟩
  · intro x
    rw [HU_DrawHUD_keys_row]
  · have hn : (HU_DrawHUD_ammo pv env (HU_DrawHUD_healthblink pv env s)).1.neededcardflash
        = s.neededcardflash := by
      rw [(HU_DrawHUD_ammo_frame pv env _).2.2.2.2.2.2,
        (HU_DrawHUD_healthblink_frame pv env s).2.2.2.2.2.2]
    have hd := HU_DrawHUD_neededcard_draws pv env
      (keyRowEnd env (if pv.armorpoints ≠ 0 then env.HUD_KEYS_X else env.SCREENWIDTH - 13)
        (cardOrder pv env))
      (HU_DrawHUD_ammo pv env (HU_DrawHUD_healthblink pv env s)).1
    rw [hn] at hd
    have hs : (HU_DrawHUD pv env s).1.showkey
        = (HU_DrawHUD_neededcard pv env
            (keyRowEnd env
              (if pv.armorpoints ≠ 0 then env.HUD_KEYS_X else env.SCREENWIDTH - 13)
              (cardOrder pv env))
            (HU_DrawHUD_ammo pv env (HU_DrawHUD_healthblink pv env s)).1).1.showkey := by
      unfold HU_DrawHUD
      simp only [HU_DrawHUD_keys_row]
    rw [hs, ← hd]
    unfold HU_DrawHUD
    simp only [HU_DrawHUD_keys_row]
  · intro showkey x
    simp [neededKeyFlash]
  · intro n showkey x d hd e he
    have h1 := keyRow_right_of_end env hwidth _ x d hd
    unfold neededKeyFlash at he
    split_ifs at he
    · cases hp : env.keypics pv.neededcard with
      | none => rw [hp] at he; simp at he
      | some patch =>
        rw [hp] at he
        simp only [List.mem_singleton] at he
        have hw := hwidth _ patch hp
        rw [he]
        simp only
        omega
    · simp at he
  · exact keyRow_length env _ (fun j hj => ((cardOrder_mem pv env j).mp hj).2.2.2)

theorem C25_keys_right_to_left_witness :
    cardOrder sampleKeys sampleHUDEnv = [2, 5, 3, 0] ∧
    (HU_DrawHUD_keys sampleKeys sampleHUDEnv 627).2
      = [HUDDraw.mk hudfn_t.hudfunc 620 350 ⟨42, 7, 16⟩ tinttab_t.tinttab66,
         HUDDraw.mk hudfn_t.hudfunc 609 350 ⟨45, 7, 16⟩ tinttab_t.tinttab66,
         HUDDraw.mk hudfn_t.hudfunc 598 350 ⟨43, 7, 16⟩ tinttab_t.tinttab66,
         HUDDraw.mk hudfn_t.hudfunc 587 350 ⟨40, 7, 16⟩ tinttab_t.tinttab66] ∧
    (keyRow sampleHUDEnv 627 (cardOrder sampleKeys sampleHUDEnv)).Pairwise
      (fun d e => e.x < d.x) :=
  ⟨by decide,
   ((C25_keys_right_to_left sampleKeys sampleHUDEnv sampleHUD
      (fun _ _ h => by cases h; exact (by decide : (0 : Int) ≤ 7))).1 627).trans (by decide),
   (C25_keys_right_to_left sampleKeys sampleHUDEnv sampleHUD
      (fun _ _ h => by cases h; exact (by decide : (0 : Int) ≤ 7))).2.2.2.2.2.2.2.2.2 627⟩

/-- C25, the claim as stated fails: the player holds the blue card alone and a
flash for the yellow card, which is not held, is pending. `HU_DrawHUD` draws the
blue card and then, left of it, the yellow card, a card that is not held; and
when the flash is for the blue card itself, the blue card is drawn twice. -/
theorem C25_counterexample :
    ({ samplePlayer with neededcard := 1 } : PlayerView).cards 1 = 0 ∧
    cardOrder { samplePlayer with neededcard := 1 } sampleHUDEnv = [0] ∧
    sampleHUDEnv.keypics 1 = some ⟨41, 7, 16⟩ ∧
    (HU_DrawHUD { samplePlayer with neededcard := 1 } sampleHUDEnv sampleFlash).2.filter
        (fun d => decide (d.patch.lump ≥ 40))
      = [HUDDraw.mk hudfn_t.hudfunc 620 350 ⟨40, 7, 16⟩ tinttab_t.tinttab66,
         HUDDraw.mk hudfn_t.hudfunc 609 350 ⟨41, 7, 16⟩ tinttab_t.tinttab66] ∧
    samplePlayer.cards 0 = 1 ∧
    (HU_DrawHUD samplePlayer sampleHUDEnv sampleFlash).2.filter
        (fun d => decide (d.patch.lump ≥ 40))
      = [HUDDraw.mk hudfn_t.hudfunc 620 350 ⟨40, 7, 16⟩ tinttab_t.tinttab66,
         HUDDraw.mk hudfn_t.hudfunc 609 350 ⟨40, 7, 16⟩ tinttab_t.tinttab66] := by
  refine ⟨?_, ?_, ?_, ?_, ?_, ?_⟩ <;> decide


/-! ## Claims on the blink and flash state of the HUDs -/

/-- While the game is paused the health blink of `HU_DrawHUD` writes nothing. -/
theorem HU_DrawHUD_healthblink_paused (pv : PlayerView) (env : HUDEnv) (s : HUDState)
    (hp : gamepaused pv = true) : HU_DrawHUD_healthblink pv env s = s := by
  unfold HU_DrawHUD_healthblink
  simp [hp]

/-- While the game is paused the ammunition block of `HU_DrawHUD` writes nothing. -/
theorem HU_DrawHUD_ammo_paused (pv : PlayerView) (env : HUDEnv) (s : HUDState)
    (hp : gamepaused pv = true) : (HU_DrawHUD_ammo pv env s).1 = s := by
  unfold HU_DrawHUD_ammo
  simp only [hp, Bool.not_true, Bool.false_eq_true, if_false]
  split_ifs <;> rfl

/-- The state `HU_DrawHUD` leaves is the one its needed-key flash leaves, run on
the state of the ammunition block, itself run on the state of the health blink. -/
theorem HU_DrawHUD_state (pv : PlayerView) (env : HUDEnv) (s : HUDState) :
    (HU_DrawHUD pv env s).1
      = (HU_DrawHUD_neededcard pv env
          (HU_DrawHUD_keys pv env
            (if pv.armorpoints ≠ 0 then env.HUD_KEYS_X else env.SCREENWIDTH - 13)).1
          (HU_DrawHUD_ammo pv env (HU_DrawHUD_healthblink pv env s)).1).1 := rfl

/-- C26: while `menuactive`, `paused` or `consoleactive` is set, a call of
`HU_DrawHUD` leaves `healthanim`, `healthwait`, `ammoanim` and `ammowait` as they
were, for every player state, every clock value and every set of patches. -/
theorem C26_blink_frozen_while_paused (pv : PlayerView) (env : HUDEnv) (s : HUDState)
    (hp : pv.menuactive = true ∨ pv.paused = true ∨ pv.consoleactive = true) :
    (HU_DrawHUD pv env s).1.healthanim = s.healthanim ∧
    (HU_DrawHUD pv env s).1.healthwait = s.healthwait ∧
    (HU_DrawHUD pv env s).1.ammoanim = s.ammoanim ∧
    (HU_DrawHUD pv env s).1.ammowait = s.ammowait := by
  have hg : gamepaused pv = true := by
    unfold gamepaused
    rcases hp with h | h | h <;> simp [h]
  have hs : (HU_DrawHUD_ammo pv env (HU_DrawHUD_healthblink pv env s)).1 = s := by
    rw [HU_DrawHUD_ammo_paused pv env _ hg, HU_DrawHUD_healthblink_paused pv env s hg]
  have hf := HU_DrawHUD_neededcard_frame pv env
    (HU_DrawHUD_keys pv env
      (if pv.armorpoints ≠ 0 then env.HUD_KEYS_X else env.SCREENWIDTH - 13)).1 s
  rw [HU_DrawHUD_state, hs]
  exact ⟨hf.1, hf.2.1, hf.2.2.1, hf.2.2.2.1⟩

theorem C26_blink_frozen_while_paused_witness :
    (HU_DrawHUD { samplePlayer with health := 5, paused := true } sampleHUDEnv
        { sampleHUD with healthanim := true, healthwait := 4000 }).1.healthanim = true ∧
    (HU_DrawHUD { samplePlayer with health := 5, paused := true } sampleHUDEnv
        { sampleHUD with healthanim := true, healthwait := 4000 }).1.healthwait = 4000 ∧
    (HU_DrawHUD { samplePlayer with health := 5, paused := true } sampleHUDEnv
        { sampleHUD with healthanim := true, healthwait := 4000 }).1.ammoanim = false ∧
    (HU_DrawHUD { samplePlayer with health := 5, paused := true } sampleHUDEnv
        { sampleHUD with healthanim := true, healthwait := 4000 }).1.ammowait = 0 :=
  C26_blink_frozen_while_paused { samplePlayer with health := 5, paused := true } sampleHUDEnv
    { sampleHUD with healthanim := true, healthwait := 4000 } (Or.inr (Or.inl rfl))


/-- What `HU_DrawHUD` does to the needed-key flash: with the counter at zero it
resets `showkey` and `keywait`; with the counter not zero, a patch for the needed
card, the game not paused and the clock past `keywait`, it toggles `showkey`, sets
`keywait` and decrements the counter; otherwise it leaves the three alone. -/
theorem HU_DrawHUD_flash (pv : PlayerView) (env : HUDEnv) (s : HUDState) :
    (s.neededcardflash = 0 →
      (HU_DrawHUD pv env s).1.showkey = false ∧ (HU_DrawHUD pv env s).1.keywait = 0
        ∧ (HU_DrawHUD pv env s).1.neededcardflash = 0) ∧
    (s.neededcardflash ≠ 0 → (env.keypics pv.neededcard).isSome = true →
      gamepaused pv = false → s.keywait < pv.currenttime →
      (HU_DrawHUD pv env s).1.showkey = (!s.showkey)
        ∧ (HU_DrawHUD pv env s).1.keywait = pv.currenttime + env.HUD_KEY_WAIT
        ∧ (HU_DrawHUD pv env s).1.neededcardflash = s.neededcardflash - 1) ∧
    (s.neededcardflash ≠ 0 →
      ((env.keypics pv.neededcard).isSome = false ∨ gamepaused pv = true
        ∨ pv.currenttime ≤ s.keywait) →
      (HU_DrawHUD pv env s).1.showkey = s.showkey
        ∧ (HU_DrawHUD pv env s).1.keywait = s.keywait
        ∧ (HU_DrawHUD pv env s).1.neededcardflash = s.neededcardflash) := by
  have hb := HU_DrawHUD_healthblink_frame pv env s
  have ha := HU_DrawHUD_ammo_frame pv env (HU_DrawHUD_healthblink pv env s)
  have hk : (HU_DrawHUD_ammo pv env (HU_DrawHUD_healthblink pv env s)).1.keywait = s.keywait :=
    ha.2.2.1.trans hb.2.2.1
  have hs : (HU_DrawHUD_ammo pv env (HU_DrawHUD_healthblink pv env s)).1.showkey = s.showkey :=
    ha.2.2.2.1.trans hb.2.2.2.1
  have hn : (HU_DrawHUD_ammo pv env (HU_DrawHUD_healthblink pv env s)).1.neededcardflash
      = s.neededcardflash := ha.2.2.2.2.2.2.trans hb.2.2.2.2.2.2
  rw [HU_DrawHUD_state]
  generalize (HU_DrawHUD_ammo pv env (HU_DrawHUD_healthblink pv env s)).1 = s2 at hk hs hn
  generalize (HU_DrawHUD_keys pv env
    (if pv.armorpoints ≠ 0 then env.HUD_KEYS_X else env.SCREENWIDTH - 13)).1 = x
  unfold HU_DrawHUD_neededcard
  refine ⟨?_, ?_, ?_⟩
  · intro h0
    simp [hn, h0]
  · intro h0 hp hg ht
    obtain ⟨patch, hpatch⟩ := Option.isSome_iff_exists.mp hp
    simp [hn, h0, hpatch, hg, hk, ht, hs]
  · intro h0 hc
    cases hpatch : env.keypics pv.neededcard with
    | none => simp [hn, h0, hk, hs]
    | some patch =>
      rw [hpatch] at hc
      rcases hc with h | h | h
      · simp at h
      · simp [hn, h0, h, hk, hs]
      · have ht : ¬ (s.keywait < pv.currenttime) := by omega
        simp [hn, h0, hk, ht, hs]

/-- What `HU_DrawAltHUD`, when it returns, does to the needed-key flash: as
`HU_DrawHUD`, on its own `keywait` and `showkey`, and whatever the patches. -/
theorem HU_DrawAltHUD_flash (pv : PlayerView) (env : AltHUDEnv) (s : HUDState)
    (r : HUDState × List AltDraw) (hr : HU_DrawAltHUD pv env s = some r) :
    (s.neededcardflash = 0 →
      r.1.altshowkey = false ∧ r.1.altkeywait = 0 ∧ r.1.neededcardflash = 0) ∧
    (s.neededcardflash ≠ 0 → gamepaused pv = false → s.altkeywait < pv.currenttime →
      r.1.altshowkey = (!s.altshowkey)
        ∧ r.1.altkeywait = pv.currenttime + env.HUD_KEY_WAIT
        ∧ r.1.neededcardflash = s.neededcardflash - 1) ∧
    (s.neededcardflash ≠ 0 → (gamepaused pv = true ∨ pv.currenttime ≤ s.altkeywait) →
      r.1.altshowkey = s.altshowkey ∧ r.1.altkeywait = s.altkeywait
        ∧ r.1.neededcardflash = s.neededcardflash) := by
  have hstate : r.1 = (HU_DrawAltHUD_neededcard pv env (HU_DrawAltHUD_keys pv env).1 s).1 := by
    unfold HU_DrawAltHUD at hr
    cases h1 : HU_DrawAltHUD_health pv env with
    | none => simp [h1] at hr
    | some hd =>
      cases h2 : HU_DrawAltHUD_armor pv env with
      | none => simp [h1, h2] at hr
      | some ad =>
        cases h3 : HU_DrawAltHUD_ammo pv env hd.1 with
        | none => simp [h1, h2, h3] at hr
        | some md =>
          cases h4 : HU_DrawAltHUD_powerup pv env with
          | none => simp [h1, h2, h3, h4] at hr
          | some pd =>
            simp only [h1, h2, h3, h4, Option.some.injEq] at hr
            rw [← hr]
  rw [hstate]
  unfold HU_DrawAltHUD_neededcard gamepaused
  refine ⟨?_, ?_, ?_⟩
  · intro h0
    simp [h0]
  · intro h0 hg ht
    simp [h0, hg, ht]
  · intro h0 hc
    rcases hc with h | h
    · simp [h0, h]
    · have ht : ¬ (s.altkeywait < pv.currenttime) := by omega
      simp only [ne_eq, h0, not_false_eq_true, if_true, ht, if_false]
      split_ifs <;> exact ⟨rfl, rfl, rfl⟩


/-- A run of `HU_DrawHUD` on frames on which the flash is due counts
`neededcardflash` down by one a frame until it is zero, and leaves it there. -/
theorem HU_DrawHUD_frames_flash (env : HUDEnv) (pvs : List PlayerView) :
    ∀ s : HUDState, flashDue env pvs s = true → 0 ≤ s.neededcardflash →
      (HU_DrawHUD_frames env pvs s).neededcardflash
        = max (s.neededcardflash - pvs.length) 0 := by
  induction pvs with
  | nil =>
    intro s _ h0
    simp only [HU_DrawHUD_frames, List.length_nil, Nat.cast_zero, sub_zero]
    omega
  | cons pv pvs ih =>
    intro s hdue h0
    simp only [flashDue, Bool.and_eq_true, Bool.not_eq_true', decide_eq_true_eq] at hdue
    obtain ⟨⟨⟨hg, ht⟩, hp⟩, hrest⟩ := hdue
    have hf := HU_DrawHUD_flash pv env s
    simp only [HU_DrawHUD_frames, List.length_cons, Nat.cast_add, Nat.cast_one]
    by_cases hz : s.neededcardflash = 0
    · have h1 := (hf.1 hz).2.2
      rw [ih _ hrest (by omega), h1, hz]
      omega
    · have h1 := (hf.2.1 hz hp hg ht).2.2
      rw [ih _ hrest (by omega), h1]
      omega

/-- A run of `HU_DrawAltHUD` on frames on which the flash is due returns and
counts `neededcardflash` down by one a frame until it is zero, and leaves it
there. -/
theorem HU_DrawAltHUD_frames_flash (env : AltHUDEnv) (pvs : List PlayerView) :
    ∀ s : HUDState, altFlashDue env pvs s = true → 0 ≤ s.neededcardflash →
      ∃ s2 : HUDState, HU_DrawAltHUD_frames env pvs s = some s2 ∧
        s2.neededcardflash = max (s.neededcardflash - pvs.length) 0 := by
  induction pvs with
  | nil =>
    intro s _ h0
    refine ⟨s, rfl, ?_⟩
    simp only [List.length_nil, Nat.cast_zero, sub_zero]
    omega
  | cons pv pvs ih =>
    intro s hdue h0
    cases hr : HU_DrawAltHUD pv env s with
    | none => simp [altFlashDue, hr] at hdue
    | some r =>
      simp only [altFlashDue, hr, Bool.and_eq_true, Bool.not_eq_true',
        decide_eq_true_eq] at hdue
      obtain ⟨⟨hg, ht⟩, hrest⟩ := hdue
      have hf := HU_DrawAltHUD_flash pv env s r hr
      simp only [HU_DrawAltHUD_frames, hr, List.length_cons, Nat.cast_add, Nat.cast_one]
      by_cases hz : s.neededcardflash = 0
      · have h1 := (hf.1 hz).2.2
        obtain ⟨s2, hs2, hn2⟩ := ih r.1 hrest (by omega)
        refine ⟨s2, hs2, ?_⟩
        rw [hn2, h1, hz]
        omega
      · have h1 := (hf.2.1 hz hg ht).2.2
        obtain ⟨s2, hs2, hn2⟩ := ih r.1 hrest (by omega)
        refine ⟨s2, hs2, ?_⟩
        rw [hn2, h1]
        omega

/-! ## Claims on a deferred message -/

/-- An `HU_Ticker` call on which the countdown of a protected line does not reach
zero leaves an ordinary pending message pending and the line protected. -/
theorem HU_Ticker_skips (env : HUEnv) (s : HUState)
    (hprot : s.message_nottobefuckedwith = true) (hord : s.message_dontfuckwithme = false)
    (hnot : s.message_counter ≠ 1 ∨ countdownRuns env s = false
      ∨ env.idbehold = true ∨ env.idmypos = true) :
    ∃ s1, HU_Ticker env s = some s1 ∧
      s1.message = s.message ∧
      s1.message_nottobefuckedwith = true ∧
      s1.message_dontfuckwithme = false := by
  have hcd : (HU_Ticker_countdown env s).message_nottobefuckedwith = true := by
    by_cases hheld : s.message_counter = 0 ∨ countdownRuns env s = false
        ∨ env.idbehold = true ∨ env.idmypos = true
    · rw [HU_Ticker_countdown_held env s hheld, hprot]
    · simp only [not_or, Bool.not_eq_true, Bool.not_eq_false] at hheld
      obtain ⟨hc, hrun, hb, hm⟩ := hheld
      have hlast : s.message_counter ≠ 1 := by
        rcases hnot with h | h | h | h
        · exact h
        · rw [hrun] at h; exact absurd h (by simp)
        · rw [hb] at h; exact absurd h (by simp)
        · rw [hm] at h; exact absurd h (by simp)
      rw [HU_Ticker_countdown_running env s hb hm hc hrun hlast]
      exact hprot
  obtain ⟨f1, f2, -, -, -⟩ := HU_Ticker_countdown_frame env s
  have hch : (HU_Ticker_cheats env (HU_Ticker_countdown env s)).message_nottobefuckedwith = true
      ∧ (HU_Ticker_cheats env (HU_Ticker_countdown env s)).message_dontfuckwithme = false
      ∧ (HU_Ticker_cheats env (HU_Ticker_countdown env s)).message = s.message := by
    unfold HU_Ticker_cheats
    split_ifs <;> exact ⟨hcd, f2.trans hord, f1⟩
  unfold HU_Ticker
  rw [HU_Ticker_display_blocked env _ hch.1 hch.2.1]
  exact ⟨_, rfl, hch.2.2, hch.1, hch.2.1⟩

/-- An `HU_Ticker` call on which the countdown of a protected line runs and does
not reach zero only decrements the counter. -/
theorem HU_Ticker_skip_running (env : HUEnv) (s : HUState)
    (hb : env.idbehold = false) (hm : env.idmypos = false)
    (hprot : s.message_nottobefuckedwith = true) (hord : s.message_dontfuckwithme = false)
    (hrun : countdownRuns env s = true)
    (hc : s.message_counter ≠ 0) (hlast : s.message_counter ≠ 1) :
    HU_Ticker env s = some { s with message_counter := s.message_counter - 1 } := by
  unfold HU_Ticker
  rw [HU_Ticker_cheats_off env _ hb hm, HU_Ticker_countdown_running env s hb hm hc hrun hlast]
  exact HU_Ticker_display_blocked env { s with message_counter := s.message_counter - 1 }
    hprot hord

/-- The `HU_Ticker` call on which the countdown of a protected line reaches zero
displays the ordinary message that was pending. -/
theorem HU_Ticker_releases (env : HUEnv) (s : HUState) (m shown : String)
    (hb : env.idbehold = false) (hm : env.idmypos = false) (hmsgs : env.messages = true)
    (hord : s.message_dontfuckwithme = false) (hpend : s.message = some m)
    (hrun : countdownRuns env s = true) (hlast : s.message_counter = 1)
    (hloop : shownText env m = some shown) :
    ∃ s1, HU_Ticker env s = some s1 ∧
      s1.w_message = s.w_message ++ [shown] ∧
      s1.message_on = true ∧
      s1.message_counter = env.HU_MSGTIMEOUT ∧
      s1.message_nottobefuckedwith = false ∧
      s1.message = none := by
  obtain ⟨e1, e2, e3, e4, e5, e6⟩ := HU_Ticker_countdown_expires env s hb hm hrun hlast
  unfold HU_Ticker
  rw [HU_Ticker_cheats_off env _ hb hm,
    HU_Ticker_display_shows env _ m shown (by rw [e4, hpend]) (Or.inl e3) (Or.inl hmsgs)
      hb hm hloop]
  exact ⟨_, rfl, by simp only [e6], rfl, rfl, by simp only [e5, hord], rfl⟩

/-- After `n` calls a protected line with `n + 1` tics left has one tic left, and
the ordinary message is still pending. -/
theorem HU_Ticker_times_skips (env : HUEnv)
    (hb : env.idbehold = false) (hm : env.idmypos = false)
    (henv : ((!env.menuactive && !env.paused && !env.consoleactive) || env.inhelpscreens)
      = true) (n : Nat) :
    ∀ s : HUState, s.message_nottobefuckedwith = true → s.message_dontfuckwithme = false →
      s.message_counter = n + 1 →
      HU_Ticker_times env n s = some { s with message_counter := 1 } := by
  induction n with
  | zero =>
    intro s _ _ hc
    simp only [Nat.cast_zero, zero_add] at hc
    simp only [HU_Ticker_times, ← hc]
  | succ n ih =>
    intro s hprot hord hc
    have hrun : countdownRuns env s = true := by
      unfold countdownRuns
      rw [henv]; rfl
    push_cast at hc
    have h1 := HU_Ticker_skip_running env s hb hm hprot hord hrun (by omega) (by omega)
    simp only [HU_Ticker_times, h1]
    rw [ih { s with message_counter := s.message_counter - 1 } hprot hord
      (by simp only; omega)]

theorem HU_Ticker_times_succ (env : HUEnv) (n : Nat) :
    ∀ s : HUState, HU_Ticker_times env (n + 1) s
      = (HU_Ticker_times env n s).bind (HU_Ticker env) := by
  induction n with
  | zero =>
    intro s
    cases h : HU_Ticker env s <;> simp [HU_Ticker_times, h]
  | succ n ih =>
    intro s
    conv_lhs => unfold HU_Ticker_times
    conv_rhs => unfold HU_Ticker_times
    cases HU_Ticker env s with
    | none => rfl
    | some s1 => exact ih s1


/-- C28: an ordinary message pending behind a displayed protected line is deferred,
not lost. Every `HU_Ticker` call on which the countdown of the protected line
does not reach zero returns and leaves the message pending (and the line
protected); with messages enabled and no cheat readout, the `HU_Ticker` call on
which the countdown reaches zero hands the pending message (as the ellipsis loop
leaves it) to the widget in that same call, sets `message_on`, restarts the
countdown at `HU_MSGTIMEOUT` and clears the pending message. So, with the game
running and nothing posted in between, a protected line with `n + 1` tics left
is followed by the pending message on the call number `n + 1`, the message
being still pending after `n` calls. -/
theorem C28_blocked_message_is_deferred (env : HUEnv) (s : HUState) (m : String)
    (hprot : s.message_nottobefuckedwith = true) (hord : s.message_dontfuckwithme = false)
    (hpend : s.message = some m) :
    ((s.message_counter ≠ 1 ∨ countdownRuns env s = false
        ∨ env.idbehold = true ∨ env.idmypos = true) →
      ∃ s1, HU_Ticker env s = some s1 ∧
        s1.message = some m ∧
        s1.message_nottobefuckedwith = true ∧
        s1.message_dontfuckwithme = false) ∧
    (env.messages = true → env.idbehold = false → env.idmypos = false →
      countdownRuns env s = true → s.message_counter = 1 →
      ∀ shown, shownText env m = some shown →
      ∃ s1, HU_Ticker env s = some s1 ∧
        s1.w_message = s.w_message ++ [shown] ∧
        s1.message_on = true ∧
        s1.message_counter = env.HU_MSGTIMEOUT ∧
        s1.message_nottobefuckedwith = false ∧
        s1.message = none) ∧
    (env.messages = true → env.idbehold = false → env.idmypos = false →
      ((!env.menuactive && !env.paused && !env.consoleactive) || env.inhelpscreens) = true →
      ∀ (n : Nat) (shown : String), s.message_counter = n + 1 →
      shownText env m = some shown →
      (∃ s1, HU_Ticker_times env n s = some s1 ∧
        s1.message = some m ∧ s1.w_message = s.w_message) ∧
      (∃ s2, HU_Ticker_times env (n + 1) s = some s2 ∧
        s2.w_message = s.w_message ++ [shown] ∧
        s2.message_on = true ∧
        s2.message_counter = env.HU_MSGTIMEOUT ∧
        s2.message_nottobefuckedwith = false ∧
        s2.message = none)) := by
  refine ⟨?_, ?_, ?_⟩
  · intro hnot
    obtain ⟨s1, h1, h2, h3, h4⟩ := HU_Ticker_skips env s hprot hord hnot
    exact ⟨s1, h1, h2.trans hpend, h3, h4⟩
  · intro hmsgs hb hm hrun hlast shown hloop
    exact HU_Ticker_releases env s m shown hb hm hmsgs hord hpend hrun hlast hloop
  · intro hmsgs hb hm henv n shown hc hloop
    have hn := HU_Ticker_times_skips env hb hm henv n s hprot hord hc
    refine ⟨⟨_, hn, hpend, rfl⟩, ?_⟩
    rw [HU_Ticker_times_succ, hn]
    have hrun : countdownRuns env { s with message_counter := 1 } = true := by
      unfold countdownRuns
      rw [henv]; rfl
    exact HU_Ticker_releases env { s with message_counter := 1 } m shown hb hm hmsgs hord hpend
      hrun rfl hloop

theorem C28_blocked_message_is_deferred_witness :
    (∃ s1, HU_Ticker_times sampleEnv 29 (sampleProtected 30) = some s1 ∧
      s1.message = some "Picked up a clip." ∧ s1.w_message = ["Game saved."]) ∧
    (∃ s2, HU_Ticker_times sampleEnv 30 (sampleProtected 30) = some s2 ∧
      s2.w_message = ["Game saved."] ++ ["Picked up a clip."] ∧
      s2.message_on = true ∧
      s2.message_counter = 140 ∧
      s2.message_nottobefuckedwith = false ∧
      s2.message = none) :=
  (C28_blocked_message_is_deferred sampleEnv (sampleProtected 30) "Picked up a clip."
    rfl rfl rfl).2.2 rfl rfl rfl rfl 29 "Picked up a clip." (by decide) (by decide)


/-! ## Claims on the ellipsis loop -/

/-- The ellipsis loop from its second pass on: started at `len` on the first `len`
characters of `orig` followed by three dots, with every write inside the array,
it ends with a prefix of `orig` of at most `len` characters followed by three
dots, provided three dots alone fit. -/
theorem ellipsisLoop_in_bounds (W : String → Int) (mw : Int) (size : Nat) (orig : String)
    (hdots : W "..." ≤ mw) (len : Nat) :
    len ≤ orig.length → len + 2 < size →
    ∃ k, k ≤ len ∧
      ellipsisLoop W mw size len ⟨orig.data.take len ++ ['.', '.', '.']⟩
        = some ⟨orig.data.take k ++ ['.', '.', '.']⟩ := by
  induction len with
  | zero =>
    intro _ _
    refine ⟨0, le_refl _, ?_⟩
    have h : ¬ (W ⟨List.take 0 orig.data ++ ['.', '.', '.']⟩ > mw) := by
      have e : (⟨List.take 0 orig.data ++ ['.', '.', '.']⟩ : String) = "..." := rfl
      rw [e]; omega
    simp only [ellipsisLoop, h, if_false]
  | succ l ih =>
    intro hlen hsize
    by_cases hw : W ⟨List.take (l + 1) orig.data ++ ['.', '.', '.']⟩ > mw
    · have hin : l + 3 < size := by omega
      have hl : l ≤ (⟨List.take (l + 1) orig.data ++ ['.', '.', '.']⟩ : String).length := by
        have hlen2 : l + 1 ≤ orig.data.length := hlen
        simp only [String.length, List.length_append, List.length_take]
        omega
      have ht : (List.take (l + 1) orig.data ++ ['.', '.', '.']).take l
          = orig.data.take l := by
        have hlen2 : l + 1 ≤ orig.data.length := hlen
        rw [List.take_append_of_le_length (by rw [List.length_take]; omega), List.take_take]
        congr 1
        omega
      obtain ⟨k, hk, hres⟩ := ih (by omega) (by omega)
      refine ⟨k, by omega, ?_⟩
      simp only [ellipsisLoop, hw, if_true, hin, hl, ht]
      exact hres
    · refine ⟨l + 1, le_refl _, ?_⟩
      simp only [ellipsisLoop, hw, if_false]

/-- The text `HU_Ticker` shows for a pending message of 1 to 130 characters that is
too wide: every write of the ellipsis loop is inside `message[133]`, the loop
ends (three dots alone fitting) and leaves a proper prefix of the message
followed by three dots. -/
theorem shownText_in_bounds (env : HUEnv) (m : String)
    (hpos : 0 < m.length) (hlen : m.length ≤ 130)
    (hwide : env.M_StringWidth m > maxwidth env)
    (hdots : env.M_StringWidth "..." ≤ maxwidth env) :
    ∃ k, k < m.length ∧
      shownText env m = some ⟨m.data.take k ++ ['.', '.', '.']⟩ := by
  have hcopy : M_StringCopy m 133 = m := by
    have hl : m.data.length ≤ 132 := by
      have : m.data.length = m.length := rfl
      omega
    unfold M_StringCopy
    simp [List.take_of_length_le hl]
  obtain ⟨l, hl⟩ : ∃ l, m.length = l + 1 := ⟨m.length - 1, by omega⟩
  obtain ⟨k, hk, hres⟩ := ellipsisLoop_in_bounds env.M_StringWidth (maxwidth env) 133 m hdots l
    (by omega) (by omega)
  refine ⟨k, by omega, ?_⟩
  unfold shownText
  simp only [hcopy, hl, ellipsisLoop, hwide, if_true]
  have hin : l + 3 < 133 := by omega
  have hle : l ≤ l + 1 := by omega
  simp only [hin, hle, if_true]
  exact hres

set_option maxRecDepth 100000 in
/-- C29, the code at the failing input: a pending message of 131 characters (and
one of 132) that is too wide for the line, with three dots alone fitting. On its
first pass the ellipsis loop writes the terminator at `message[len + 2]`, index
133 (134) of `char message[133]`, past the end of the array: the embedding
returns `none`, for the loop and for the whole `HU_Ticker` call after
`HU_SetPlayerMessage` posted the message. A message of 130 characters is the
longest the loop truncates inside the array. -/
theorem C29_ellipsis_writes_past_the_buffer :
    (sampleLong 131).length = 131 ∧
    sampleEnv.M_StringWidth (sampleLong 131) > maxwidth sampleEnv ∧
    sampleEnv.M_StringWidth "..." ≤ maxwidth sampleEnv ∧
    shownText sampleEnv (sampleLong 131) = none ∧
    shownText sampleEnv (sampleLong 132) = none ∧
    HU_Ticker sampleEnv (HU_SetPlayerMessage sampleEnv sampleIdle (sampleLong 131) false)
      = none ∧
    shownText sampleEnv (sampleLong 130) = some (sampleLong 36 ++ "...") := by
  refine ⟨?_, ?_, ?_, ?_, ?_, ?_, ?_⟩ <;> decide


/-! ## Claims on the power-up bar -/

/-- A step of the power-up selection either leaves the selection as it was or
selects its own power-up, with that power-up's full duration as the divisor. -/
theorem powerupStep_choice (powerup duration : Int) (sel : Int × Option Int) :
    powerupStep powerup duration sel = sel ∨
    (powerup ≠ 0 ∧
      powerupStep powerup duration sel
        = (if powerup = -1 then duration else powerup, some duration)) := by
  unfold powerupStep
  by_cases h : (powerup != 0 && (sel.1 == 0 || (powerup ≥ 0 && powerup < sel.1))) = true
  · right
    rw [if_pos h]
    simp only [Bool.and_eq_true, bne_iff_ne, ne_eq] at h
    exact ⟨h.1, rfl⟩
  · left
    rw [if_neg h]

/-- The power-up selection of `HU_DrawAltHUD` as its five steps. -/
theorem selectPowerup_steps (pv : PlayerView) (env : AltHUDEnv) :
    selectPowerup pv env
      = if pv.pw_strength != 0
            && ((pv.readyweapon == weapontype_t.wp_fist
                  && pv.pendingweapon == weapontype_t.wp_nochange)
                || pv.pendingweapon == weapontype_t.wp_fist)
            && (powerupStep pv.pw_infrared env.INFRATICS
                (powerupStep pv.pw_ironfeet env.IRONTICS
                  (powerupStep pv.pw_invisibility env.INVISTICS
                    (if pv.pw_invulnerability ≠ 0 then
                      (if pv.pw_invulnerability = -1 then env.INVULNTICS
                        else pv.pw_invulnerability, some env.INVULNTICS)
                    else (0, none))))).1 == 0 then
          (env.STARTFLASHING + 1, some (env.STARTFLASHING + 1))
        else
          powerupStep pv.pw_infrared env.INFRATICS
            (powerupStep pv.pw_ironfeet env.IRONTICS
              (powerupStep pv.pw_invisibility env.INVISTICS
                (if pv.pw_invulnerability ≠ 0 then
                  (if pv.pw_invulnerability = -1 then env.INVULNTICS
                    else pv.pw_invulnerability, some env.INVULNTICS)
                else (0, none)))) := rfl

/-- The selection among the four timed power-ups, before the berserk step: nothing
is selected, or one of the four that is active is, with its own full duration as
the divisor. -/
theorem timedSelection_choice (pv : PlayerView) (env : AltHUDEnv) :
    powerupStep pv.pw_infrared env.INFRATICS
        (powerupStep pv.pw_ironfeet env.IRONTICS
          (powerupStep pv.pw_invisibility env.INVISTICS
            (if pv.pw_invulnerability ≠ 0 then
              (if pv.pw_invulnerability = -1 then env.INVULNTICS
                else pv.pw_invulnerability, some env.INVULNTICS)
            else (0, none)))) = (0, none) ∨
    ∃ p ∈ timedPowerups pv env, p.1 ≠ 0 ∧
      powerupStep pv.pw_infrared env.INFRATICS
          (powerupStep pv.pw_ironfeet env.IRONTICS
            (powerupStep pv.pw_invisibility env.INVISTICS
              (if pv.pw_invulnerability ≠ 0 then
                (if pv.pw_invulnerability = -1 then env.INVULNTICS
                  else pv.pw_invulnerability, some env.INVULNTICS)
              else (0, none))))
        = (if p.1 = -1 then p.2 else p.1, some p.2) := by
  have h1 : (if pv.pw_invulnerability ≠ 0 then
        (if pv.pw_invulnerability = -1 then env.INVULNTICS
          else pv.pw_invulnerability, some env.INVULNTICS)
      else ((0 : Int), (none : Option Int))) = (0, none) ∨
      ∃ p ∈ timedPowerups pv env, p.1 ≠ 0 ∧
        (if pv.pw_invulnerability ≠ 0 then
          (if pv.pw_invulnerability = -1 then env.INVULNTICS
            else pv.pw_invulnerability, some env.INVULNTICS)
        else ((0 : Int), (none : Option Int))) = (if p.1 = -1 then p.2 else p.1, some p.2) := by
    by_cases h : pv.pw_invulnerability = 0
    · left; simp [h]
    · right
      exact ⟨(pv.pw_invulnerability, env.INVULNTICS), by simp [timedPowerups], h, by simp [h]⟩
  have step : ∀ (c D : Int) (sel : Int × Option Int), (c, D) ∈ timedPowerups pv env →
      (sel = (0, none) ∨ ∃ p ∈ timedPowerups pv env, p.1 ≠ 0 ∧
        sel = (if p.1 = -1 then p.2 else p.1, some p.2)) →
      (powerupStep c D sel = (0, none) ∨ ∃ p ∈ timedPowerups pv env, p.1 ≠ 0 ∧
        powerupStep c D sel = (if p.1 = -1 then p.2 else p.1, some p.2)) := by
    intro c D sel hmem hsel
    rcases powerupStep_choice c D sel with h | ⟨hc, h⟩
    · rw [h]; exact hsel
    · right
      exact ⟨(c, D), hmem, hc, h⟩
  exact step _ _ _ (by simp [timedPowerups])
    (step _ _ _ (by simp [timedPowerups]) (step _ _ _ (by simp [timedPowerups]) h1))


/-- The power-up selection of `HU_DrawAltHUD`: nothing is selected (`powerupbar` 0, `max` unassigned); or one of the four timed
power-ups that is active is, `max` being its full duration; or berserk is, with
the fist active or pending and none of the four selected, `powerupbar` and `max`
both being `STARTFLASHING + 1`. -/
theorem selectPowerup_choice (pv : PlayerView) (env : AltHUDEnv) :
    selectPowerup pv env = (0, none) ∨
    (∃ p ∈ timedPowerups pv env, p.1 ≠ 0 ∧
      selectPowerup pv env = (if p.1 = -1 then p.2 else p.1, some p.2)) ∨
    (pv.pw_strength ≠ 0 ∧
      ((pv.readyweapon = weapontype_t.wp_fist ∧ pv.pendingweapon = weapontype_t.wp_nochange)
        ∨ pv.pendingweapon = weapontype_t.wp_fist) ∧
      selectPowerup pv env = (env.STARTFLASHING + 1, some (env.STARTFLASHING + 1))) := by
  rw [selectPowerup_steps]
  have ht := timedSelection_choice pv env
  generalize powerupStep pv.pw_infrared env.INFRATICS
      (powerupStep pv.pw_ironfeet env.IRONTICS
        (powerupStep pv.pw_invisibility env.INVISTICS
          (if pv.pw_invulnerability ≠ 0 then
            (if pv.pw_invulnerability = -1 then env.INVULNTICS
              else pv.pw_invulnerability, some env.INVULNTICS)
          else (0, none)))) = sel at ht ⊢
  split_ifs with hb
  · right; right
    simp only [Bool.and_eq_true, bne_iff_ne, ne_eq, Bool.or_eq_true, beq_iff_eq] at hb
    exact ⟨hb.1.1, hb.1.2, rfl⟩
  · rcases ht with h | h
    · left; exact h
    · right; left; exact h

/-- Nothing selected, nothing drawn: with `powerupbar` 0 (and `STARTFLASHING` not
negative) the power-up block of `HU_DrawAltHUD` makes no call. -/
theorem HU_DrawAltHUD_powerup_of_zero (pv : PlayerView) (env : AltHUDEnv)
    (hsf : 0 ≤ env.STARTFLASHING) (h0 : (selectPowerup pv env).1 = 0) :
    HU_DrawAltHUD_powerup pv env = some [] := by
  unfold HU_DrawAltHUD_powerup
  have h1 : ¬ ((0 : Int) > env.STARTFLASHING) := by omega
  have h2 : Int.land 0 8 = 0 := rfl
  simp [h0, h1, h2]

/-- With `max` assigned and not zero, the power-up block of `HU_DrawAltHUD` returns:
the two rectangles of the bar when the flash test lets it draw, no call
otherwise. -/
theorem HU_DrawAltHUD_powerup_of_max (pv : PlayerView) (env : AltHUDEnv) (max : Int)
    (hm : (selectPowerup pv env).2 = some max) (hm0 : max ≠ 0) :
    HU_DrawAltHUD_powerup pv env
      = some (if (selectPowerup pv env).1 > env.STARTFLASHING
            || Int.land (selectPowerup pv env).1 8 != 0 then
          [AltDraw.fillrectfunc 0 (ALTHUD_RIGHT_X env) (ALTHUD_Y env + 26) 101 2
            (invertible pv env env.darkgray) false,
           AltDraw.fillrectfunc 0 (ALTHUD_RIGHT_X env) (ALTHUD_Y env + 26)
            (((selectPowerup pv env).1 * 101).tdiv max) 2
            (invertible pv env env.gray) false]
        else []) := by
  unfold HU_DrawAltHUD_powerup
  simp only [hm, divide, hm0, if_false]
  split <;> rfl

/-- The length of the bar of a power-up with `c` of its `D` tics left, or with the
counter -1: between 0 and 101. -/
theorem powerupBar_width (c D : Int) (hD : 0 < D) (hc : c = -1 ∨ (0 ≤ c ∧ c ≤ D)) :
    0 ≤ ((if c = -1 then D else c) * 101).tdiv D ∧
    ((if c = -1 then D else c) * 101).tdiv D ≤ 101 := by
  have hb : 0 ≤ (if c = -1 then D else c) ∧ (if c = -1 then D else c) ≤ D := by
    split_ifs with h
    · omega
    · rcases hc with h1 | h1
      · exact absurd h1 h
      · exact h1
  generalize (if c = -1 then D else c) = b at hb
  have hnn : 0 ≤ b * 101 := by omega
  rw [Int.tdiv_eq_ediv hnn (by omega)]
  refine ⟨Int.ediv_nonneg hnn (by omega), Int.ediv_le_of_le_mul hD ?_⟩
  nlinarith [hb.2]


/-- The calls of `HU_DrawAltHUD`, when it returns, end with those of its power-up
block. -/
theorem HU_DrawAltHUD_draws (pv : PlayerView) (env : AltHUDEnv) (s : HUDState)
    (r : HUDState × List AltDraw) (hr : HU_DrawAltHUD pv env s = some r) :
    ∃ before powerdraws, HU_DrawAltHUD_powerup pv env = some powerdraws ∧
      r.2 = before ++ powerdraws := by
  unfold HU_DrawAltHUD at hr
  cases h1 : HU_DrawAltHUD_health pv env with
  | none => simp [h1] at hr
  | some hd =>
    cases h2 : HU_DrawAltHUD_armor pv env with
    | none => simp [h1, h2] at hr
    | some ad =>
      cases h3 : HU_DrawAltHUD_ammo pv env hd.1 with
      | none => simp [h1, h2, h3] at hr
      | some md =>
        cases h4 : HU_DrawAltHUD_powerup pv env with
        | none => simp [h1, h2, h3, h4] at hr
        | some pd =>
          simp only [h1, h2, h3, h4, Option.some.injEq] at hr
          exact ⟨_, pd, rfl, by rw [← hr]⟩

/-- C30: with positive full durations and `STARTFLASHING` not negative, the
power-up block of `HU_DrawAltHUD`, whose calls are the last ones of
`HU_DrawAltHUD`, always returns (`max` is never read unassigned and never zero
when it divides); with `powerupbar` 0 it draws nothing, and so it
does with no timed power-up active and no berserk with the fist selected; when a
power-up is selected `max` is the positive full duration of the selected one
(`STARTFLASHING + 1` for berserk); if every timed counter is -1 or between 0 and
its full duration, the filled width `powerupbar * 101 / max` lies in `[0, 101]`;
and berserk alone with the fist active or pending draws a full bar of 101. -/
theorem C30_powerup_bar_is_well_defined (pv : PlayerView) (env : AltHUDEnv)
    (hd : ∀ p ∈ timedPowerups pv env, 0 < p.2) (hsf : 0 ≤ env.STARTFLASHING) :
    (∃ draws, HU_DrawAltHUD_powerup pv env = some draws) ∧
    (∀ (s : HUDState) (r : HUDState × List AltDraw), HU_DrawAltHUD pv env s = some r →
      ∃ before powerdraws, HU_DrawAltHUD_powerup pv env = some powerdraws ∧
        r.2 = before ++ powerdraws) ∧
    ((selectPowerup pv env).1 = 0 → HU_DrawAltHUD_powerup pv env = some []) ∧
    ((∀ p ∈ timedPowerups pv env, p.1 = 0) →
      (pv.pw_strength = 0
        ∨ ¬ ((pv.readyweapon = weapontype_t.wp_fist
              ∧ pv.pendingweapon = weapontype_t.wp_nochange)
            ∨ pv.pendingweapon = weapontype_t.wp_fist)) →
      HU_DrawAltHUD_powerup pv env = some []) ∧
    ((selectPowerup pv env).1 ≠ 0 →
      ∃ max, (selectPowerup pv env).2 = some max ∧ 0 < max ∧
        ((∃ p ∈ timedPowerups pv env, p.1 ≠ 0 ∧ max = p.2 ∧
            (selectPowerup pv env).1 = (if p.1 = -1 then p.2 else p.1))
          ∨ (pv.pw_strength ≠ 0 ∧ max = env.STARTFLASHING + 1 ∧
              (selectPowerup pv env).1 = env.STARTFLASHING + 1)) ∧
        HU_DrawAltHUD_powerup pv env
          = some (if (selectPowerup pv env).1 > env.STARTFLASHING
                || Int.land (selectPowerup pv env).1 8 != 0 then
              [AltDraw.fillrectfunc 0 (ALTHUD_RIGHT_X env) (ALTHUD_Y env + 26) 101 2
                (invertible pv env env.darkgray) false,
               AltDraw.fillrectfunc 0 (ALTHUD_RIGHT_X env) (ALTHUD_Y env + 26)
                (((selectPowerup pv env).1 * 101).tdiv max) 2
                (invertible pv env env.gray) false]
            else [])) ∧
    ((∀ p ∈ timedPowerups pv env, p.1 = -1 ∨ (0 ≤ p.1 ∧ p.1 ≤ p.2)) →
      ∀ max, (selectPowerup pv env).2 = some max →
        0 ≤ ((selectPowerup pv env).1 * 101).tdiv max ∧
        ((selectPowerup pv env).1 * 101).tdiv max ≤ 101) ∧
    ((∀ p ∈ timedPowerups pv env, p.1 = 0) → pv.pw_strength ≠ 0 →
      ((pv.readyweapon = weapontype_t.wp_fist ∧ pv.pendingweapon = weapontype_t.wp_nochange)
        ∨ pv.pendingweapon = weapontype_t.wp_fist) →
      HU_DrawAltHUD_powerup pv env
        = some [AltDraw.fillrectfunc 0 (ALTHUD_RIGHT_X env) (ALTHUD_Y env + 26) 101 2
            (invertible pv env env.darkgray) false,
          AltDraw.fillrectfunc 0 (ALTHUD_RIGHT_X env) (ALTHUD_Y env + 26) 101 2
            (invertible pv env env.gray) false]) := by
  have hsf1 : env.STARTFLASHING + 1 ≠ 0 := by omega
  have hchoice := selectPowerup_choice pv env
  -- a selected timed power-up gives a bar that is not zero
  have hbar : ∀ p ∈ timedPowerups pv env, p.1 ≠ 0 → (if p.1 = -1 then p.2 else p.1) ≠ 0 := by
    intro p hp hp0
    have := hd p hp
    split_ifs <;> omega
  -- no timed power-up active: what the selection is
  have hnone : (∀ p ∈ timedPowerups pv env, p.1 = 0) →
      selectPowerup pv env
        = if pv.pw_strength != 0
              && ((pv.readyweapon == weapontype_t.wp_fist
                    && pv.pendingweapon == weapontype_t.wp_nochange)
                  || pv.pendingweapon == weapontype_t.wp_fist) then
            (env.STARTFLASHING + 1, some (env.STARTFLASHING + 1))
          else (0, none) := by
    intro hall
    have h1 : pv.pw_invulnerability = 0 := hall (_, env.INVULNTICS) (by simp [timedPowerups])
    have h2 : pv.pw_invisibility = 0 := hall (_, env.INVISTICS) (by simp [timedPowerups])
    have h3 : pv.pw_ironfeet = 0 := hall (_, env.IRONTICS) (by simp [timedPowerups])
    have h4 : pv.pw_infrared = 0 := hall (_, env.INFRATICS) (by simp [timedPowerups])
    rw [selectPowerup_steps]
    simp [h1, h2, h3, h4, powerupStep]
  have hsel : (selectPowerup pv env).1 ≠ 0 →
      ∃ max, (selectPowerup pv env).2 = some max ∧ 0 < max ∧
        ((∃ p ∈ timedPowerups pv env, p.1 ≠ 0 ∧ max = p.2 ∧
            (selectPowerup pv env).1 = (if p.1 = -1 then p.2 else p.1))
          ∨ (pv.pw_strength ≠ 0 ∧ max = env.STARTFLASHING + 1 ∧
              (selectPowerup pv env).1 = env.STARTFLASHING + 1)) := by
    intro hne
    rcases hchoice with h | ⟨p, hp, hp0, h⟩ | ⟨hs, _, h⟩
    · rw [h] at hne; exact absurd rfl hne
    · exact ⟨p.2, by rw [h], hd p hp, Or.inl ⟨p, hp, hp0, rfl, by rw [h]⟩⟩
    · exact ⟨env.STARTFLASHING + 1, by rw [h], by omega, Or.inr ⟨hs, rfl, by rw [h]⟩⟩
  refine ⟨?_, HU_DrawAltHUD_draws pv env, HU_DrawAltHUD_powerup_of_zero pv env hsf,
    ?_, ?_, ?_, ?_⟩
  · by_cases h0 : (selectPowerup pv env).1 = 0
    · exact ⟨_, HU_DrawAltHUD_powerup_of_zero pv env hsf h0⟩
    · obtain ⟨max, hm, hpos, _⟩ := hsel h0
      exact ⟨_, HU_DrawAltHUD_powerup_of_max pv env max hm (by omega)⟩
  · intro hall hnb
    apply HU_DrawAltHUD_powerup_of_zero pv env hsf
    rw [hnone hall, if_neg]
    rcases hnb with h | h
    · simp [h]
    · simp only [Bool.and_eq_true, bne_iff_ne, ne_eq, Bool.or_eq_true, beq_iff_eq, not_and]
      intro _
      exact h
  · intro hne
    obtain ⟨max, hm, hpos, hwho⟩ := hsel hne
    exact ⟨max, hm, hpos, hwho, HU_DrawAltHUD_powerup_of_max pv env max hm (by omega)⟩
  · intro hc max hm
    rcases hchoice with h | ⟨p, hp, hp0, h⟩ | ⟨hs, _, h⟩
    · rw [h] at hm; simp at hm
    · rw [h] at hm ⊢
      simp only [Option.some.injEq] at hm
      subst hm
      exact powerupBar_width p.1 p.2 (hd p hp) (hc p hp)
    · rw [h] at hm ⊢
      simp only [Option.some.injEq] at hm
      subst hm
      simp only
      rw [Int.mul_tdiv_cancel_left _ hsf1]
      omega
  · intro hall hs hfist
    have hsel2 : selectPowerup pv env
        = (env.STARTFLASHING + 1, some (env.STARTFLASHING + 1)) := by
      rw [hnone hall, if_pos]
      simp only [Bool.and_eq_true, bne_iff_ne, ne_eq, Bool.or_eq_true, beq_iff_eq]
      exact ⟨hs, hfist⟩
    rw [HU_DrawAltHUD_powerup_of_max pv env (env.STARTFLASHING + 1) (by rw [hsel2]) hsf1]
    have hgt : env.STARTFLASHING + 1 > env.STARTFLASHING := by omega
    simp [hsel2, hgt, Int.mul_tdiv_cancel_left _ hsf1]


theorem C30_powerup_bar_is_well_defined_witness :
    HU_DrawAltHUD_powerup sampleBerserk sampleAltEnv
      = some [AltDraw.fillrectfunc 0 461 325 101 2 102 false,
              AltDraw.fillrectfunc 0 461 325 101 2 92 false] ∧
    HU_DrawAltHUD_powerup samplePlayer sampleAltEnv = some [] ∧
    (0 ≤ ((selectPowerup samplePowered sampleAltEnv).1 * 101).tdiv 1050 ∧
      ((selectPowerup samplePowered sampleAltEnv).1 * 101).tdiv 1050 ≤ 101) :=
  ⟨((C30_powerup_bar_is_well_defined sampleBerserk sampleAltEnv
      (by decide) (by decide)).2.2.2.2.2.2
      (by decide) (by decide) (Or.inl ⟨rfl, rfl⟩)).trans (by decide),
   (C30_powerup_bar_is_well_defined samplePlayer sampleAltEnv (by decide) (by decide)).2.2.2.1
      (by decide) (Or.inl rfl),
   (C30_powerup_bar_is_well_defined samplePowered sampleAltEnv
      (by decide) (by decide)).2.2.2.2.2.1
      (by decide) 1050 (by decide)⟩


/-! ## Claims on the needed-key flash -/

/-- With positive full durations and `STARTFLASHING` not negative, the power-up
block of `HU_DrawAltHUD` returns. -/
theorem HU_DrawAltHUD_powerup_returns (pv : PlayerView) (env : AltHUDEnv)
    (hd : ∀ p ∈ timedPowerups pv env, 0 < p.2) (hsf : 0 ≤ env.STARTFLASHING) :
    ∃ draws, HU_DrawAltHUD_powerup pv env = some draws := by
  rcases selectPowerup_choice pv env with h | ⟨p, hp, _, h⟩ | ⟨_, _, h⟩
  · exact ⟨_, HU_DrawAltHUD_powerup_of_zero pv env hsf (by rw [h])⟩
  · have := hd p hp
    exact ⟨_, HU_DrawAltHUD_powerup_of_max pv env p.2 (by rw [h]) (by omega)⟩
  · exact ⟨_, HU_DrawAltHUD_powerup_of_max pv env (env.STARTFLASHING + 1) (by rw [h])
      (by omega)⟩

/-- The function `HU_DrawAltHUD` returns when none of its divisors is zero:
`maxhealth`, `max_armor`, the `maxammo` of the weapon and the full durations of
the power-ups. -/
theorem HU_DrawAltHUD_returns (pv : PlayerView) (env : AltHUDEnv) (s : HUDState)
    (hh : env.maxhealth ≠ 0) (ha : env.max_armor ≠ 0) (hm : ∀ a, pv.maxammo a ≠ 0)
    (hd : ∀ p ∈ timedPowerups pv env, 0 < p.2) (hsf : 0 ≤ env.STARTFLASHING) :
    ∃ r, HU_DrawAltHUD pv env s = some r := by
  obtain ⟨pd, hpd⟩ := HU_DrawAltHUD_powerup_returns pv env hd hsf
  have h1 : ∃ hd1, HU_DrawAltHUD_health pv env = some hd1 := by
    unfold HU_DrawAltHUD_health
    simp only [divide, hh, if_false]
    split_ifs <;> exact ⟨_, rfl⟩
  have h2 : ∃ ad, HU_DrawAltHUD_armor pv env = some ad := by
    unfold HU_DrawAltHUD_armor
    simp only [divide, ha, if_false]
    split_ifs <;> exact ⟨_, rfl⟩
  have h3 : ∀ health, ∃ md, HU_DrawAltHUD_ammo pv env health = some md := by
    intro health
    unfold HU_DrawAltHUD_ammo
    simp only [divide, hm, if_false]
    split_ifs <;> exact ⟨_, rfl⟩
  obtain ⟨hd1, e1⟩ := h1
  obtain ⟨ad, e2⟩ := h2
  obtain ⟨md, e3⟩ := h3 hd1.1
  unfold HU_DrawAltHUD
  simp only [e1, e2, e3, hpd]
  exact ⟨_, rfl⟩

/-- C27, as the code behaves: while `neededcardflash > 0` and the game is not
paused, a draw of `HU_DrawHUD` at a clock time past `keywait` toggles `showkey`,
sets `keywait` to the current time plus `HUD_KEY_WAIT` and decrements
`neededcardflash` by exactly one when the needed card has a patch loaded, and
leaves the three as they were when it has none; a draw of `HU_DrawAltHUD` at a
clock time past its `keywait` does the same to its own `showkey` and `keywait`
whatever the patches (and it returns when none of its divisors is zero). Over a run of such draws the counter goes down by one a
draw until it is zero and never becomes negative; a draw with the counter at zero
resets `showkey` to false and `keywait` to 0, in both HUDs. -/
theorem C27_needed_key_flash (pv : PlayerView) (env : HUDEnv) (aenv : AltHUDEnv)
    (s : HUDState) (hflash : 0 < s.neededcardflash) (hrun : gamepaused pv = false) :
    ((env.keypics pv.neededcard).isSome = true → s.keywait < pv.currenttime →
      (HU_DrawHUD pv env s).1.showkey = (!s.showkey)
        ∧ (HU_DrawHUD pv env s).1.keywait = pv.currenttime + env.HUD_KEY_WAIT
        ∧ (HU_DrawHUD pv env s).1.neededcardflash = s.neededcardflash - 1
        ∧ 0 ≤ (HU_DrawHUD pv env s).1.neededcardflash) ∧
    ((env.keypics pv.neededcard).isSome = false →
      (HU_DrawHUD pv env s).1.showkey = s.showkey
        ∧ (HU_DrawHUD pv env s).1.keywait = s.keywait
        ∧ (HU_DrawHUD pv env s).1.neededcardflash = s.neededcardflash) ∧
    (s.altkeywait < pv.currenttime →
      (∀ r, HU_DrawAltHUD pv aenv s = some r →
        r.1.altshowkey = (!s.altshowkey)
          ∧ r.1.altkeywait = pv.currenttime + aenv.HUD_KEY_WAIT
          ∧ r.1.neededcardflash = s.neededcardflash - 1
          ∧ 0 ≤ r.1.neededcardflash) ∧
      (aenv.maxhealth ≠ 0 → aenv.max_armor ≠ 0 → (∀ a, pv.maxammo a ≠ 0) →
        (∀ p ∈ timedPowerups pv aenv, 0 < p.2) → 0 ≤ aenv.STARTFLASHING →
        ∃ r, HU_DrawAltHUD pv aenv s = some r)) ∧
    (∀ pvs : List PlayerView, flashDue env pvs s = true →
      (HU_DrawHUD_frames env pvs s).neededcardflash
        = max (s.neededcardflash - pvs.length) 0) ∧
    (∀ pvs : List PlayerView, altFlashDue aenv pvs s = true →
      ∃ s2 : HUDState, HU_DrawAltHUD_frames aenv pvs s = some s2 ∧
        s2.neededcardflash = max (s.neededcardflash - pvs.length) 0) ∧
    (∀ (pv0 : PlayerView) (s0 : HUDState), s0.neededcardflash = 0 →
      ((HU_DrawHUD pv0 env s0).1.showkey = false ∧ (HU_DrawHUD pv0 env s0).1.keywait = 0
        ∧ (HU_DrawHUD pv0 env s0).1.neededcardflash = 0) ∧
      (∀ r, HU_DrawAltHUD pv0 aenv s0 = some r →
        r.1.altshowkey = false ∧ r.1.altkeywait = 0 ∧ r.1.neededcardflash = 0)) := by
  have hne : s.neededcardflash ≠ 0 := by omega
  refine ⟨?_, ?_, ?_, ?_, ?_, ?_⟩
  · intro hp ht
    obtain ⟨h1, h2, h3⟩ := (HU_DrawHUD_flash pv env s).2.1 hne hp hrun ht
    exact ⟨h1, h2, h3, by omega⟩
  · intro hp
    exact (HU_DrawHUD_flash pv env s).2.2 hne (Or.inl hp)
  · intro ht
    refine ⟨?_, HU_DrawAltHUD_returns pv aenv s⟩
    intro r hr
    obtain ⟨h1, h2, h3⟩ := (HU_DrawAltHUD_flash pv aenv s r hr).2.1 hne hrun ht
    exact ⟨h1, h2, h3, by omega⟩
  · intro pvs hdue
    exact HU_DrawHUD_frames_flash env pvs s hdue (by omega)
  · intro pvs hdue
    exact HU_DrawAltHUD_frames_flash aenv pvs s hdue (by omega)
  · intro pv0 s0 h0
    exact ⟨(HU_DrawHUD_flash pv0 env s0).1 h0,
      fun r hr => (HU_DrawAltHUD_flash pv0 aenv s0 r hr).1 h0⟩

theorem C27_needed_key_flash_witness :
    ((HU_DrawHUD samplePlayer sampleHUDEnv sampleFlash).1.showkey = true
      ∧ (HU_DrawHUD samplePlayer sampleHUDEnv sampleFlash).1.keywait = 5250
      ∧ (HU_DrawHUD samplePlayer sampleHUDEnv sampleFlash).1.neededcardflash = 2
      ∧ 0 ≤ (HU_DrawHUD samplePlayer sampleHUDEnv sampleFlash).1.neededcardflash) ∧
    (HU_DrawHUD_frames sampleHUDEnv sampleFrames sampleFlash).neededcardflash = 0 ∧
    (∃ s2 : HUDState, HU_DrawAltHUD_frames sampleAltEnv sampleFrames sampleFlash = some s2 ∧
      s2.neededcardflash = 0) :=
  ⟨(C27_needed_key_flash samplePlayer sampleHUDEnv sampleAltEnv sampleFlash
      (by decide) (by decide)).1 (by decide) (by decide),
   ((C27_needed_key_flash samplePlayer sampleHUDEnv sampleAltEnv sampleFlash
      (by decide) (by decide)).2.2.2.1 sampleFrames (by decide)).trans (by decide),
   (C27_needed_key_flash samplePlayer sampleHUDEnv sampleAltEnv sampleFlash
      (by decide) (by decide)).2.2.2.2.1 sampleFrames (by decide)⟩

/-- C27, the claim as stated fails for the classic HUD: with the skull keys
without a patch and the blue skull key needed, a draw with `neededcardflash` at
3, the game running and the clock past `keywait` leaves `showkey`, `keywait` and
the counter as they were, and three such draws leave the counter at 3. -/
theorem C27_counterexample :
    0 < sampleFlash.neededcardflash ∧
    gamepaused { samplePlayer with neededcard := 3 } = false ∧
    sampleFlash.keywait < ({ samplePlayer with neededcard := 3 } : PlayerView).currenttime ∧
    (HU_DrawHUD { samplePlayer with neededcard := 3 } sampleSharewareEnv sampleFlash).1.showkey
      = sampleFlash.showkey ∧
    (HU_DrawHUD { samplePlayer with neededcard := 3 } sampleSharewareEnv sampleFlash).1.keywait
      = sampleFlash.keywait ∧
    (HU_DrawHUD { samplePlayer with neededcard := 3 } sampleSharewareEnv
      sampleFlash).1.neededcardflash = 3 ∧
    (HU_DrawHUD_frames sampleSharewareEnv
      (sampleFrames.map (fun f => { f with neededcard := 3 })) sampleFlash).neededcardflash
      = 3 := by
  refine ⟨?_, ?_, ?_, ?_, ?_, ?_, ?_⟩ <;> decide

end DoomRetro
